import Mathlib

/-!
# lidl-connect

A model of `lidl-connect.go`: the binary64 arithmetic behind the percentage and
day-count fields, the request construction, the tag-driven decoding of the
responses and the pipeline of `main`, followed by the properties established
for them.
-/

namespace LidlConnect

/-! ## binary64 arithmetic -/

/-- Nearest integer, ties to even: the rounding applied to a significand. -/
def rne (x : ℚ) : ℤ :=
  if x - ⌊x⌋ < 1 / 2 then ⌊x⌋
  else if 1 / 2 < x - ⌊x⌋ then ⌊x⌋ + 1
  else if ⌊x⌋ % 2 = 0 then ⌊x⌋ else ⌊x⌋ + 1

/-- Exponent of the binade of `x`, held at `-1022` in the subnormal range. -/
def expo (x : ℚ) : ℤ := max (Int.log 2 |x|) (-1022)

/-- Rounding of a rational to the binary64 grid (53-bit significand, round to nearest,
ties to even, gradual underflow), before the overflow test. -/
def fl (x : ℚ) : ℚ := rne (x / 2 ^ (expo x - 52)) * 2 ^ (expo x - 52)

/-- Nearest integer, halves away from zero: the value `math.Round` returns on a finite
argument. -/
def roundAway (x : ℚ) : ℤ := if 0 ≤ x then ⌊x + 1 / 2⌋ else -⌊-x + 1 / 2⌋

/-- A `float64` value: not-a-number, an infinity with its sign, or a finite value.
The two zeros are not told apart; the program never divides by a negative zero. -/
inductive F64 where
  | nan : F64
  | inf (neg : Bool) : F64
  | fin (q : ℚ) : F64
  deriving DecidableEq

namespace F64

/-- Correctly rounded result of an exact value: overflow gives an infinity. -/
def ofRat (x : ℚ) : F64 :=
  if 2 ^ 1024 ≤ |fl x| then inf (decide (x < 0)) else fin (fl x)

/-- The conversion `float64(n)` of an unsigned integer. -/
def ofNat (n : ℕ) : F64 := ofRat n

/-- The conversion `float64(n)` of a signed integer. -/
def ofInt (n : ℤ) : F64 := ofRat n

/-- The `float64` product. -/
def mul : F64 → F64 → F64
  | nan, _ => nan
  | _, nan => nan
  | inf s, inf t => inf (xor s t)
  | inf s, fin b => if b = 0 then nan else inf (xor s (decide (b < 0)))
  | fin a, inf t => if a = 0 then nan else inf (xor (decide (a < 0)) t)
  | fin a, fin b => ofRat (a * b)

/-- The `float64` quotient: a zero divisor gives not-a-number for a zero dividend and an
infinity otherwise. -/
def div : F64 → F64 → F64
  | nan, _ => nan
  | _, nan => nan
  | inf _, inf _ => nan
  | inf s, fin b => inf (xor s (decide (b < 0)))
  | fin _, inf _ => fin 0
  | fin a, fin b =>
    if b = 0 then (if a = 0 then nan else inf (decide (a < 0))) else ofRat (a / b)

/-- The `float64` sum. -/
def add : F64 → F64 → F64
  | nan, _ => nan
  | _, nan => nan
  | inf s, inf t => if s = t then inf s else nan
  | inf s, fin _ => inf s
  | fin _, inf t => inf t
  | fin a, fin b => ofRat (a + b)

/-- The function `math.Round`: infinities and not-a-number are returned as they are. -/
def Round : F64 → F64
  | fin q => fin (roundAway q)
  | x => x

/-- Whether the value is a number that `encoding/json` can write. -/
def isFinite : F64 → Bool
  | fin _ => true
  | _ => false

end F64

/-- The function `round`: `math.Round(val*ratio) / ratio` with
`ratio = math.Pow(10, float64(precision))`; every call site passes precision `0`. -/
def round (val : F64) (precision : ℕ) : F64 :=
  let ratio := F64.ofRat (10 ^ precision)
  F64.div (F64.Round (F64.mul val ratio)) ratio

/-! ## Time -/

/-- A `time.Time` read from a response or from the wall clock: the instant in nanoseconds
since the zero time (1 January of year 1, UTC) and the zone offset it carries. -/
structure Time where
  ns : ℤ
  zone : ℤ
  deriving DecidableEq

/-- The zero `time.Time`. -/
def Time.zero : Time := ⟨0, 0⟩

/-- Smallest `time.Duration`. -/
def minDuration : ℤ := -2 ^ 63

/-- Largest `time.Duration`. -/
def maxDuration : ℤ := 2 ^ 63 - 1

/-- The method `Time.Sub` on wall-clock readings: the difference in nanoseconds, held at
the smallest or largest duration when it does not fit in 64 bits. -/
def Time.Sub (t u : Time) : ℤ :=
  if t.ns - u.ns < minDuration then minDuration
  else if maxDuration < t.ns - u.ns then maxDuration
  else t.ns - u.ns

/-- The constant `time.Hour` in nanoseconds. -/
def Hour : ℤ := 60 * 60 * 1000000000

/-- The method `Duration.Hours`: whole hours plus the remaining nanoseconds as a fraction
of an hour, both parts taken with the sign of the duration. -/
def Duration.Hours (d : ℤ) : F64 :=
  let hour := Int.tdiv d Hour
  let nsec := Int.tmod d Hour
  F64.add (F64.ofInt hour) (F64.div (F64.ofInt nsec) (F64.ofRat (60 * 60 * 1000000000)))

/-! ## Records -/

/-- The record `Configuration`. -/
structure Configuration where
  Grant_type : String
  Client_id : String
  Client_secret : String
  Username : String
  Password : String
  deriving DecidableEq

/-- The record `Token`. -/
structure Token where
  Grant_type : String
  Expires_in : ℤ
  Access_token : String
  Refresh_token : String
  deriving DecidableEq

/-- The record `Consumption`; the unsigned fields are 64 bits wide and the field `Type`
is spelled `Typ`. -/
structure Consumption where
  Consumed : ℕ
  Left : ℕ
  Max : ℕ
  Unit : String
  Typ : String
  ExpirationDate : Time
  ConsumedPercent : F64
  LeftPercent : F64
  DaysLeft : F64
  deriving DecidableEq

/-- The record `Consumptions`; `none` is the nil slice. -/
structure Consumptions where
  Consumptions : Option (List Consumption)

/-- The record `Balance`. -/
structure Balance where
  Balance : ℕ
  deriving DecidableEq

/-- The record `Tariff`. -/
structure Tariff where
  Name : String
  Fee : ℕ
  RenewDate : Time
  deriving DecidableEq

/-- The record `Output`. -/
structure Output where
  Consumptions : Option (List Consumption)
  Balance : ℕ
  Tariff : Tariff

/-! ## JSON documents -/

/-- A JSON value as the decoders and the encoder see it. A number is `num` with its value
when it is written the way the encoder writes that value, a whole number in plain digits
with a minus sign before them when it is negative; a number written another way (`100.0`,
`1e2`, `-0`) is `lit` with its text. -/
inductive JSON where
  | null : JSON
  | bool (b : Bool) : JSON
  | num (q : ℚ) : JSON
  | str (s : String) : JSON
  | arr (xs : List JSON) : JSON
  | obj (kvs : List (String × JSON)) : JSON
  | lit (text : String) : JSON

/-- The call `strconv.ParseUint(s, 10, 64)`: decimal digits only, at least one, and a value
below `2 ^ 64`. -/
def parseUint (s : String) : Option ℕ :=
  if s.data ≠ [] ∧ s.data.all Char.isDigit = true then
    let n := s.data.foldl (fun acc c => 10 * acc + (c.toNat - 48)) 0
    if n < 2 ^ 64 then some n else none
  else none

namespace JSON

/-- The member of an object with the given name, the first one when the name occurs
twice. -/
def member (j : JSON) (key : String) : Option JSON :=
  match j with
  | obj kvs => kvs.lookup key
  | _ => none

/-- The value reached by following member names from the root. -/
def path (j : JSON) : List String → Option JSON
  | [] => some j
  | k :: ks =>
    match j.member k with
    | some v => v.path ks
    | none => none

/-- A string field read by njson: the text of the value at the path. A string gives its
content and another scalar the text it is written with (`42` gives `"42"`, `true` gives
`"true"`); null and an absent path give the empty string. The text of an array or an object
is not held by the tree and reads as empty here. -/
def asString : Option JSON → String
  | some (str s) => s
  | some (num q) => if q.den = 1 then toString q.num else ""
  | some (lit text) => text
  | some (bool true) => "true"
  | some (bool false) => "false"
  | _ => ""

/-- A `uint` field read by njson: the text of the value at the path must be a decimal
whole number below `2 ^ 64`. Anything else, an absent path and the literals `100.0` and
`1e2` included, is an error (`none`). -/
def asUint : Option JSON → Option ℕ
  | some (num q) =>
    match q.num with
    | Int.ofNat n => if q.den = 1 ∧ n < 2 ^ 64 then some n else none
    | Int.negSucc _ => none
  | some (str s) => parseUint s
  | _ => none

/-- A `time.Time` field read by njson: a string is read as a timestamp and null leaves the
zero time; a string that is no timestamp, a value of another type and an absent path are
errors (`none`). -/
def asTime (parseTime : String → Option Time) : Option JSON → Option Time
  | some (str s) => parseTime s
  | some null => some Time.zero
  | _ => none

end JSON

/-! ## Requests -/

/-- What a request carries: fixed bytes, or the encoding of a document. -/
inductive Payload where
  | raw (s : String) : Payload
  | json (j : JSON) : Payload

/-- An HTTP request as built by `http.NewRequest` and `Header.Set`. -/
structure Request where
  method : String
  url : String
  header : List (String × String)
  body : Payload

/-- The function `http.NewRequest`: no header is set yet. -/
def NewRequest (method url : String) (body : Payload) : Request := ⟨method, url, [], body⟩

/-- The method `Header.Set`: the entry replaces any earlier one of the same name. -/
def Request.Set (r : Request) (key value : String) : Request :=
  { r with header := r.header.filter (fun p => p.1 != key) ++ [(key, value)] }

/-- The method `Header.Get`. -/
def Request.Get (r : Request) (key : String) : Option String := r.header.lookup key

/-- The address of the token endpoint. -/
def tokenUrl : String := "https://api.lidl-connect.de/api/token"

/-- The address of the GraphQL endpoint, the `apiUrl` of the three fetches. -/
def apiUrl : String := "https://api.lidl-connect.de/api/graphql"

/-- The bytes `jsonData` of `getConsumption`. -/
def consumptionQuery : String :=
  "\x7b\n\t\t\"operation\": \"consumptions\",\n\t\t\"variables\": \x7b\x7d,\n\t\t\"query\": \"query consumptions \x7b\\n  consumptions \x7b\\n    consumptionsForUnit \x7b\\n      consumed\\n      unit\\n      formattedUnit\\n      type\\n      description\\n      expirationDate\\n      left\\n      max\\n      __typename\\n    \x7d\\n    __typename\\n  \x7d\\n\x7d\\n\"\n\t\x7d"

/-- The bytes `jsonData` of `getBalance`. -/
def balanceQuery : String :=
  "\x7b\n\t\t\"operation\": \"balanceInfo\",\n\t\t\"variables\": \x7b\x7d,\n\t\t\"query\": \"query balanceInfo \x7b\\n  currentCustomer \x7b\\n    balance\\n    __typename\\n  \x7d\\n\x7d\\n\"\n\t\x7d"

/-- The bytes `jsonData` of `getTariff`. -/
def tariffQuery : String :=
  "\x7b\n\t\t\"operation\": \"bookedTariff\",\n\t\t\"variables\": \x7b\x7d,\n\t\t\"query\": \"query bookedTariff \x7b\\n  tariffs \x7b\\n    bookableTariffs \x7b\\n      bookableTariffs \x7b\\n        tariffId\\n        __typename\\n      \x7d\\n      __typename\\n    \x7d\\n    bookedTariff \x7b\\n      tariffId\\n      name\\n      basicFee\\n      statusKey\\n      smsFlat\\n      cancelable\\n      tariffChangePossible\\n      isPendingTariff\\n      isSuspendedActive\\n      phoneFlat\\n      tariffState\\n      renewContractDate\\n      possibleChangingDate\\n      terminationDate\\n      changeTariffDate\\n      runtime \x7b\\n        amount\\n        unit\\n        __typename\\n      \x7d\\n      __typename\\n    \x7d\\n    pendingTariff \x7b\\n      tariffId\\n      name\\n      tariffState\\n      basicFee\\n      tariffChangePossible\\n      isPendingTariff\\n      isSuspendedActive\\n      cancelable\\n      statusKey\\n      smsFlat\\n      phoneFlat\\n      phoneFlat\\n      tariffState\\n      renewContractDate\\n      possibleChangingDate\\n      terminationDate\\n      changeTariffDate\\n      runtime \x7b\\n        amount\\n        unit\\n        __typename\\n      \x7d\\n      __typename\\n    \x7d\\n    __typename\\n  \x7d\\n\x7d\\n\"\n\t\x7d"

/-- The encoding `json.Marshal(config)` sent by `getToken`. -/
def Configuration.toJSON (config : Configuration) : JSON :=
  JSON.obj [("grant_type", JSON.str config.Grant_type), ("client_id", JSON.str config.Client_id),
    ("client_secret", JSON.str config.Client_secret), ("username", JSON.str config.Username),
    ("password", JSON.str config.Password)]

/-- The request of `getToken`. -/
def tokenRequest (config : Configuration) : Request :=
  (NewRequest "POST" tokenUrl (Payload.json config.toJSON)).Set
    "Content-Type" "application/json; charset=UTF-8"

/-- The request of `getConsumption`. -/
def consumptionRequest (token : Token) : Request :=
  ((NewRequest "POST" apiUrl (Payload.raw consumptionQuery)).Set
    "Content-Type" "application/json; charset=UTF-8").Set
    "Authorization" ("Bearer " ++ token.Access_token)

/-- The request of `getBalance`. -/
def balanceRequest (token : Token) : Request :=
  ((NewRequest "POST" apiUrl (Payload.raw balanceQuery)).Set
    "Content-Type" "application/json; charset=UTF-8").Set
    "Authorization" ("Bearer " ++ token.Access_token)

/-- The request of `getTariff`. -/
def tariffRequest (token : Token) : Request :=
  ((NewRequest "POST" apiUrl (Payload.raw tariffQuery)).Set
    "Content-Type" "application/json; charset=UTF-8").Set
    "Authorization" ("Bearer " ++ token.Access_token)
/-- Values on the binary64 grid: a significand of at most 53 bits times a power of two
not below the smallest subnormal. -/
def Rep (x : ℚ) : Prop := ∃ n k : ℤ, |n| ≤ 2 ^ 53 ∧ -1074 ≤ k ∧ x = n * 2 ^ k


/-! ## The environment and the effects of a run -/

/-- What the program meets outside itself: the outcome of loading the configuration file
(an error, or the settings of the file as `viper.GetString` reads them, by key), the
outcome of sending a request (a transport error, or the response body: `none` when its
bytes are not a JSON text), the wall clock, and the reading and writing of timestamps done
by the JSON methods of `time.Time`. -/
structure World where
  readInConfig : String → String → List String → Except String (List (String × String))
  Do : Request → Except String (Option JSON)
  now : Time
  parseTime : String → Option Time
  formatTime : Time → String

/-- An effect of the program, in the order performed. `printf json` is
`fmt.Printf("%s\n", json)`: the bytes of the document, none for the nil slice, and a
newline on standard output. -/
inductive Event where
  | readInConfig : Event
  | send (r : Request) : Event
  | now : Event
  | printf (json : Option JSON) : Event

/-- A stretch of execution: the effects performed and either the value produced or the
value of the panic that ended it. -/
structure Step (α : Type) where
  events : List Event
  result : Except String α

/-- Sequencing: a panic in the first stretch ends the run. -/
def Step.andThen {α β : Type} (s : Step α) (f : α → Step β) : Step β :=
  match s.result with
  | Except.error err => ⟨s.events, Except.error err⟩
  | Except.ok a => ⟨s.events ++ (f a).events, (f a).result⟩

/-! ## Configuration -/

/-- The part of the viper registry the program uses. -/
structure Viper where
  defaults : List (String × String)
  configName : String
  configType : String
  configPaths : List String
  config : List (String × String)

namespace Viper

/-- The registry before any call. -/
def new : Viper := ⟨[], "config", "", [], []⟩

/-- The function `viper.SetDefault`. -/
def SetDefault (v : Viper) (key value : String) : Viper :=
  { v with defaults := (key, value) :: v.defaults.filter (fun p => p.1 != key) }

/-- The function `viper.SetConfigName`. -/
def SetConfigName (v : Viper) (name : String) : Viper := { v with configName := name }

/-- The function `viper.SetConfigType`. -/
def SetConfigType (v : Viper) (type : String) : Viper := { v with configType := type }

/-- The function `viper.AddConfigPath`. -/
def AddConfigPath (v : Viper) (dir : String) : Viper :=
  { v with configPaths := v.configPaths ++ [dir] }

/-- The function `viper.ReadInConfig`. -/
def ReadInConfig (v : Viper) (w : World) : Except String Viper :=
  match w.readInConfig v.configName v.configType v.configPaths with
  | Except.error err => Except.error err
  | Except.ok settings => Except.ok { v with config := settings }

/-- The function `viper.GetString`: the setting of the file, else the default, else the
empty string. -/
def GetString (v : Viper) (key : String) : String :=
  match v.config.lookup key with
  | some value => value
  | none =>
    match v.defaults.lookup key with
    | some value => value
    | none => ""

end Viper

/-- The function `getConfiguration`. -/
def getConfiguration (w : World) : Step Configuration :=
  let v := Viper.new.SetDefault "client_id" "lidl"
  let v := v.SetDefault "client_secret" "lidl"
  let v := v.SetDefault "grant_type" "password"
  let v := v.SetConfigName "config"
  let v := v.SetConfigType "json"
  let v := v.AddConfigPath "$HOME/.config/lidl-connect"
  match v.ReadInConfig w with
  | Except.error err => ⟨[Event.readInConfig], Except.error err⟩
  | Except.ok v =>
    ⟨[Event.readInConfig], Except.ok
      { Grant_type := v.GetString "grant_type"
        Client_id := v.GetString "client_id"
        Client_secret := v.GetString "client_secret"
        Username := v.GetString "username"
        Password := v.GetString "password" }⟩

/-! ## Decoding

The calls `json.Unmarshal` (encoding/json) and `njson.Unmarshal` (njson v1.0.8 over gjson)
are library code outside `lidl-connect.go`; the definitions of this section model what
these calls leave in the record they are given. The error a call returns is dropped at
every call site, so a decoder gives the record alone, filled as far as the call got.

`njson.Unmarshal` fills the tagged fields in the order of their declaration, each from the
value at its path, and returns at the first value it cannot read: the fields after it keep
their zero values. A slice field is built element by element from the array at its path,
each element read by the tags of its own fields, and is assigned only when every element
was read; an absent path and null give the empty slice. A body that is not a JSON text
leaves the whole record untouched. -/

/-- The key comparison of encoding/json, which takes a member for a field when the names
are equal under simple case folding: the letters fold to lower case and the long s and the
Kelvin sign to `s` and `k`. -/
def foldKey (key : String) : String :=
  String.mk (key.data.map (fun c =>
    if c = Char.ofNat 0x17F then 's' else if c = Char.ofNat 0x212A then 'k' else c.toLower))

/-- One member of the body stored by `json.Unmarshal` into the token: a string into a
string field, a whole number of the 64-bit range into `Expires_in`; a member of no field,
null and a value of another type leave the token as it is. -/
def Token.assign (token : Token) (key : String) (v : JSON) : Token :=
  if foldKey key = "grant_type" then
    match v with
    | JSON.str s => { token with Grant_type := s }
    | _ => token
  else if foldKey key = "expires_in" then
    match v with
    | JSON.num q =>
      if q.den = 1 ∧ q.num < 2 ^ 63 ∧ -q.num ≤ 2 ^ 63 then { token with Expires_in := q.num }
      else token
    | _ => token
  else if foldKey key = "access_token" then
    match v with
    | JSON.str s => { token with Access_token := s }
    | _ => token
  else if foldKey key = "refresh_token" then
    match v with
    | JSON.str s => { token with Refresh_token := s }
    | _ => token
  else token

/-- The call `json.Unmarshal(body, &token)`: the members of the object are stored one after
the other, a later member of the same field over an earlier one; a body that is not an
object leaves the zero token. -/
def unmarshalToken (body : Option JSON) : Token :=
  match body with
  | some (JSON.obj kvs) => kvs.foldl (fun token kv => token.assign kv.1 kv.2) ⟨"", 0, "", ""⟩
  | _ => ⟨"", 0, "", ""⟩

/-- One element of the consumption array read into a `Consumption` by its `json` tags,
`none` when one of its values cannot be read. -/
def unmarshalConsumption (parseTime : String → Option Time) (j : JSON) : Option Consumption :=
  match JSON.asUint (j.member "consumed"), JSON.asUint (j.member "left"),
    JSON.asUint (j.member "max"), JSON.asTime parseTime (j.member "expirationDate") with
  | some consumed, some left, some max, some expirationDate =>
    some
      { Consumed := consumed
        Left := left
        Max := max
        Unit := JSON.asString (j.member "unit")
        Typ := JSON.asString (j.member "type")
        ExpirationDate := expirationDate
        ConsumedPercent := F64.fin 0
        LeftPercent := F64.fin 0
        DaysLeft := F64.fin 0 }
  | _, _, _, _ => none

/-- The elements of the consumption array read in order, `none` when one of them cannot be
read. -/
def unmarshalElements (parseTime : String → Option Time) : List JSON → Option (List Consumption)
  | [] => some []
  | x :: xs =>
    match unmarshalConsumption parseTime x, unmarshalElements parseTime xs with
    | some c, some cs => some (c :: cs)
    | _, _ => none

/-- The call `njson.Unmarshal(body, &data)` of `getConsumption`, tag
`data.consumptions.consumptionsForUnit`: the slice stays nil when the body is not a JSON
text or an element cannot be read, and is empty when the path is absent or null. A value at
the path that is not an array is read as the one element of the list. -/
def unmarshalConsumptions (parseTime : String → Option Time) (body : Option JSON) :
    Consumptions :=
  match body with
  | some j =>
    match j.path ["data", "consumptions", "consumptionsForUnit"] with
    | none => ⟨some []⟩
    | some JSON.null => ⟨some []⟩
    | some (JSON.arr xs) => ⟨unmarshalElements parseTime xs⟩
    | some v => ⟨unmarshalElements parseTime [v]⟩
  | none => ⟨none⟩

/-- The call `njson.Unmarshal(body, &data)` of `getBalance`, tag
`data.currentCustomer.balance`. -/
def unmarshalBalance (body : Option JSON) : Balance :=
  match body with
  | some j =>
    match JSON.asUint (j.path ["data", "currentCustomer", "balance"]) with
    | some balance => ⟨balance⟩
    | none => ⟨0⟩
  | none => ⟨0⟩

/-- The call `njson.Unmarshal(body, &data)` of `getTariff`, tags
`data.tariffs.bookedTariff.name`, `.basicFee` and `.renewContractDate`, read in this
order. -/
def unmarshalTariff (parseTime : String → Option Time) (body : Option JSON) : Tariff :=
  match body with
  | some j =>
    let name := JSON.asString (j.path ["data", "tariffs", "bookedTariff", "name"])
    match JSON.asUint (j.path ["data", "tariffs", "bookedTariff", "basicFee"]) with
    | none => ⟨name, 0, Time.zero⟩
    | some fee =>
      match JSON.asTime parseTime
        (j.path ["data", "tariffs", "bookedTariff", "renewContractDate"]) with
      | none => ⟨name, fee, Time.zero⟩
      | some renewDate => ⟨name, fee, renewDate⟩
  | none => ⟨"", 0, Time.zero⟩

/-! ## The fetches -/

/-- The function `getToken`. -/
def getToken (w : World) (config : Configuration) : Step Token :=
  match w.Do (tokenRequest config) with
  | Except.error err => ⟨[Event.send (tokenRequest config)], Except.error err⟩
  | Except.ok body => ⟨[Event.send (tokenRequest config)], Except.ok (unmarshalToken body)⟩

/-- The percentage `round(float64(value)/float64(max)*100, 0)`. -/
def percent (value max : ℕ) : F64 :=
  round (F64.mul (F64.div (F64.ofNat value) (F64.ofNat max)) (F64.ofRat 100)) 0

/-- The day count `round(diff.Hours()/24, 0)` with `diff := expirationDate.Sub(date)`. -/
def daysLeft (expirationDate date : Time) : F64 :=
  round (F64.div (Duration.Hours (expirationDate.Sub date)) (F64.ofRat 24)) 0

/-- The body of the loop of `getConsumption`, applied to one element. -/
def fillConsumption (date : Time) (consumption : Consumption) : Consumption :=
  { consumption with
    LeftPercent := percent consumption.Left consumption.Max
    ConsumedPercent := percent consumption.Consumed consumption.Max
    DaysLeft := daysLeft consumption.ExpirationDate date }

/-- The function `getConsumption`. -/
def getConsumption (w : World) (token : Token) : Step Consumptions :=
  match w.Do (consumptionRequest token) with
  | Except.error err => ⟨[Event.send (consumptionRequest token)], Except.error err⟩
  | Except.ok body =>
    let data := unmarshalConsumptions w.parseTime body
    let date := w.now
    ⟨[Event.send (consumptionRequest token), Event.now],
      Except.ok ⟨data.Consumptions.map (List.map (fillConsumption date))⟩⟩

/-- The function `getBalance`. -/
def getBalance (w : World) (token : Token) : Step Balance :=
  match w.Do (balanceRequest token) with
  | Except.error err => ⟨[Event.send (balanceRequest token)], Except.error err⟩
  | Except.ok body => ⟨[Event.send (balanceRequest token)], Except.ok (unmarshalBalance body)⟩

/-- The function `getTariff`. -/
def getTariff (w : World) (token : Token) : Step Tariff :=
  match w.Do (tariffRequest token) with
  | Except.error err => ⟨[Event.send (tariffRequest token)], Except.error err⟩
  | Except.ok body =>
    ⟨[Event.send (tariffRequest token)], Except.ok (unmarshalTariff w.parseTime body)⟩

/-! ## Encoding and output -/

/-- A `float64` member: `encoding/json` refuses infinities and not-a-number. -/
def F64.toJSON : F64 → Except String JSON
  | F64.fin q => Except.ok (JSON.num q)
  | _ => Except.error "json: unsupported value"

/-- The encoding of a `Consumption`: tagged members first, the three untagged fields under
their field names. -/
def Consumption.toJSON (formatTime : Time → String) (c : Consumption) : Except String JSON :=
  match c.ConsumedPercent.toJSON, c.LeftPercent.toJSON, c.DaysLeft.toJSON with
  | Except.ok cp, Except.ok lp, Except.ok dl =>
    Except.ok (JSON.obj [("consumed", JSON.num c.Consumed), ("left", JSON.num c.Left),
      ("max", JSON.num c.Max), ("unit", JSON.str c.Unit), ("type", JSON.str c.Typ),
      ("expirationDate", JSON.str (formatTime c.ExpirationDate)),
      ("ConsumedPercent", cp), ("LeftPercent", lp), ("DaysLeft", dl)])
  | Except.error err, _, _ => Except.error err
  | _, Except.error err, _ => Except.error err
  | _, _, Except.error err => Except.error err

/-- The encoding of the elements of a slice, stopping at the first error. -/
def marshalList (formatTime : Time → String) : List Consumption → Except String (List JSON)
  | [] => Except.ok []
  | c :: cs =>
    match c.toJSON formatTime with
    | Except.error err => Except.error err
    | Except.ok j =>
      match marshalList formatTime cs with
      | Except.error err => Except.error err
      | Except.ok js => Except.ok (j :: js)

/-- The encoding of a `Tariff`. -/
def Tariff.toJSON (formatTime : Time → String) (t : Tariff) : JSON :=
  JSON.obj [("Name", JSON.str t.Name), ("Fee", JSON.num t.Fee),
    ("RenewDate", JSON.str (formatTime t.RenewDate))]

/-- The call `json.Marshal(output)`; the nil slice is written as `null`. -/
def Marshal (formatTime : Time → String) (output : Output) : Except String JSON :=
  match output.Consumptions with
  | none =>
    Except.ok (JSON.obj [("Consumptions", JSON.null), ("Balance", JSON.num output.Balance),
      ("Tariff", output.Tariff.toJSON formatTime)])
  | some cs =>
    match marshalList formatTime cs with
    | Except.error err => Except.error err
    | Except.ok js =>
      Except.ok (JSON.obj [("Consumptions", JSON.arr js), ("Balance", JSON.num output.Balance),
        ("Tariff", output.Tariff.toJSON formatTime)])

/-- The last two lines of `main`: the error of `json.Marshal` is dropped, which leaves
the nil slice to print. -/
def emit (w : World) (output : Output) : Step Unit :=
  match Marshal w.formatTime output with
  | Except.ok json => ⟨[Event.printf (some json)], Except.ok ()⟩
  | Except.error _ => ⟨[Event.printf none], Except.ok ()⟩

/-- The function `main`. -/
def main (w : World) : Step Unit :=
  (getConfiguration w).andThen fun config =>
  (getToken w config).andThen fun token =>
  (getConsumption w token).andThen fun consumptions =>
  (getBalance w token).andThen fun balance =>
  (getTariff w token).andThen fun tariff =>
  emit w ⟨consumptions.Consumptions, balance.Balance, tariff⟩

/-! ## Closed forms and sample runs -/

/-- The value the percentage rounds: the quotient of the converted operands, rounded, times
one hundred, rounded. -/
def pctRaw (c m : ℕ) : ℚ := fl (fl (fl c / fl m) * 100)

/-- The value `Duration.Hours` returns: the fraction of an hour is rounded, then the sum. -/
def hoursRaw (d : ℤ) : ℚ :=
  fl ((Int.tdiv d Hour : ℤ) + fl ((Int.tmod d Hour : ℤ) / 3600000000000))

/-- The value the day count rounds. -/
def daysRaw (d : ℤ) : ℚ := fl (hoursRaw d / 24)

/-- A response to the consumption query holding one element. -/
def consumptionBody (consumed left max : ℕ) (expirationDate : String) : JSON :=
  JSON.obj [("data", JSON.obj [("consumptions", JSON.obj [("consumptionsForUnit",
    JSON.arr [JSON.obj [("consumed", JSON.num consumed), ("unit", JSON.str "GB"),
      ("type", JSON.str "DATA"), ("expirationDate", JSON.str expirationDate),
      ("left", JSON.num left), ("max", JSON.num max)]])])])]

/-- An environment with an empty configuration file whose server answers every request
with the same body, and in which every timestamp reads as `expiration`. -/
def server (body : Option JSON) (now expiration : Time) : World :=
  { readInConfig := fun _ _ _ => Except.ok []
    Do := fun _ => Except.ok body
    now := now
    parseTime := fun _ => some expiration
    formatTime := fun _ => "" }

/-- The record `getConsumption` returns for the one element of `consumptionBody`. -/
def record (consumed left max : ℕ) (now expiration : Time) : Consumption :=
  fillConsumption now
    ⟨consumed, left, max, "GB", "DATA", expiration, F64.fin 0, F64.fin 0, F64.fin 0⟩

/-- The requests sent, in order. -/
def sends : List Event → List Request
  | [] => []
  | Event.send r :: es => r :: sends es
  | _ :: es => sends es

/-- What was written to standard output, line by line: a document, or nothing before the
newline. -/
def outputs : List Event → List (Option JSON)
  | [] => []
  | Event.printf json :: es => json :: outputs es
  | _ :: es => outputs es

/-- An environment like `server` whose configuration file holds the given settings. -/
def configured (settings : List (String × String)) : World :=
  { server none Time.zero Time.zero with readInConfig := fun _ _ _ => Except.ok settings }

/-- An element of the consumption array whose six members are present with values of the
types of the fields: whole numbers below `2 ^ 64`, strings, and a string that reads as a
timestamp. -/
def Typed (parseTime : String → Option Time) (x : JSON) : Prop :=
  (∃ n : ℕ, n < 2 ^ 64 ∧ x.member "consumed" = some (JSON.num n)) ∧
  (∃ n : ℕ, n < 2 ^ 64 ∧ x.member "left" = some (JSON.num n)) ∧
  (∃ n : ℕ, n < 2 ^ 64 ∧ x.member "max" = some (JSON.num n)) ∧
  (∃ s : String, x.member "unit" = some (JSON.str s)) ∧
  (∃ s : String, x.member "type" = some (JSON.str s)) ∧
  (∃ (s : String) (t : Time), x.member "expirationDate" = some (JSON.str s) ∧
    parseTime s = some t)

/-- An element of the consumption array and the record read from it agree on every member
that is present with a value of the field's type. -/
def Carries (parseTime : String → Option Time) (x : JSON) (c : Consumption) : Prop :=
  (∀ n : ℕ, n < 2 ^ 64 → x.member "consumed" = some (JSON.num n) → c.Consumed = n) ∧
  (∀ n : ℕ, n < 2 ^ 64 → x.member "left" = some (JSON.num n) → c.Left = n) ∧
  (∀ n : ℕ, n < 2 ^ 64 → x.member "max" = some (JSON.num n) → c.Max = n) ∧
  (∀ s : String, x.member "unit" = some (JSON.str s) → c.Unit = s) ∧
  (∀ s : String, x.member "type" = some (JSON.str s) → c.Typ = s) ∧
  (∀ (s : String) (t : Time), x.member "expirationDate" = some (JSON.str s) →
    parseTime s = some t → c.ExpirationDate = t)

/-- A response to the balance query. -/
def balanceBody (balance : ℕ) : JSON :=
  JSON.obj [("data", JSON.obj [("currentCustomer", JSON.obj [("balance", JSON.num balance),
    ("__typename", JSON.str "Customer")])])]

/-- A response to the tariff query. -/
def tariffBody (name : String) (fee : ℕ) (renew : String) : JSON :=
  JSON.obj [("data", JSON.obj [("tariffs", JSON.obj [("bookedTariff",
    JSON.obj [("tariffId", JSON.str "T1"), ("name", JSON.str name),
      ("basicFee", JSON.num fee), ("renewContractDate", JSON.str renew)])])])]

/-! # Properties -/

/-! ### Rounding to the binary64 grid -/

theorem rne_cases (x : ℚ) : rne x = ⌊x⌋ ∨ rne x = ⌊x⌋ + 1 := by
  unfold rne; split_ifs <;> simp

theorem rne_sub_le (x : ℚ) : |(rne x : ℚ) - x| ≤ 1 / 2 := by
  have h0 := Int.floor_le x
  have h1 := Int.lt_floor_add_one x
  unfold rne
  split_ifs with h2 h3 h4
  · rw [abs_le]; constructor <;> linarith
  · rw [abs_le]; push_cast; constructor <;> linarith
  · rw [abs_le]; constructor <;> linarith
  · rw [abs_le]; push_cast; constructor <;> linarith

theorem rne_eq_of_lt (x : ℚ) (n : ℤ) (h : |x - n| < 1 / 2) : rne x = n := by
  rw [abs_lt] at h
  have h0 := Int.floor_le x
  have h1 := Int.lt_floor_add_one x
  rcases rne_cases x with hc | hc
  · have h2 := rne_sub_le x
    rw [abs_le] at h2
    rw [hc] at h2 ⊢
    have : ((⌊x⌋ - n : ℤ) : ℚ) < 1 := by push_cast; linarith
    have : (-1 : ℚ) < ((⌊x⌋ - n : ℤ) : ℚ) := by push_cast; linarith
    have h3 : ⌊x⌋ - n < 1 := by exact_mod_cast ‹((⌊x⌋ - n : ℤ) : ℚ) < 1›
    have h4 : -1 < ⌊x⌋ - n := by exact_mod_cast this
    omega
  · have h2 := rne_sub_le x
    rw [abs_le] at h2
    rw [hc] at h2 ⊢
    push_cast at h2
    have h5 : ((⌊x⌋ + 1 - n : ℤ) : ℚ) < 1 := by push_cast; linarith
    have h6 : (-1 : ℚ) < ((⌊x⌋ + 1 - n : ℤ) : ℚ) := by push_cast; linarith
    have h3 : ⌊x⌋ + 1 - n < 1 := by exact_mod_cast h5
    have h4 : -1 < ⌊x⌋ + 1 - n := by exact_mod_cast h6
    omega

theorem rne_intCast (n : ℤ) : rne (n : ℚ) = n :=
  rne_eq_of_lt _ n (by simp)

theorem rne_mono {x y : ℚ} (h : x ≤ y) : rne x ≤ rne y := by
  have hf : ⌊x⌋ ≤ ⌊y⌋ := Int.floor_mono h
  rcases hf.lt_or_eq with hlt | heq
  · rcases rne_cases x with hx | hx <;> rcases rne_cases y with hy | hy <;> omega
  · unfold rne
    rw [heq]
    have hxy : x - ⌊y⌋ ≤ y - ⌊y⌋ := by linarith
    split_ifs <;> first | omega | (exfalso; linarith)

theorem rne_neg (x : ℚ) : rne (-x) = -rne x := by
  by_cases hx : (⌊x⌋ : ℚ) = x
  · rw [← hx, ← Int.cast_neg, rne_intCast, rne_intCast]
  · have h0 := Int.floor_le x
    have h1 := Int.lt_floor_add_one x
    have hlt : (⌊x⌋ : ℚ) < x := lt_of_le_of_ne h0 hx
    have hfl : ⌊-x⌋ = -⌊x⌋ - 1 := by
      rw [Int.floor_eq_iff]; push_cast; constructor <;> linarith
    unfold rne
    rw [hfl]
    push_cast
    split_ifs <;> first | omega | (exfalso; linarith)

theorem two_zpow_pos (k : ℤ) : (0 : ℚ) < 2 ^ k := zpow_pos (by norm_num) k

theorem log_eq_of_bounds {x : ℚ} {e : ℤ} (h1 : 2 ^ e ≤ |x|) (h2 : |x| < 2 ^ (e + 1)) :
    Int.log 2 |x| = e := by
  have hpos : (0 : ℚ) < |x| := lt_of_lt_of_le (two_zpow_pos e) h1
  have ha : e ≤ Int.log 2 |x| := by
    rw [← Int.zpow_le_iff_le_log (by norm_num) hpos]; exact_mod_cast h1
  have hb : Int.log 2 |x| < e + 1 := by
    rw [← Int.lt_zpow_iff_log_lt (by norm_num) hpos]; exact_mod_cast h2
  omega

theorem expo_eq {x : ℚ} {e : ℤ} (h1 : 2 ^ e ≤ |x|) (h2 : |x| < 2 ^ (e + 1))
    (h3 : -1022 ≤ e) : expo x = e := by
  unfold expo
  rw [log_eq_of_bounds h1 h2]
  exact max_eq_left h3

theorem expo_ge (x : ℚ) : -1022 ≤ expo x := le_max_right _ _

theorem expo_neg (x : ℚ) : expo (-x) = expo x := by
  unfold expo; rw [abs_neg]

theorem abs_lt_expo (x : ℚ) : |x| < 2 ^ (expo x + 1) := by
  have h := Int.lt_zpow_succ_log_self (b := 2) (by norm_num) |x|
  have h' : |x| < (2 : ℚ) ^ (Int.log 2 |x| + 1) := by exact_mod_cast h
  refine lt_of_lt_of_le h' ?_
  apply zpow_le_zpow_right₀ (by norm_num)
  unfold expo
  have := le_max_left (Int.log 2 |x|) (-1022)
  omega

theorem expo_le_abs {x : ℚ} (hx : x ≠ 0) (h : -1022 < expo x) : 2 ^ expo x ≤ |x| := by
  unfold expo at h ⊢
  have hlog : -1022 < Int.log 2 |x| := by
    rcases le_total (Int.log 2 |x|) (-1022) with h' | h'
    · rw [max_eq_right h'] at h; omega
    · rw [max_eq_left h'] at h; exact h
  rw [max_eq_left hlog.le]
  have hpos : 0 < |x| := abs_pos.mpr hx
  have := Int.zpow_log_le_self (b := 2) (by norm_num) hpos
  exact_mod_cast this

theorem fl_neg (x : ℚ) : fl (-x) = -fl x := by
  unfold fl
  rw [expo_neg, neg_div, rne_neg]
  push_cast; ring

theorem fl_zero : fl 0 = 0 := by
  unfold fl
  rw [zero_div]
  have : rne 0 = 0 := by simpa using rne_intCast 0
  rw [this]; simp

theorem fl_nonneg {x : ℚ} (h : 0 ≤ x) : 0 ≤ fl x := by
  unfold fl
  have hu := two_zpow_pos (expo x - 52)
  have h1 : rne 0 ≤ rne (x / 2 ^ (expo x - 52)) := rne_mono (div_nonneg h hu.le)
  have h0 : rne 0 = 0 := by simpa using rne_intCast 0
  rw [h0] at h1
  have : (0 : ℚ) ≤ (rne (x / 2 ^ (expo x - 52)) : ℚ) := by exact_mod_cast h1
  positivity

/-- Evaluation of `fl` from a certificate: the binade `e` and the rounded significand `n`. -/
theorem fl_eq_of_cert (x : ℚ) (e n : ℤ) (h1 : 2 ^ e ≤ |x|) (h2 : |x| < 2 ^ (e + 1))
    (h3 : -1022 ≤ e) (h4 : |x / 2 ^ (e - 52) - n| < 1 / 2) : fl x = n * 2 ^ (e - 52) := by
  unfold fl
  rw [expo_eq h1 h2 h3, rne_eq_of_lt _ n h4]

theorem fl_abs_err {x : ℚ} (h : 2 ^ (-1022 : ℤ) ≤ |x|) : |fl x - x| ≤ 2 ^ (-53 : ℤ) * |x| := by
  have hpos : (0 : ℚ) < |x| := lt_of_lt_of_le (two_zpow_pos _) h
  have hlog : -1022 ≤ Int.log 2 |x| := by
    rw [← Int.zpow_le_iff_le_log (by norm_num) hpos]; exact_mod_cast h
  have he : expo x = Int.log 2 |x| := max_eq_left hlog
  have hle : (2 : ℚ) ^ expo x ≤ |x| := by
    rw [he]
    have := Int.zpow_log_le_self (b := 2) (by norm_num) hpos
    exact_mod_cast this
  have hu := two_zpow_pos (expo x - 52)
  have hr := rne_sub_le (x / 2 ^ (expo x - 52))
  have heq : fl x - x = ((rne (x / 2 ^ (expo x - 52)) : ℚ) - x / 2 ^ (expo x - 52))
      * 2 ^ (expo x - 52) := by
    unfold fl; field_simp
  rw [heq, abs_mul, abs_of_pos hu]
  have hsplit : (2 : ℚ) ^ (expo x - 52) = 2 ^ (-53 : ℤ) * 2 ^ expo x * 2 := by
    rw [show expo x - 52 = (-53 : ℤ) + expo x + 1 by ring, zpow_add₀ (by norm_num),
      zpow_add₀ (by norm_num)]
    norm_num
  calc |(rne (x / 2 ^ (expo x - 52)) : ℚ) - x / 2 ^ (expo x - 52)| * 2 ^ (expo x - 52)
      ≤ 1 / 2 * 2 ^ (expo x - 52) := by
        apply mul_le_mul_of_nonneg_right hr hu.le
    _ = 2 ^ (-53 : ℤ) * 2 ^ expo x := by rw [hsplit]; ring
    _ ≤ 2 ^ (-53 : ℤ) * |x| := by
        apply mul_le_mul_of_nonneg_left hle (two_zpow_pos _).le

theorem fl_le_top (x : ℚ) : |fl x| ≤ 2 ^ (expo x + 1) := by
  have hu := two_zpow_pos (expo x - 52)
  have hlt := abs_lt_expo x
  rw [abs_lt] at hlt
  have hsplit : (2 : ℚ) ^ (expo x + 1) = 2 ^ (53 : ℕ) * 2 ^ (expo x - 52) := by
    rw [show expo x + 1 = (53 : ℤ) + (expo x - 52) by ring, zpow_add₀ (by norm_num)]
    norm_num
  have hup : x / 2 ^ (expo x - 52) ≤ ((2 ^ 53 : ℤ) : ℚ) := by
    rw [div_le_iff₀ hu, show ((2 ^ 53 : ℤ) : ℚ) = 2 ^ (53 : ℕ) by norm_cast, ← hsplit]
    exact hlt.2.le
  have hlo : ((-(2 ^ 53) : ℤ) : ℚ) ≤ x / 2 ^ (expo x - 52) := by
    rw [le_div_iff₀ hu, show ((-(2 ^ 53) : ℤ) : ℚ) = -2 ^ (53 : ℕ) by norm_cast, neg_mul,
      ← hsplit]
    exact hlt.1.le
  have h1 := rne_mono hup
  have h2 := rne_mono hlo
  rw [rne_intCast] at h1 h2
  have h1' : (rne (x / 2 ^ (expo x - 52)) : ℚ) ≤ 2 ^ (53 : ℕ) := by exact_mod_cast h1
  have h2' : -(2 : ℚ) ^ (53 : ℕ) ≤ (rne (x / 2 ^ (expo x - 52)) : ℚ) := by exact_mod_cast h2
  unfold fl
  rw [hsplit, abs_le]
  constructor
  · rw [← neg_mul]; exact mul_le_mul_of_nonneg_right h2' hu.le
  · exact mul_le_mul_of_nonneg_right h1' hu.le

theorem fl_ge_bot {x : ℚ} (hx : 0 < x) (h : -1022 < expo x) : 2 ^ expo x ≤ fl x := by
  have hu := two_zpow_pos (expo x - 52)
  have hle := expo_le_abs hx.ne' h
  rw [abs_of_pos hx] at hle
  have hsplit : (2 : ℚ) ^ expo x = 2 ^ (52 : ℕ) * 2 ^ (expo x - 52) := by
    rw [show expo x = (52 : ℤ) + (expo x - 52) by ring, zpow_add₀ (by norm_num)]
    norm_num
  have hlo : ((2 ^ 52 : ℤ) : ℚ) ≤ x / 2 ^ (expo x - 52) := by
    rw [le_div_iff₀ hu, show ((2 ^ 52 : ℤ) : ℚ) = 2 ^ (52 : ℕ) by norm_cast, ← hsplit]
    exact hle
  have h2 := rne_mono hlo
  rw [rne_intCast] at h2
  have h2' : (2 : ℚ) ^ (52 : ℕ) ≤ (rne (x / 2 ^ (expo x - 52)) : ℚ) := by exact_mod_cast h2
  unfold fl
  rw [hsplit]
  exact mul_le_mul_of_nonneg_right h2' hu.le

theorem expo_mono {x y : ℚ} (hx : 0 < x) (h : x ≤ y) : expo x ≤ expo y := by
  unfold expo
  have hy : 0 < y := lt_of_lt_of_le hx h
  rw [abs_of_pos hx, abs_of_pos hy]
  exact max_le_max (Int.log_mono_right hx h) le_rfl

theorem fl_mono_pos {x y : ℚ} (hx : 0 < x) (h : x ≤ y) : fl x ≤ fl y := by
  have hy : 0 < y := lt_of_lt_of_le hx h
  rcases (expo_mono hx h).lt_or_eq with hlt | heq
  · have h1 := fl_le_top x
    rw [abs_le] at h1
    have h2 := fl_ge_bot hy (lt_of_le_of_lt (expo_ge x) hlt)
    have h3 : (2 : ℚ) ^ (expo x + 1) ≤ 2 ^ expo y :=
      zpow_le_zpow_right₀ (by norm_num) (by omega)
    linarith
  · unfold fl
    rw [heq]
    have hu := two_zpow_pos (expo y - 52)
    have h1 : rne (x / 2 ^ (expo y - 52)) ≤ rne (y / 2 ^ (expo y - 52)) :=
      rne_mono (div_le_div_of_nonneg_right h hu.le)
    have h1' : (rne (x / 2 ^ (expo y - 52)) : ℚ) ≤ rne (y / 2 ^ (expo y - 52)) := by
      exact_mod_cast h1
    exact mul_le_mul_of_nonneg_right h1' hu.le

theorem fl_mono {x y : ℚ} (h : x ≤ y) : fl x ≤ fl y := by
  rcases lt_trichotomy x 0 with hx | hx | hx
  · rcases lt_or_le y 0 with hy | hy
    · have := fl_mono_pos (neg_pos.mpr hy) (neg_le_neg h)
      rw [fl_neg, fl_neg] at this
      linarith
    · have h1 := fl_nonneg (neg_pos.mpr hx).le
      rw [fl_neg] at h1
      have h2 := fl_nonneg hy
      linarith
  · rw [hx, fl_zero]; exact fl_nonneg (hx ▸ h)
  · exact fl_mono_pos hx h

theorem fl_of_rep {x : ℚ} (h : Rep x) : fl x = x := by
  obtain ⟨n, k, hn, hk, rfl⟩ := h
  by_cases hx0 : (n : ℚ) * 2 ^ k = 0
  · rw [hx0, fl_zero]
  have hu := two_zpow_pos (expo ((n : ℚ) * 2 ^ k) - 52)
  suffices hz : ∃ z : ℤ, (n : ℚ) * 2 ^ k / 2 ^ (expo ((n : ℚ) * 2 ^ k) - 52) = z by
    obtain ⟨z, hz⟩ := hz
    unfold fl
    rw [hz, rne_intCast, ← hz]
    field_simp
  set x : ℚ := (n : ℚ) * 2 ^ k with hxdef
  have hk2 := two_zpow_pos k
  have habs : |x| = |(n : ℚ)| * 2 ^ k := by rw [hxdef, abs_mul, abs_of_pos hk2]
  rcases hn.lt_or_eq with hlt | heq
  · -- fewer than 54 bits: the binade is at most `k + 52`
    have hle : expo x ≤ k + 52 := by
      by_contra hc
      push_neg at hc
      have h1 := expo_le_abs hx0 (by omega)
      have h2 : (2 : ℚ) ^ (k + 53) ≤ 2 ^ expo x := zpow_le_zpow_right₀ (by norm_num) (by omega)
      have h3 : |x| < 2 ^ (k + 53) := by
        rw [habs, show k + 53 = (53 : ℤ) + k by ring, zpow_add₀ (by norm_num)]
        apply mul_lt_mul_of_pos_right _ hk2
        have : ((|n| : ℤ) : ℚ) < ((2 ^ 53 : ℤ) : ℚ) := by exact_mod_cast hlt
        rw [Int.cast_abs] at this
        calc |(n : ℚ)| < ((2 ^ 53 : ℤ) : ℚ) := this
          _ = 2 ^ (53 : ℤ) := by norm_num
      linarith
    obtain ⟨d, hd⟩ : ∃ d : ℕ, k - (expo x - 52) = d := ⟨(k - (expo x - 52)).toNat, by omega⟩
    refine ⟨n * 2 ^ d, ?_⟩
    rw [hxdef, mul_div_assoc, ← zpow_sub₀ (by norm_num), hd]
    push_cast
    rw [zpow_natCast]
  · -- the significand is exactly `2 ^ 53`: the value is a power of two
    have hq : |(n : ℚ)| = 2 ^ (53 : ℤ) := by
      have : ((|n| : ℤ) : ℚ) = ((2 ^ 53 : ℤ) : ℚ) := by exact_mod_cast heq
      rw [Int.cast_abs] at this
      rw [this]; norm_num
    have hpow : |x| = 2 ^ (k + 53) := by
      rw [habs, hq, show k + 53 = (53 : ℤ) + k by ring, zpow_add₀ (by norm_num)]
    have he : expo x = k + 53 := by
      apply expo_eq
      · rw [hpow]
      · rw [hpow]; exact zpow_lt_zpow_right₀ (by norm_num) (by omega)
      · omega
    rw [he]
    rcases abs_choice n with hs | hs
    · refine ⟨2 ^ 52, ?_⟩
      have hn' : n = 2 ^ 53 := by omega
      rw [hxdef, hn', mul_div_assoc, ← zpow_sub₀ (by norm_num),
        show k - (k + 53 - 52) = (-1 : ℤ) by ring]
      norm_num
    · refine ⟨-2 ^ 52, ?_⟩
      have hn' : n = -2 ^ 53 := by omega
      rw [hxdef, hn', mul_div_assoc, ← zpow_sub₀ (by norm_num),
        show k - (k + 53 - 52) = (-1 : ℤ) by ring]
      norm_num

theorem rep_fl (x : ℚ) : Rep (fl x) := by
  refine ⟨rne (x / 2 ^ (expo x - 52)), expo x - 52, ?_, ?_, rfl⟩
  · have h := fl_le_top x
    have hu := two_zpow_pos (expo x - 52)
    unfold fl at h
    rw [abs_mul, abs_of_pos hu, show expo x + 1 = (53 : ℤ) + (expo x - 52) by ring,
      zpow_add₀ (by norm_num)] at h
    have h' := le_of_mul_le_mul_right h hu
    have : ((|rne (x / 2 ^ (expo x - 52))| : ℤ) : ℚ) ≤ ((2 ^ 53 : ℤ) : ℚ) := by
      rw [Int.cast_abs]; refine h'.trans (le_of_eq ?_); norm_num
    exact_mod_cast this
  · have := expo_ge x; omega


theorem rep_intCast {n : ℤ} (h : |n| ≤ 2 ^ 53) : Rep (n : ℚ) :=
  ⟨n, 0, h, by norm_num, by simp⟩

theorem rep_natCast {n : ℕ} (h : n ≤ 2 ^ 53) : Rep (n : ℚ) :=
  ⟨n, 0, by rw [abs_of_nonneg (by positivity)]; exact_mod_cast h, by norm_num, by simp⟩

theorem fl_intCast {n : ℤ} (h : |n| ≤ 2 ^ 53) : fl (n : ℚ) = n := fl_of_rep (rep_intCast h)

theorem fl_natCast {n : ℕ} (h : n ≤ 2 ^ 53) : fl (n : ℚ) = n := fl_of_rep (rep_natCast h)

theorem fl_le_of_rep {x b : ℚ} (hb : Rep b) (h : x ≤ b) : fl x ≤ b := by
  have := fl_mono h
  rwa [fl_of_rep hb] at this

theorem le_fl_of_rep {x b : ℚ} (hb : Rep b) (h : b ≤ x) : b ≤ fl x := by
  have := fl_mono h
  rwa [fl_of_rep hb] at this

theorem rep_two_zpow {k : ℤ} (h : -1074 ≤ k) : Rep ((2 : ℚ) ^ k) :=
  ⟨1, k, by norm_num, h, by simp⟩

theorem rep_neg {x : ℚ} (h : Rep x) : Rep (-x) := by
  obtain ⟨n, k, hn, hk, rfl⟩ := h
  exact ⟨-n, k, by rwa [abs_neg], hk, by push_cast; ring⟩

theorem abs_fl_le_of_rep {x b : ℚ} (hb : Rep b) (h : |x| ≤ b) : |fl x| ≤ b := by
  rw [abs_le] at h ⊢
  refine ⟨?_, fl_le_of_rep hb h.2⟩
  exact le_fl_of_rep (rep_neg hb) h.1

theorem ofRat_of_le {x : ℚ} (h : |x| ≤ 2 ^ (1023 : ℤ)) : F64.ofRat x = F64.fin (fl x) := by
  have h1 := abs_fl_le_of_rep (rep_two_zpow (by norm_num)) h
  unfold F64.ofRat
  rw [if_neg]
  intro hc
  have : (2 : ℚ) ^ (1023 : ℤ) < 2 ^ 1024 := by
    rw [← zpow_natCast]; exact zpow_lt_zpow_right₀ (by norm_num) (by norm_num)
  linarith

/-- Absolute error of one rounding, from a bound on the magnitude. -/
theorem fl_err_of_le {x : ℚ} {e : ℤ} (he : -1022 ≤ e) (h : |x| ≤ 2 ^ (e + 1)) :
    |fl x - x| ≤ 2 ^ (e - 53) := by
  by_cases hx0 : x = 0
  · rw [hx0, fl_zero, sub_self, abs_zero]; exact (two_zpow_pos _).le
  rcases h.lt_or_eq with hlt | heq
  · have hexp : expo x ≤ e := by
      by_contra hc
      push_neg at hc
      have h1 := expo_le_abs hx0 (by omega)
      have h2 : (2 : ℚ) ^ (e + 1) ≤ 2 ^ expo x := zpow_le_zpow_right₀ (by norm_num) (by omega)
      linarith
    have hu := two_zpow_pos (expo x - 52)
    have hr := rne_sub_le (x / 2 ^ (expo x - 52))
    have heq : fl x - x = ((rne (x / 2 ^ (expo x - 52)) : ℚ) - x / 2 ^ (expo x - 52))
        * 2 ^ (expo x - 52) := by
      unfold fl; field_simp
    rw [heq, abs_mul, abs_of_pos hu]
    have hsplit : (2 : ℚ) ^ (expo x - 52) = 2 ^ (expo x - 53) * 2 := by
      rw [show expo x - 52 = (expo x - 53) + 1 by ring, zpow_add₀ (by norm_num)]
      norm_num
    calc |(rne (x / 2 ^ (expo x - 52)) : ℚ) - x / 2 ^ (expo x - 52)| * 2 ^ (expo x - 52)
        ≤ 1 / 2 * 2 ^ (expo x - 52) := mul_le_mul_of_nonneg_right hr hu.le
      _ = 2 ^ (expo x - 53) := by rw [hsplit]; ring
      _ ≤ 2 ^ (e - 53) := zpow_le_zpow_right₀ (by norm_num) (by omega)
  · have hrep : Rep x := by
      rcases abs_choice x with hs | hs
      · rw [hs] at heq; rw [heq]; exact rep_two_zpow (by omega)
      · rw [hs] at heq
        have : x = -(2 : ℚ) ^ (e + 1) := by linarith
        rw [this]; exact rep_neg (rep_two_zpow (by omega))
    rw [fl_of_rep hrep, sub_self, abs_zero]
    exact (two_zpow_pos _).le

/-! ### `math.Round` -/

theorem roundAway_neg (x : ℚ) : roundAway (-x) = -roundAway x := by
  unfold roundAway
  rcases lt_trichotomy x 0 with h | h | h
  · rw [if_pos (by linarith), if_neg (by linarith)]; simp
  · subst h
    have : ⌊(1 : ℚ) / 2⌋ = 0 := by rw [Int.floor_eq_iff]; norm_num
    simp only [neg_zero, le_refl, if_true, zero_add, this]
  · rw [if_neg (by linarith), if_pos h.le, neg_neg]

theorem roundAway_intCast (n : ℤ) : roundAway (n : ℚ) = n := by
  unfold roundAway
  split_ifs with h
  · rw [Int.floor_eq_iff]; constructor <;> linarith
  · have : ⌊-(n : ℚ) + 1 / 2⌋ = -n := by
      rw [Int.floor_eq_iff]; push_cast; constructor <;> linarith
    rw [this]; ring

/-- The rounded value is the integer `n` as soon as the argument lies strictly within one
half of it. -/
theorem roundAway_eq_of_lt {x : ℚ} {n : ℤ} (h1 : (n : ℚ) - 1 / 2 < x) (h2 : x < n + 1 / 2) :
    roundAway x = n := by
  unfold roundAway
  split_ifs with h
  · rw [Int.floor_eq_iff]; constructor <;> linarith
  · push_neg at h
    have : ⌊-x + 1 / 2⌋ = -n := by
      rw [Int.floor_eq_iff]; push_cast; constructor <;> linarith
    rw [this]; ring

theorem roundAway_mono {x y : ℚ} (h : x ≤ y) : roundAway x ≤ roundAway y := by
  unfold roundAway
  split_ifs with h1 h2 h2
  · exact Int.floor_mono (by linarith)
  · exfalso; linarith
  · have a : ⌊-x + 1 / 2⌋ ≥ 0 := Int.floor_nonneg.mpr (by linarith)
    have b : ⌊y + 1 / 2⌋ ≥ 0 := Int.floor_nonneg.mpr (by linarith)
    omega
  · have := Int.floor_mono (show -y + 1 / 2 ≤ -x + 1 / 2 by linarith)
    omega

theorem roundAway_sub_le (x : ℚ) : |(roundAway x : ℚ) - x| ≤ 1 / 2 := by
  unfold roundAway
  split_ifs with h
  · have h0 := Int.floor_le (x + 1 / 2)
    have h1 := Int.lt_floor_add_one (x + 1 / 2)
    rw [abs_le]; constructor <;> linarith
  · have h0 := Int.floor_le (-x + 1 / 2)
    have h1 := Int.lt_floor_add_one (-x + 1 / 2)
    rw [abs_le]; push_cast; constructor <;> linarith

theorem fl_one : fl 1 = 1 := by
  have := fl_natCast (n := 1) (by norm_num)
  simpa using this

/-- Rounding a value of the grid to an integer stays on the grid. -/
theorem rep_roundAway {q : ℚ} (hq : Rep q) : Rep (roundAway q : ℚ) := by
  obtain ⟨n, k, hn, hk, rfl⟩ := hq
  rcases le_or_lt 0 k with h0 | hneg
  · obtain ⟨d, rfl⟩ : ∃ d : ℕ, k = d := ⟨k.toNat, by omega⟩
    have e : (n : ℚ) * 2 ^ ((d : ℕ) : ℤ) = ((n * 2 ^ d : ℤ) : ℚ) := by
      push_cast; rw [zpow_natCast]
    rw [e, roundAway_intCast, ← e]
    exact ⟨n, d, hn, hk, rfl⟩
  · apply rep_intCast
    have hk2 := two_zpow_pos k
    have hle : (2 : ℚ) ^ k ≤ 2 ^ (-1 : ℤ) := zpow_le_zpow_right₀ (by norm_num) (by omega)
    have hnq : |(n : ℚ)| ≤ 2 ^ 53 := by
      have : ((|n| : ℤ) : ℚ) ≤ ((2 ^ 53 : ℤ) : ℚ) := by exact_mod_cast hn
      rw [Int.cast_abs] at this
      push_cast at this
      exact this
    have hq : |(n : ℚ) * 2 ^ k| ≤ 2 ^ 52 := by
      rw [abs_mul, abs_of_pos hk2]
      calc |(n : ℚ)| * 2 ^ k ≤ 2 ^ 53 * 2 ^ (-1 : ℤ) :=
            mul_le_mul hnq hle hk2.le (by norm_num)
        _ = 2 ^ 52 := by norm_num
    have hr := roundAway_sub_le ((n : ℚ) * 2 ^ k)
    have hb : |(roundAway ((n : ℚ) * 2 ^ k) : ℚ)| ≤ 2 ^ 53 := by
      have : |(roundAway ((n : ℚ) * 2 ^ k) : ℚ)|
          ≤ |(roundAway ((n : ℚ) * 2 ^ k) : ℚ) - (n : ℚ) * 2 ^ k| + |(n : ℚ) * 2 ^ k| := by
        have := abs_add ((roundAway ((n : ℚ) * 2 ^ k) : ℚ) - (n : ℚ) * 2 ^ k) ((n : ℚ) * 2 ^ k)
        simpa using this
      have h53 : (2 : ℚ) ^ 53 = 2 ^ 52 + 2 ^ 52 := by norm_num
      have h52 : (1 : ℚ) / 2 ≤ 2 ^ 52 := by norm_num
      linarith
    have : ((|roundAway ((n : ℚ) * 2 ^ k)| : ℤ) : ℚ) ≤ ((2 ^ 53 : ℤ) : ℚ) := by
      rw [Int.cast_abs]; push_cast; exact hb
    exact_mod_cast this

/-- The function `round` at precision `0` on a finite value is `math.Round`. -/
theorem round_fin {q : ℚ} (hq : Rep q) (hb : |q| ≤ 2 ^ (1023 : ℤ)) :
    round (F64.fin q) 0 = F64.fin (roundAway q) := by
  have h1 : F64.ofRat (10 ^ 0) = F64.fin 1 := by
    rw [pow_zero, ofRat_of_le (by rw [abs_one]; exact one_le_zpow₀ (by norm_num) (by norm_num)),
      fl_one]
  have h2 : F64.ofRat (q * 1) = F64.fin q := by
    rw [mul_one, ofRat_of_le hb, fl_of_rep hq]
  have hint : (2 : ℚ) ^ (1023 : ℤ) = ((2 ^ 1023 : ℤ) : ℚ) := by
    push_cast; rw [← zpow_natCast]; norm_num
  have hn : |(roundAway q : ℚ)| ≤ 2 ^ (1023 : ℤ) := by
    rw [abs_le] at hb ⊢
    have u1 := roundAway_mono hb.2
    have u2 := roundAway_mono hb.1
    rw [roundAway_neg] at u2
    rw [hint, roundAway_intCast] at u1 u2
    rw [hint]
    constructor
    · have : ((-(2 ^ 1023) : ℤ) : ℚ) ≤ (roundAway q : ℚ) := by exact_mod_cast u2
      push_cast at this ⊢; exact this
    · exact_mod_cast u1
  have h3 : F64.ofRat ((roundAway q : ℚ) / 1) = F64.fin (roundAway q) := by
    rw [div_one, ofRat_of_le hn, fl_of_rep (rep_roundAway hq)]
  unfold round
  simp only [h1, F64.mul, h2, F64.Round, F64.div]
  rw [if_neg one_ne_zero, h3]

/-! ### The percentage -/

theorem fl_natCast_nonneg (n : ℕ) : 0 ≤ fl (n : ℚ) := fl_nonneg (Nat.cast_nonneg n)

theorem natCast_le_two_zpow {n : ℕ} (h : n < 2 ^ 64) : (n : ℚ) ≤ 2 ^ (64 : ℤ) :=
  calc (n : ℚ) ≤ ((2 ^ 64 : ℕ) : ℚ) := by exact_mod_cast h.le
    _ = 2 ^ (64 : ℤ) := by norm_num

theorem fl_natCast_le {n : ℕ} (h : n < 2 ^ 64) : fl (n : ℚ) ≤ 2 ^ (64 : ℤ) :=
  fl_le_of_rep (rep_two_zpow (by norm_num)) (natCast_le_two_zpow h)

theorem one_le_fl_natCast {n : ℕ} (h : 0 < n) : 1 ≤ fl (n : ℚ) := by
  have h1 : Rep (1 : ℚ) := by simpa using rep_natCast (n := 1) (by norm_num)
  apply le_fl_of_rep h1
  exact_mod_cast h

theorem ofNat_eq {n : ℕ} (h : n < 2 ^ 64) : F64.ofNat n = F64.fin (fl n) := by
  unfold F64.ofNat
  apply ofRat_of_le
  rw [abs_of_nonneg (Nat.cast_nonneg n)]
  exact (natCast_le_two_zpow h).trans (zpow_le_zpow_right₀ (by norm_num) (by norm_num))

theorem fl_hundred : fl 100 = 100 := by
  have := fl_natCast (n := 100) (by norm_num)
  simpa using this

theorem pctRaw_nonneg (c m : ℕ) : 0 ≤ pctRaw c m := by
  unfold pctRaw
  apply fl_nonneg
  apply mul_nonneg _ (by norm_num)
  apply fl_nonneg
  exact div_nonneg (fl_natCast_nonneg c) (fl_natCast_nonneg m)

/-- The percentage of the program in closed form, for a positive maximum. -/
theorem percent_eq {c m : ℕ} (hm : 0 < m) (hc : c < 2 ^ 64) (hm' : m < 2 ^ 64) :
    percent c m = F64.fin (roundAway (pctRaw c m)) := by
  have hb1 := one_le_fl_natCast hm
  have ha0 := fl_natCast_nonneg c
  have ha := fl_natCast_le hc
  have hq0 : 0 ≤ fl (c : ℚ) / fl (m : ℚ) := div_nonneg ha0 (by linarith)
  have hq : fl (c : ℚ) / fl (m : ℚ) ≤ 2 ^ (64 : ℤ) := by
    rw [div_le_iff₀ (by linarith)]
    have : (2 : ℚ) ^ (64 : ℤ) * 1 ≤ 2 ^ (64 : ℤ) * fl (m : ℚ) :=
      mul_le_mul_of_nonneg_left hb1 (two_zpow_pos _).le
    linarith
  have hr0 : 0 ≤ fl (fl (c : ℚ) / fl (m : ℚ)) := fl_nonneg hq0
  have hr : fl (fl (c : ℚ) / fl (m : ℚ)) ≤ 2 ^ (64 : ℤ) :=
    fl_le_of_rep (rep_two_zpow (by norm_num)) hq
  have h64 : (2 : ℚ) ^ (64 : ℤ) ≤ 2 ^ (1023 : ℤ) := zpow_le_zpow_right₀ (by norm_num) (by norm_num)
  have h71 : (2 : ℚ) ^ (64 : ℤ) * 100 ≤ 2 ^ (1023 : ℤ) := by
    have : (2 : ℚ) ^ (64 : ℤ) * 100 ≤ 2 ^ (64 : ℤ) * 2 ^ (7 : ℤ) :=
      mul_le_mul_of_nonneg_left (by norm_num) (two_zpow_pos _).le
    rw [← zpow_add₀ (by norm_num)] at this
    exact this.trans (zpow_le_zpow_right₀ (by norm_num) (by norm_num))
  have e1 : F64.ofRat (fl (c : ℚ) / fl (m : ℚ)) = F64.fin (fl (fl (c : ℚ) / fl (m : ℚ))) :=
    ofRat_of_le (by rw [abs_of_nonneg hq0]; linarith)
  have e2 : F64.ofRat 100 = F64.fin 100 := by
    rw [ofRat_of_le (by rw [abs_of_nonneg (by norm_num)]; linarith [two_zpow_pos (64 : ℤ)]),
      fl_hundred]
  have e3 : F64.ofRat (fl (fl (c : ℚ) / fl (m : ℚ)) * 100) = F64.fin (pctRaw c m) := by
    apply ofRat_of_le
    rw [abs_of_nonneg (mul_nonneg hr0 (by norm_num))]
    have : fl (fl (c : ℚ) / fl (m : ℚ)) * 100 ≤ 2 ^ (64 : ℤ) * 100 :=
      mul_le_mul_of_nonneg_right hr (by norm_num)
    linarith
  unfold percent
  rw [ofNat_eq hc, ofNat_eq hm']
  simp only [F64.div]
  rw [if_neg (by linarith), e1, e2]
  simp only [F64.mul]
  rw [e3]
  apply round_fin (rep_fl _)
  have hfin : F64.ofRat (fl (fl (c : ℚ) / fl (m : ℚ)) * 100) = F64.fin (pctRaw c m) := e3
  have hpb : fl (fl (c : ℚ) / fl (m : ℚ)) * 100 ≤ 2 ^ (1023 : ℤ) := by
    have : fl (fl (c : ℚ) / fl (m : ℚ)) * 100 ≤ 2 ^ (64 : ℤ) * 100 :=
      mul_le_mul_of_nonneg_right hr (by norm_num)
    linarith
  exact abs_fl_le_of_rep (rep_two_zpow (by norm_num))
    (by rw [abs_of_nonneg (mul_nonneg hr0 (by norm_num))]; exact hpb)

/-- With operands below `2 ^ 53` the conversions are exact. -/
theorem pctRaw_small {c m : ℕ} (hc : c ≤ 2 ^ 53) (hm : m ≤ 2 ^ 53) :
    pctRaw c m = fl (fl ((c : ℚ) / m) * 100) := by
  unfold pctRaw
  rw [fl_natCast hc, fl_natCast hm]

theorem pctRaw_zero_left (m : ℕ) : pctRaw 0 m = 0 := by
  unfold pctRaw
  rw [Nat.cast_zero, fl_zero, zero_div, fl_zero, zero_mul, fl_zero]

/-- Two roundings keep the computed percentage within `1 / (2 * max)` of the exact one
when the numerator is at most `2 ^ 44`. -/
theorem pctRaw_close {c m : ℕ} (hm : 0 < m) (hm' : m ≤ 2 ^ 53) (hc : c ≤ 2 ^ 44) :
    |pctRaw c m - 100 * c / m| < 1 / (2 * m) := by
  have hmq : (0 : ℚ) < m := by exact_mod_cast hm
  rcases Nat.eq_zero_or_pos c with h0 | hcpos
  · subst h0
    rw [pctRaw_zero_left]
    simp only [Nat.cast_zero, mul_zero, zero_div, sub_zero, abs_zero]
    positivity
  have hc53 : c ≤ 2 ^ 53 := hc.trans (by norm_num)
  rw [pctRaw_small hc53 hm']
  set t : ℚ := (c : ℚ) / m with ht
  have hcq : (1 : ℚ) ≤ c := by exact_mod_cast hcpos
  have hmle : (m : ℚ) ≤ 2 ^ (53 : ℤ) := by
    calc (m : ℚ) ≤ ((2 ^ 53 : ℕ) : ℚ) := by exact_mod_cast hm'
      _ = 2 ^ (53 : ℤ) := by norm_num
  have hcle : (c : ℚ) ≤ 17592186044416 := by
    calc (c : ℚ) ≤ ((2 ^ 44 : ℕ) : ℚ) := by exact_mod_cast hc
      _ = 17592186044416 := by norm_num
  have hu : (2 : ℚ) ^ (-53 : ℤ) = 1 / 9007199254740992 := by norm_num
  have h53 : (2 : ℚ) ^ (53 : ℤ) = 9007199254740992 := by norm_num
  have htlow : (2 : ℚ) ^ (-53 : ℤ) ≤ t := by
    rw [ht, le_div_iff₀ hmq, hu]
    rw [h53] at hmle
    linarith
  have htpos : 0 < t := lt_of_lt_of_le (two_zpow_pos _) htlow
  have hsmall : (2 : ℚ) ^ (-1022 : ℤ) ≤ 2 ^ (-53 : ℤ) :=
    zpow_le_zpow_right₀ (by norm_num) (by norm_num)
  have h1 := fl_abs_err (x := t) (by rw [abs_of_pos htpos]; linarith)
  rw [abs_of_pos htpos] at h1
  have hrlow : (2 : ℚ) ^ (-53 : ℤ) ≤ fl t := le_fl_of_rep (rep_two_zpow (by norm_num)) htlow
  have hrpos : 0 < fl t := lt_of_lt_of_le (two_zpow_pos _) hrlow
  have h2 := fl_abs_err (x := fl t * 100) (by
    rw [abs_of_pos (by positivity)]
    have : (2 : ℚ) ^ (-53 : ℤ) * 1 ≤ fl t * 100 := by
      apply mul_le_mul hrlow (by norm_num) (by norm_num) hrpos.le
    linarith)
  rw [abs_of_pos (show 0 < fl t * 100 by positivity)] at h2
  rw [hu] at h1 h2
  rw [abs_le] at h1 h2
  have key : 200 * (1 / 9007199254740992 : ℚ) * (2 + 1 / 9007199254740992) * c < 1 := by
    have : 200 * (1 / 9007199254740992 : ℚ) * (2 + 1 / 9007199254740992) * c
        ≤ 200 * (1 / 9007199254740992 : ℚ) * (2 + 1 / 9007199254740992) * 17592186044416 :=
      mul_le_mul_of_nonneg_left hcle (by norm_num)
    refine lt_of_le_of_lt this (by norm_num)
  have hct : (c : ℚ) = t * m := by rw [ht]; field_simp
  have hgoal : 100 * (c : ℚ) / m = 100 * t := by rw [ht]; ring
  rw [hgoal]
  have hbound : 100 * (1 / 9007199254740992 : ℚ) * (2 + 1 / 9007199254740992) * t
      < 1 / (2 * m) := by
    rw [lt_div_iff₀ (by positivity)]
    rw [hct] at key
    linarith
  rw [abs_lt]
  constructor <;> nlinarith [h1.1, h1.2, h2.1, h2.2, htpos]

theorem roundAway_of_nonneg {x : ℚ} (h : 0 ≤ x) : roundAway x = ⌊x + 1 / 2⌋ := by
  unfold roundAway; rw [if_pos h]

/-- Off the halves the percentage is the exact quotient rounded to the nearest integer. -/
theorem pctRaw_round_exact {c m : ℕ} (hm : 0 < m) (hm' : m ≤ 2 ^ 53) (hc : c ≤ 2 ^ 44)
    (hne : ∀ k : ℤ, (200 * c : ℤ) ≠ (2 * k + 1) * m) :
    roundAway (pctRaw c m) = roundAway (100 * c / m) := by
  have hmq : (0 : ℚ) < m := by exact_mod_cast hm
  have hclose := pctRaw_close hm hm' hc
  rw [abs_lt] at hclose
  set x : ℚ := 100 * c / m with hx
  have hx0 : 0 ≤ x := by rw [hx]; positivity
  set n : ℤ := roundAway x with hn
  rw [roundAway_of_nonneg hx0] at hn
  have hf0 := Int.floor_le (x + 1 / 2)
  have hf1 := Int.lt_floor_add_one (x + 1 / 2)
  rw [← hn] at hf0 hf1
  -- the same bounds on integers
  have hxm : x * (2 * m) = ((200 * c : ℤ) : ℚ) := by rw [hx]; push_cast; field_simp; ring
  have i1 : (2 * n - 1) * (m : ℤ) ≤ 200 * c := by
    have : (((2 * n - 1) * (m : ℤ) : ℤ) : ℚ) ≤ ((200 * c : ℤ) : ℚ) := by
      rw [← hxm]; push_cast; nlinarith
    exact_mod_cast this
  have i2 : (200 * c : ℤ) < (2 * n + 1) * (m : ℤ) := by
    have : ((200 * c : ℤ) : ℚ) < (((2 * n + 1) * (m : ℤ) : ℤ) : ℚ) := by
      rw [← hxm]; push_cast; nlinarith
    exact_mod_cast this
  have i1' : (2 * n - 1) * (m : ℤ) + 1 ≤ 200 * c := by
    have := hne (n - 1)
    have e : (2 * (n - 1) + 1) * (m : ℤ) = (2 * n - 1) * m := by ring
    rw [e] at this
    omega
  have i2' : (200 * c : ℤ) + 1 ≤ (2 * n + 1) * (m : ℤ) := by omega
  have q1 : (n : ℚ) - 1 / 2 + 1 / (2 * m) ≤ x := by
    have : (((2 * n - 1) * (m : ℤ) + 1 : ℤ) : ℚ) ≤ ((200 * c : ℤ) : ℚ) := by exact_mod_cast i1'
    rw [← hxm] at this
    push_cast at this
    have e : (n : ℚ) - 1 / 2 + 1 / (2 * m) = ((2 * n - 1) * m + 1) / (2 * m) := by
      field_simp; ring
    rw [e, div_le_iff₀ (by positivity)]
    linarith
  have q2 : x ≤ (n : ℚ) + 1 / 2 - 1 / (2 * m) := by
    have : (((200 * c : ℤ) + 1 : ℤ) : ℚ) ≤ (((2 * n + 1) * (m : ℤ) : ℤ) : ℚ) := by
      exact_mod_cast i2'
    rw [Int.cast_add, ← hxm] at this
    push_cast at this
    have e : (n : ℚ) + 1 / 2 - 1 / (2 * m) = ((2 * n + 1) * m - 1) / (2 * m) := by
      field_simp; ring
    rw [e, le_div_iff₀ (by positivity)]
    linarith
  apply roundAway_eq_of_lt <;> linarith [hclose.1, hclose.2]

/-- On a half the percentage is one of the two neighbouring integers. -/
theorem pctRaw_round_half {c m : ℕ} (hm : 0 < m) (hm' : m ≤ 2 ^ 53) (hc : c ≤ 2 ^ 44)
    {k : ℤ} (hk : (200 * c : ℤ) = (2 * k + 1) * m) :
    roundAway (pctRaw c m) = k ∨ roundAway (pctRaw c m) = k + 1 := by
  have hmq : (0 : ℚ) < m := by exact_mod_cast hm
  have hm1 : (1 : ℚ) ≤ m := by exact_mod_cast hm
  have hclose := pctRaw_close hm hm' hc
  rw [abs_lt] at hclose
  have hx : (100 * c / m : ℚ) = k + 1 / 2 := by
    have : ((200 * c : ℤ) : ℚ) = (((2 * k + 1) * m : ℤ) : ℚ) := by exact_mod_cast hk
    push_cast at this
    field_simp
    linarith
  rw [hx] at hclose
  have hinv : 1 / (2 * (m : ℚ)) ≤ 1 / 2 := by
    rw [div_le_div_iff₀ (by positivity) (by norm_num)]; linarith
  rcases lt_or_le (pctRaw c m) (k + 1 / 2) with hlt | hge
  · left; apply roundAway_eq_of_lt <;> linarith [hclose.1, hclose.2]
  · right
    rw [roundAway_of_nonneg (pctRaw_nonneg c m), Int.floor_eq_iff]
    push_cast
    constructor <;> linarith [hclose.1, hclose.2]

/-! ### The day count -/

theorem tmod_bounds (a : ℤ) {b : ℤ} (hb : 0 < b) : -b < Int.tmod a b ∧ Int.tmod a b < b := by
  refine ⟨?_, Int.tmod_lt_of_pos a hb⟩
  rcases le_or_lt 0 a with ha | ha
  · have := Int.tmod_nonneg b ha
    omega
  · have h1 : Int.tmod (-a) b = -Int.tmod a b := by
      rw [Int.tmod_def, Int.tmod_def, Int.neg_tdiv]; ring
    have h2 := Int.tmod_lt_of_pos (-a) hb
    omega

theorem sub_clamped (t u : Time) : minDuration ≤ t.Sub u ∧ t.Sub u ≤ maxDuration := by
  unfold Time.Sub minDuration maxDuration
  split_ifs <;> constructor <;> omega

theorem sub_exact {t u : Time} (h1 : minDuration ≤ t.ns - u.ns) (h2 : t.ns - u.ns ≤ maxDuration) :
    t.Sub u = t.ns - u.ns := by
  unfold Time.Sub
  rw [if_neg (by omega), if_neg (by omega)]

theorem hour_eq : Hour = 3600000000000 := by unfold Hour; norm_num

/-- The hours and the fraction, before the final rounding of the sum, are within `2 ^ -54`
of the exact number of hours. -/
theorem hours_sum_close (d : ℤ) :
    |((Int.tdiv d Hour : ℤ) + fl ((Int.tmod d Hour : ℤ) / 3600000000000) : ℚ)
      - (d : ℚ) / 3600000000000| ≤ 2 ^ (-54 : ℤ) := by
  have hb := tmod_bounds d (show (0 : ℤ) < Hour by rw [hour_eq]; norm_num)
  have hsplit := Int.tdiv_add_tmod d Hour
  rw [hour_eq] at hb hsplit
  have hq : ((Int.tmod d Hour : ℤ) : ℚ) / 3600000000000 ≤ 1 ∧
      -1 ≤ ((Int.tmod d Hour : ℤ) : ℚ) / 3600000000000 := by
    have h1 : ((Int.tmod d Hour : ℤ) : ℚ) < 3600000000000 := by exact_mod_cast hb.2
    have h2 : (-3600000000000 : ℚ) < ((Int.tmod d Hour : ℤ) : ℚ) := by exact_mod_cast hb.1
    constructor
    · rw [div_le_iff₀ (by norm_num)]; linarith
    · rw [le_div_iff₀ (by norm_num)]; linarith
  have herr := fl_err_of_le (x := ((Int.tmod d Hour : ℤ) : ℚ) / 3600000000000) (e := -1)
    (by norm_num) (by rw [abs_le]; norm_num; exact ⟨hq.2, hq.1⟩)
  have hd : (d : ℚ) = 3600000000000 * (Int.tdiv d Hour : ℤ) + (Int.tmod d Hour : ℤ) := by
    exact_mod_cast hsplit.symm
  have : ((Int.tdiv d Hour : ℤ) + fl ((Int.tmod d Hour : ℤ) / 3600000000000) : ℚ)
      - (d : ℚ) / 3600000000000
      = fl ((Int.tmod d Hour : ℤ) / 3600000000000) - (Int.tmod d Hour : ℤ) / 3600000000000 := by
    rw [hd]; field_simp; ring
  rw [this]
  norm_num at herr ⊢
  exact herr

/-- The day count of the program in closed form, for a duration in the 64-bit range. -/
theorem daysLeft_eq (t u : Time) :
    daysLeft t u = F64.fin (roundAway (daysRaw (t.Sub u))) ∧ |hoursRaw (t.Sub u)| ≤ 2 ^ 22 := by
  obtain ⟨hlo, hhi⟩ := sub_clamped t u
  set d := t.Sub u with hd
  unfold minDuration at hlo
  unfold maxDuration at hhi
  have hb := tmod_bounds d (show (0 : ℤ) < Hour by rw [hour_eq]; norm_num)
  have hsplit := Int.tdiv_add_tmod d Hour
  have hclose := hours_sum_close d
  set hour := Int.tdiv d Hour with hhour
  set nsec := Int.tmod d Hour with hnsec
  rw [hour_eq] at hb hsplit
  have hhb : -2562048 ≤ hour ∧ hour ≤ 2562048 := by constructor <;> omega
  have habs_hour : |hour| ≤ 2 ^ 53 := by rw [abs_le]; constructor <;> omega
  have habs_nsec : |nsec| ≤ 2 ^ 53 := by rw [abs_le]; constructor <;> omega
  have hdq : -(2 : ℚ) ^ 63 ≤ d ∧ (d : ℚ) ≤ 2 ^ 63 := by
    constructor
    · have : ((-2 ^ 63 : ℤ) : ℚ) ≤ (d : ℚ) := by exact_mod_cast hlo
      push_cast at this; exact this
    · have : (d : ℚ) ≤ ((2 ^ 63 - 1 : ℤ) : ℚ) := by exact_mod_cast hhi
      push_cast at this; linarith
  -- the first quotient
  have hq : |(nsec : ℚ) / 3600000000000| ≤ 1 := by
    have h1 : (nsec : ℚ) < 3600000000000 := by exact_mod_cast hb.2
    have h2 : (-3600000000000 : ℚ) < (nsec : ℚ) := by exact_mod_cast hb.1
    rw [abs_le]
    constructor
    · rw [le_div_iff₀ (by norm_num)]; linarith
    · rw [div_le_iff₀ (by norm_num)]; linarith
  have hone : (1 : ℚ) ≤ 2 ^ (1023 : ℤ) := one_le_zpow₀ (by norm_num) (by norm_num)
  have e1 : F64.ofInt hour = F64.fin hour := by
    unfold F64.ofInt
    rw [ofRat_of_le, fl_intCast habs_hour]
    have : |(hour : ℚ)| ≤ 2562048 := by
      rw [abs_le]; constructor
      · have : ((-2562048 : ℤ) : ℚ) ≤ hour := by exact_mod_cast hhb.1
        push_cast at this; exact this
      · exact_mod_cast hhb.2
    refine this.trans ?_
    calc (2562048 : ℚ) ≤ 2 ^ (22 : ℤ) := by norm_num
      _ ≤ 2 ^ (1023 : ℤ) := zpow_le_zpow_right₀ (by norm_num) (by norm_num)
  have e2 : F64.ofInt nsec = F64.fin nsec := by
    unfold F64.ofInt
    rw [ofRat_of_le, fl_intCast habs_nsec]
    have : |(nsec : ℚ)| ≤ 3600000000000 := by
      rw [abs_le]; constructor
      · have : ((-3600000000000 : ℤ) : ℚ) ≤ nsec := by exact_mod_cast hb.1.le
        push_cast at this; exact this
      · exact_mod_cast hb.2.le
    refine this.trans ?_
    calc (3600000000000 : ℚ) ≤ 2 ^ (42 : ℤ) := by norm_num
      _ ≤ 2 ^ (1023 : ℤ) := zpow_le_zpow_right₀ (by norm_num) (by norm_num)
  have e3 : F64.ofRat (60 * 60 * 1000000000) = F64.fin 3600000000000 := by
    have h := fl_natCast (n := 3600000000000) (by norm_num)
    rw [show (60 * 60 * 1000000000 : ℚ) = ((3600000000000 : ℕ) : ℚ) by norm_num, ofRat_of_le, h]
    · norm_num
    · rw [abs_of_nonneg (by positivity)]
      calc ((3600000000000 : ℕ) : ℚ) ≤ 2 ^ (42 : ℤ) := by norm_num
        _ ≤ 2 ^ (1023 : ℤ) := zpow_le_zpow_right₀ (by norm_num) (by norm_num)
  have e4 : F64.ofRat ((nsec : ℚ) / 3600000000000) = F64.fin (fl ((nsec : ℚ) / 3600000000000)) :=
    ofRat_of_le (hq.trans hone)
  -- the sum
  have hT : |(d : ℚ) / 3600000000000| ≤ 2562048 := by
    rw [abs_le]; constructor
    · rw [le_div_iff₀ (by norm_num)]; norm_num at hdq ⊢; linarith [hdq.1]
    · rw [div_le_iff₀ (by norm_num)]; norm_num at hdq ⊢; linarith [hdq.2]
  have hsum : |((hour : ℚ) + fl ((nsec : ℚ) / 3600000000000))| ≤ 2 ^ (22 : ℤ) := by
    have h54 : (2 : ℚ) ^ (-54 : ℤ) ≤ 1 := zpow_le_one_of_nonpos₀ (by norm_num) (by norm_num)
    rw [abs_le] at hT hclose ⊢
    norm_num
    constructor <;> linarith [hT.1, hT.2, hclose.1, hclose.2]
  have h22 : (2 : ℚ) ^ (22 : ℤ) ≤ 2 ^ (1023 : ℤ) := zpow_le_zpow_right₀ (by norm_num) (by norm_num)
  have e5 : F64.ofRat ((hour : ℚ) + fl ((nsec : ℚ) / 3600000000000)) = F64.fin (hoursRaw d) :=
    ofRat_of_le (hsum.trans h22)
  have hs : |hoursRaw d| ≤ 2 ^ (22 : ℤ) := abs_fl_le_of_rep (rep_two_zpow (by norm_num)) hsum
  have e6 : F64.ofRat 24 = F64.fin 24 := by
    have h := fl_natCast (n := 24) (by norm_num)
    rw [show (24 : ℚ) = ((24 : ℕ) : ℚ) by norm_num, ofRat_of_le, h]
    rw [abs_of_nonneg (by positivity)]
    calc ((24 : ℕ) : ℚ) ≤ 2 ^ (5 : ℤ) := by norm_num
      _ ≤ 2 ^ (1023 : ℤ) := zpow_le_zpow_right₀ (by norm_num) (by norm_num)
  have hq24 : |hoursRaw d / 24| ≤ 2 ^ (22 : ℤ) := by
    rw [abs_div, abs_of_pos (show (0 : ℚ) < 24 by norm_num), div_le_iff₀ (by norm_num)]
    have := two_zpow_pos (22 : ℤ)
    linarith
  have e7 : F64.ofRat (hoursRaw d / 24) = F64.fin (daysRaw d) := ofRat_of_le (hq24.trans h22)
  have hdays : |daysRaw d| ≤ 2 ^ (22 : ℤ) := abs_fl_le_of_rep (rep_two_zpow (by norm_num)) hq24
  refine ⟨?_, by norm_num at hs ⊢; exact hs⟩
  unfold daysLeft Duration.Hours
  simp only [← hd, ← hhour, ← hnsec]
  rw [e1, e2, e3]
  simp only [F64.div]
  rw [if_neg (by norm_num), e4]
  simp only [F64.add]
  rw [e5, e6]
  simp only [F64.div]
  rw [if_neg (by norm_num), e7]
  apply round_fin (rep_fl _)
  exact hdays.trans h22

theorem hoursRaw_le {d : ℤ} {b : ℚ} (hb : Rep b)
    (h : (d : ℚ) / 3600000000000 + 2 ^ (-54 : ℤ) ≤ b) : hoursRaw d ≤ b := by
  have hclose := hours_sum_close d
  rw [abs_le] at hclose
  exact fl_le_of_rep hb (by linarith [hclose.2])

theorem le_hoursRaw {d : ℤ} {b : ℚ} (hb : Rep b)
    (h : b ≤ (d : ℚ) / 3600000000000 - 2 ^ (-54 : ℤ)) : b ≤ hoursRaw d := by
  have hclose := hours_sum_close d
  rw [abs_le] at hclose
  exact le_fl_of_rep hb (by linarith [hclose.1])

theorem rep_twelve : Rep (12 - 2 ^ (-42 : ℤ)) :=
  ⟨52776558133247, -42, by norm_num, by norm_num, by norm_num⟩

theorem rep_half : Rep (1 / 2 - 2 ^ (-47 : ℤ)) :=
  ⟨70368744177663, -47, by norm_num, by norm_num, by norm_num⟩

theorem rep_twelve_up : Rep (12 + 2 ^ (-42 : ℤ)) :=
  ⟨52776558133249, -42, by norm_num, by norm_num, by norm_num⟩

theorem rep_half_up : Rep (1 / 2 + 2 ^ (-47 : ℤ)) :=
  ⟨70368744177665, -47, by norm_num, by norm_num, by norm_num⟩

/-- A duration below minus twelve hours gives a day count of at most `-1`. -/
theorem daysRaw_neg {d : ℤ} (h : d < -(12 * 3600000000000)) : roundAway (daysRaw d) ≤ -1 := by
  have hd : (d : ℚ) ≤ -(12 * 3600000000000) - 1 := by
    have : d ≤ -(12 * 3600000000000) - 1 := by omega
    exact_mod_cast this
  have h1 : hoursRaw d ≤ -(12 + 2 ^ (-42 : ℤ)) := by
    apply hoursRaw_le (rep_neg rep_twelve_up)
    have : (d : ℚ) / 3600000000000 ≤ -12 - 1 / 3600000000000 := by
      rw [div_le_iff₀ (by norm_num)]; linarith
    norm_num at this ⊢
    linarith
  have h2 : daysRaw d ≤ -(1 / 2 + 2 ^ (-47 : ℤ)) := by
    apply fl_le_of_rep (rep_neg rep_half_up)
    rw [div_le_iff₀ (by norm_num)]
    norm_num at h1 ⊢
    linarith
  have h3 : roundAway (-(1 / 2 + 2 ^ (-47 : ℤ)) : ℚ) = -1 := by
    apply roundAway_eq_of_lt <;> norm_num
  have := roundAway_mono h2
  rwa [h3] at this

/-- A duration strictly within twelve hours of zero gives a day count of `0`. -/
theorem daysRaw_zero {d : ℤ} (h1 : -(12 * 3600000000000) < d) (h2 : d < 12 * 3600000000000) :
    roundAway (daysRaw d) = 0 := by
  have hd1 : -(12 * 3600000000000) + 1 ≤ (d : ℚ) := by
    have : -(12 * 3600000000000) + 1 ≤ d := by omega
    exact_mod_cast this
  have hd2 : (d : ℚ) ≤ 12 * 3600000000000 - 1 := by
    have : d ≤ 12 * 3600000000000 - 1 := by omega
    exact_mod_cast this
  have hq1 : -12 + 1 / 3600000000000 ≤ (d : ℚ) / 3600000000000 := by
    rw [le_div_iff₀ (by norm_num)]; linarith
  have hq2 : (d : ℚ) / 3600000000000 ≤ 12 - 1 / 3600000000000 := by
    rw [div_le_iff₀ (by norm_num)]; linarith
  have a1 : hoursRaw d ≤ 12 - 2 ^ (-42 : ℤ) := by
    apply hoursRaw_le rep_twelve
    norm_num at hq2 ⊢
    linarith
  have a2 : -(12 - 2 ^ (-42 : ℤ)) ≤ hoursRaw d := by
    apply le_hoursRaw (rep_neg rep_twelve)
    norm_num at hq1 ⊢
    linarith
  have b1 : daysRaw d ≤ 1 / 2 - 2 ^ (-47 : ℤ) := by
    apply fl_le_of_rep rep_half
    rw [div_le_iff₀ (by norm_num)]
    norm_num at a1 ⊢
    linarith
  have b2 : -(1 / 2 - 2 ^ (-47 : ℤ)) ≤ daysRaw d := by
    apply le_fl_of_rep (rep_neg rep_half)
    rw [le_div_iff₀ (by norm_num)]
    norm_num at a2 ⊢
    linarith
  apply roundAway_eq_of_lt
  · norm_num at b2 ⊢; linarith
  · norm_num at b1 ⊢; linarith

/-- For a duration in the 64-bit range the value rounded is within `2 ^ -35` of the exact
number of days. -/
theorem daysRaw_close {d : ℤ} (hlo : -2 ^ 63 ≤ d) (hhi : d ≤ 2 ^ 63 - 1) :
    |daysRaw d - (d : ℚ) / 86400000000000| ≤ 2 ^ (-35 : ℤ) := by
  have hclose := hours_sum_close d
  have hdq : -(9223372036854775808 : ℚ) ≤ d ∧ (d : ℚ) ≤ 9223372036854775808 := by
    constructor
    · have : ((-2 ^ 63 : ℤ) : ℚ) ≤ (d : ℚ) := by exact_mod_cast hlo
      norm_num at this; exact this
    · have : (d : ℚ) ≤ ((2 ^ 63 - 1 : ℤ) : ℚ) := by exact_mod_cast hhi
      norm_num at this; linarith
  have hT : |(d : ℚ) / 3600000000000| ≤ 2562048 := by
    rw [abs_le]; constructor
    · rw [le_div_iff₀ (by norm_num)]; linarith [hdq.1]
    · rw [div_le_iff₀ (by norm_num)]; linarith [hdq.2]
  have hraw : hoursRaw d
      = fl ((Int.tdiv d Hour : ℤ) + fl ((Int.tmod d Hour : ℤ) / 3600000000000)) := rfl
  generalize ((Int.tdiv d Hour : ℤ) + fl ((Int.tmod d Hour : ℤ) / 3600000000000) : ℚ) = sum
    at hclose hraw
  have c54 : (2 : ℚ) ^ (-54 : ℤ) = 1 / 18014398509481984 := by norm_num
  have c22 : (2 : ℚ) ^ ((21 : ℤ) + 1) = 4194304 := by norm_num
  have c18 : (2 : ℚ) ^ ((17 : ℤ) + 1) = 262144 := by norm_num
  have c32 : (2 : ℚ) ^ ((21 : ℤ) - 53) = 1 / 4294967296 := by norm_num
  have c36 : (2 : ℚ) ^ ((17 : ℤ) - 53) = 1 / 68719476736 := by norm_num
  have c35 : (2 : ℚ) ^ (-35 : ℤ) = 1 / 34359738368 := by norm_num
  rw [c54] at hclose
  have hsumb : |sum| ≤ 2 ^ ((21 : ℤ) + 1) := by
    rw [c22]
    rw [abs_le] at hT hclose ⊢
    constructor <;> linarith [hT.1, hT.2, hclose.1, hclose.2]
  have e1 := fl_err_of_le (by norm_num) hsumb
  have hs : |hoursRaw d| ≤ 2 ^ ((21 : ℤ) + 1) := by
    rw [hraw]; exact abs_fl_le_of_rep (rep_two_zpow (by norm_num)) hsumb
  have hq24 : |hoursRaw d / 24| ≤ 2 ^ ((17 : ℤ) + 1) := by
    rw [abs_div, abs_of_pos (show (0 : ℚ) < 24 by norm_num), div_le_iff₀ (by norm_num), c18]
    rw [c22] at hs
    linarith
  have e2 := fl_err_of_le (by norm_num) hq24
  have e1' : |hoursRaw d - sum| ≤ 2 ^ ((21 : ℤ) - 53) := by rw [hraw]; exact e1
  have e2' : |daysRaw d - hoursRaw d / 24| ≤ 2 ^ ((17 : ℤ) - 53) := e2
  rw [c32] at e1'
  rw [c36] at e2'
  rw [c35]
  rw [abs_le] at e1' e2' hclose ⊢
  have hx : (d : ℚ) / 86400000000000 = (d : ℚ) / 3600000000000 / 24 := by
    rw [div_div]; norm_num
  rw [hx]
  constructor <;> linarith [e1'.1, e1'.2, e2'.1, e2'.2, hclose.1, hclose.2]

/-- Away from the halves by more than the error, two values round alike. -/
theorem roundAway_eq_of_close (δ : ℚ) {x q : ℚ} (hx : ∀ k : ℤ, δ ≤ |x - (k + 1 / 2)|)
    (hq : |q - x| < δ) : roundAway q = roundAway x := by
  have hn := roundAway_sub_le x
  have h1 := hx (roundAway x)
  have h2 := hx (roundAway x - 1)
  rw [abs_le] at hn
  rw [abs_lt] at hq
  push_cast at h2
  rw [abs_of_nonpos (by linarith)] at h1
  rw [abs_of_nonneg (by linarith)] at h2
  apply roundAway_eq_of_lt <;> linarith [hq.1, hq.2]

/-- At an odd multiple of twelve hours every step is exact. -/
theorem daysRaw_half {d k : ℤ} (hlo : -2 ^ 63 ≤ d) (hhi : d ≤ 2 ^ 63 - 1)
    (hk : d = (2 * k + 1) * 43200000000000) : daysRaw d = k + 1 / 2 := by
  have hd : d = ((2 * k + 1) * 12) * Hour := by rw [hk, hour_eq]; ring
  have hH : Hour ≠ 0 := by rw [hour_eq]; norm_num
  have h1 : Int.tdiv d Hour = (2 * k + 1) * 12 := by rw [hd, Int.mul_tdiv_cancel _ hH]
  have h2 : Int.tmod d Hour = 0 := by rw [hd, Int.mul_tmod_left]
  have hkb : |(2 * k + 1) * 12| ≤ 2 ^ 53 := by rw [abs_le]; constructor <;> omega
  have hkb' : |2 * k + 1| ≤ 2 ^ 53 := by rw [abs_le]; constructor <;> omega
  unfold daysRaw hoursRaw
  rw [h1, h2, Int.cast_zero, zero_div, fl_zero, add_zero, fl_intCast hkb]
  have hrep : Rep (((2 * k + 1 : ℤ) : ℚ) * 2 ^ (-1 : ℤ)) := ⟨2 * k + 1, -1, hkb', by norm_num, rfl⟩
  have : (((2 * k + 1) * 12 : ℤ) : ℚ) / 24 = ((2 * k + 1 : ℤ) : ℚ) * 2 ^ (-1 : ℤ) := by
    push_cast; norm_num; ring
  rw [this, fl_of_rep hrep]
  push_cast; norm_num; ring

/-! ### Evaluation at given operands -/

theorem rne_eq_of_tie (x : ℚ) (n : ℤ) (h : x - n = 1 / 2 ∨ x - n = -(1 / 2))
    (heven : n % 2 = 0) : rne x = n := by
  rcases h with h | h
  · have hf : ⌊x⌋ = n := by rw [Int.floor_eq_iff]; constructor <;> linarith
    unfold rne
    rw [hf, if_neg (by linarith), if_neg (by linarith), if_pos heven]
  · have hf : ⌊x⌋ = n - 1 := by rw [Int.floor_eq_iff]; push_cast; constructor <;> linarith
    unfold rne
    rw [hf]
    push_cast
    rw [if_neg (by linarith), if_neg (by linarith), if_neg (by omega)]
    ring

/-- Evaluation of `fl` when the significand may fall on a tie. -/
theorem fl_eq_of_cert_tie (x : ℚ) (e n : ℤ) (h1 : 2 ^ e ≤ |x|) (h2 : |x| < 2 ^ (e + 1))
    (h3 : -1022 ≤ e)
    (h4 : (-(1 / 2) < x / 2 ^ (e - 52) - n ∧ x / 2 ^ (e - 52) - n < 1 / 2) ∨
      ((x / 2 ^ (e - 52) - n = 1 / 2 ∨ x / 2 ^ (e - 52) - n = -(1 / 2)) ∧ n % 2 = 0)) :
    fl x = n * 2 ^ (e - 52) := by
  rcases h4 with h4 | ⟨h4, h5⟩
  · exact fl_eq_of_cert x e n h1 h2 h3 (by rw [abs_lt]; exact h4)
  · unfold fl
    rw [expo_eq h1 h2 h3, rne_eq_of_tie _ n h4 h5]

/-- Evaluation of the percentage from the two binades and the two rounded significands. -/
theorem pct_cert (x : ℚ) (e1 n1 e2 n2 k : ℤ)
    (h1 : 2 ^ e1 ≤ x ∧ x < 2 ^ (e1 + 1) ∧ -1022 ≤ e1 ∧
      -(1 / 2) < x / 2 ^ (e1 - 52) - n1 ∧ x / 2 ^ (e1 - 52) - n1 < 1 / 2)
    (h2 : 2 ^ e2 ≤ (n1 : ℚ) * 2 ^ (e1 - 52) * 100 ∧ (n1 : ℚ) * 2 ^ (e1 - 52) * 100 < 2 ^ (e2 + 1)
      ∧ -1022 ≤ e2 ∧
      ((-(1 / 2) < (n1 : ℚ) * 2 ^ (e1 - 52) * 100 / 2 ^ (e2 - 52) - n2
        ∧ (n1 : ℚ) * 2 ^ (e1 - 52) * 100 / 2 ^ (e2 - 52) - n2 < 1 / 2) ∨
      (((n1 : ℚ) * 2 ^ (e1 - 52) * 100 / 2 ^ (e2 - 52) - n2 = 1 / 2
        ∨ (n1 : ℚ) * 2 ^ (e1 - 52) * 100 / 2 ^ (e2 - 52) - n2 = -(1 / 2)) ∧ n2 % 2 = 0)))
    (h3 : (k : ℚ) - 1 / 2 ≤ n2 * 2 ^ (e2 - 52) ∧ (n2 : ℚ) * 2 ^ (e2 - 52) < k + 1 / 2) :
    roundAway (fl (fl x * 100)) = k := by
  obtain ⟨a1, a2, a3, a4, a5⟩ := h1
  obtain ⟨b1, b2, b3, b4⟩ := h2
  have hx : 0 < x := lt_of_lt_of_le (two_zpow_pos _) a1
  have hy : 0 < (n1 : ℚ) * 2 ^ (e1 - 52) * 100 := lt_of_lt_of_le (two_zpow_pos _) b1
  have e1' : fl x = n1 * 2 ^ (e1 - 52) :=
    fl_eq_of_cert x e1 n1 (by rwa [abs_of_pos hx]) (by rwa [abs_of_pos hx]) a3
      (by rw [abs_lt]; exact ⟨a4, a5⟩)
  have e2' : fl ((n1 : ℚ) * 2 ^ (e1 - 52) * 100) = n2 * 2 ^ (e2 - 52) :=
    fl_eq_of_cert_tie _ e2 n2 (by rwa [abs_of_pos hy]) (by rwa [abs_of_pos hy]) b3 b4
  rw [e1', e2']
  have hp : 0 ≤ (n2 : ℚ) * 2 ^ (e2 - 52) := by rw [← e2']; exact fl_nonneg hy.le
  rw [roundAway_of_nonneg hp, Int.floor_eq_iff]
  constructor <;> linarith [h3.1, h3.2]

/-- Of the two complementary ratios `(2k+1)/200` and `(199-2k)/200`, one at least is
rounded up. -/
theorem half_pair (k : ℕ) (hk : k < 50) :
    roundAway (fl (fl (((2 * k + 1 : ℕ) : ℚ) / 200) * 100)) = (k : ℤ) + 1 ∨
    roundAway (fl (fl (((199 - 2 * k : ℕ) : ℚ) / 200) * 100)) = 100 - (k : ℤ) := by
  interval_cases k
  · left; exact pct_cert _ (-8) 5764607523034235 (-1) 4503599627370496 _ (by norm_num) (by norm_num) (by norm_num)
  · left; exact pct_cert _ (-7) 8646911284551352 (0) 6755399441055744 _ (by norm_num) (by norm_num) (by norm_num)
  · left; exact pct_cert _ (-6) 7205759403792794 (1) 5629499534213120 _ (by norm_num) (by norm_num) (by norm_num)
  · left; exact pct_cert _ (-5) 5044031582654956 (1) 7881299347898369 _ (by norm_num) (by norm_num) (by norm_num)
  · left; exact pct_cert _ (-5) 6485183463413514 (2) 5066549580791808 _ (by norm_num) (by norm_num) (by norm_num)
  · left; exact pct_cert _ (-5) 7926335344172073 (2) 6192449487634432 _ (by norm_num) (by norm_num) (by norm_num)
  · left; exact pct_cert _ (-4) 4683743612465316 (2) 7318349394477056 _ (by norm_num) (by norm_num) (by norm_num)
  · left; exact pct_cert _ (-4) 5404319552844595 (2) 8444249301319680 _ (by norm_num) (by norm_num) (by norm_num)
  · left; exact pct_cert _ (-4) 6124895493223875 (3) 4785074604081152 _ (by norm_num) (by norm_num) (by norm_num)
  · left; exact pct_cert _ (-4) 6845471433603154 (3) 5348024557502464 _ (by norm_num) (by norm_num) (by norm_num)
  · left; exact pct_cert _ (-4) 7566047373982433 (3) 5910974510923776 _ (by norm_num) (by norm_num) (by norm_num)
  · left; exact pct_cert _ (-4) 8286623314361713 (3) 6473924464345088 _ (by norm_num) (by norm_num) (by norm_num)
  · left; exact pct_cert _ (-3) 4503599627370496 (3) 7036874417766400 _ (by norm_num) (by norm_num) (by norm_num)
  · left; exact pct_cert _ (-3) 4863887597560136 (3) 7599824371187712 _ (by norm_num) (by norm_num) (by norm_num)
  · right; exact pct_cert _ (-1) 7701155362803548 (6) 6016527627190272 _ (by norm_num) (by norm_num) (by norm_num)
  · left; exact pct_cert _ (-3) 5584463537939415 (3) 8725724278030336 _ (by norm_num) (by norm_num) (by norm_num)
  · left; exact pct_cert _ (-3) 5944751508129055 (4) 4644337115725824 _ (by norm_num) (by norm_num) (by norm_num)
  · left; exact pct_cert _ (-3) 6305039478318694 (4) 4925812092436480 _ (by norm_num) (by norm_num) (by norm_num)
  · left; exact pct_cert _ (-3) 6665327448508334 (4) 5207287069147136 _ (by norm_num) (by norm_num) (by norm_num)
  · left; exact pct_cert _ (-3) 7025615418697974 (4) 5488762045857792 _ (by norm_num) (by norm_num) (by norm_num)
  · left; exact pct_cert _ (-3) 7385903388887613 (4) 5770237022568448 _ (by norm_num) (by norm_num) (by norm_num)
  · left; exact pct_cert _ (-3) 7746191359077253 (4) 6051711999279104 _ (by norm_num) (by norm_num) (by norm_num)
  · left; exact pct_cert _ (-3) 8106479329266893 (4) 6333186975989760 _ (by norm_num) (by norm_num) (by norm_num)
  · left; exact pct_cert _ (-3) 8466767299456532 (4) 6614661952700416 _ (by norm_num) (by norm_num) (by norm_num)
  · left; exact pct_cert _ (-3) 8827055269646172 (4) 6896136929411072 _ (by norm_num) (by norm_num) (by norm_num)
  · left; exact pct_cert _ (-2) 4593671619917906 (4) 7177611906121728 _ (by norm_num) (by norm_num) (by norm_num)
  · left; exact pct_cert _ (-2) 4773815605012726 (4) 7459086882832384 _ (by norm_num) (by norm_num) (by norm_num)
  · left; exact pct_cert _ (-2) 4953959590107546 (4) 7740561859543041 _ (by norm_num) (by norm_num) (by norm_num)
  · right; exact pct_cert _ (-1) 6440147467139809 (6) 5031365208702976 _ (by norm_num) (by norm_num) (by norm_num)
  · left; exact pct_cert _ (-2) 5314247560297185 (4) 8303511812964352 _ (by norm_num) (by norm_num) (by norm_num)
  · left; exact pct_cert _ (-2) 5494391545392005 (4) 8584986789675008 _ (by norm_num) (by norm_num) (by norm_num)
  · left; exact pct_cert _ (-2) 5674535530486825 (4) 8866461766385664 _ (by norm_num) (by norm_num) (by norm_num)
  · left; exact pct_cert _ (-2) 5854679515581645 (5) 4573968371548160 _ (by norm_num) (by norm_num) (by norm_num)
  · left; exact pct_cert _ (-2) 6034823500676465 (5) 4714705859903488 _ (by norm_num) (by norm_num) (by norm_num)
  · left; exact pct_cert _ (-2) 6214967485771284 (5) 4855443348258816 _ (by norm_num) (by norm_num) (by norm_num)
  · left; exact pct_cert _ (-2) 6395111470866104 (5) 4996180836614144 _ (by norm_num) (by norm_num) (by norm_num)
  · left; exact pct_cert _ (-2) 6575255455960924 (5) 5136918324969472 _ (by norm_num) (by norm_num) (by norm_num)
  · left; exact pct_cert _ (-2) 6755399441055744 (5) 5277655813324800 _ (by norm_num) (by norm_num) (by norm_num)
  · left; exact pct_cert _ (-2) 6935543426150564 (5) 5418393301680128 _ (by norm_num) (by norm_num) (by norm_num)
  · left; exact pct_cert _ (-2) 7115687411245384 (5) 5559130790035456 _ (by norm_num) (by norm_num) (by norm_num)
  · left; exact pct_cert _ (-2) 7295831396340204 (5) 5699868278390784 _ (by norm_num) (by norm_num) (by norm_num)
  · left; exact pct_cert _ (-2) 7475975381435023 (5) 5840605766746112 _ (by norm_num) (by norm_num) (by norm_num)
  · left; exact pct_cert _ (-2) 7656119366529843 (5) 5981343255101440 _ (by norm_num) (by norm_num) (by norm_num)
  · left; exact pct_cert _ (-2) 7836263351624663 (5) 6122080743456768 _ (by norm_num) (by norm_num) (by norm_num)
  · left; exact pct_cert _ (-2) 8016407336719483 (5) 6262818231812096 _ (by norm_num) (by norm_num) (by norm_num)
  · left; exact pct_cert _ (-2) 8196551321814303 (5) 6403555720167424 _ (by norm_num) (by norm_num) (by norm_num)
  · left; exact pct_cert _ (-2) 8376695306909123 (5) 6544293208522752 _ (by norm_num) (by norm_num) (by norm_num)
  · left; exact pct_cert _ (-2) 8556839292003942 (5) 6685030696878080 _ (by norm_num) (by norm_num) (by norm_num)
  · left; exact pct_cert _ (-2) 8736983277098762 (5) 6825768185233408 _ (by norm_num) (by norm_num) (by norm_num)
  · left; exact pct_cert _ (-2) 8917127262193582 (5) 6966505673588736 _ (by norm_num) (by norm_num) (by norm_num)

/-! ### Records returned by `getConsumption` -/

theorem parseUint_lt {s : String} {n : ℕ} (h : parseUint s = some n) : n < 2 ^ 64 := by
  unfold parseUint at h
  split_ifs at h with h1
  simp only at h
  split_ifs at h with h2
  simp only [Option.some.injEq] at h
  rw [← h]
  exact h2

theorem asUint_lt {v : Option JSON} {n : ℕ} (h : JSON.asUint v = some n) : n < 2 ^ 64 := by
  unfold JSON.asUint at h
  split at h
  · split at h
    · split_ifs at h with h1
      simp only [Option.some.injEq] at h
      rw [← h]
      exact h1.2
    · simp at h
  · exact parseUint_lt h
  · simp at h

theorem asUint_natCast {n : ℕ} (hn : n < 2 ^ 64) :
    JSON.asUint (some (JSON.num n)) = some n := by
  show (match ((n : ℚ)).num with
    | Int.ofNat k => if ((n : ℚ)).den = 1 ∧ k < 2 ^ 64 then some k else none
    | Int.negSucc _ => none) = some n
  rw [Rat.num_natCast, Rat.den_natCast]
  show (if 1 = 1 ∧ n < 2 ^ 64 then some n else none) = some n
  rw [if_pos ⟨rfl, hn⟩]

theorem unmarshalConsumption_lt {parseTime : String → Option Time} {x : JSON}
    {c : Consumption} (h : unmarshalConsumption parseTime x = some c) :
    c.ConsumedPercent = F64.fin 0 ∧ c.Consumed < 2 ^ 64 ∧ c.Left < 2 ^ 64 ∧ c.Max < 2 ^ 64 := by
  unfold unmarshalConsumption at h
  split at h
  · rename_i h1 h2 h3 h4
    simp only [Option.some.injEq] at h
    subst h
    exact ⟨rfl, asUint_lt h1, asUint_lt h2, asUint_lt h3⟩
  · simp at h

theorem unmarshalElements_mem {parseTime : String → Option Time} :
    ∀ {xs : List JSON} {cs : List Consumption}, unmarshalElements parseTime xs = some cs →
      ∀ c ∈ cs, ∃ x ∈ xs, unmarshalConsumption parseTime x = some c
  | [], cs, h, c, hc => by
    simp only [unmarshalElements, Option.some.injEq] at h
    subst h
    simp at hc
  | x :: xs, cs, h, c, hc => by
    unfold unmarshalElements at h
    split at h
    · rename_i c0 cs0 h1 h2
      simp only [Option.some.injEq] at h
      subst h
      rcases List.mem_cons.mp hc with rfl | hc
      · exact ⟨x, List.mem_cons_self _ _, h1⟩
      · obtain ⟨y, hy, hyc⟩ := unmarshalElements_mem h2 c hc
        exact ⟨y, List.mem_cons_of_mem _ hy, hyc⟩
    · simp at h

theorem unmarshalConsumptions_mem {parseTime : String → Option Time} {body : Option JSON}
    {cs : List Consumption} (h : (unmarshalConsumptions parseTime body).Consumptions = some cs)
    {c : Consumption} (hc : c ∈ cs) : c.Consumed < 2 ^ 64 ∧ c.Left < 2 ^ 64 ∧ c.Max < 2 ^ 64 := by
  have key : ∀ xs, unmarshalElements parseTime xs = some cs →
      c.Consumed < 2 ^ 64 ∧ c.Left < 2 ^ 64 ∧ c.Max < 2 ^ 64 := by
    intro xs hxs
    obtain ⟨x, -, hx⟩ := unmarshalElements_mem hxs c hc
    exact (unmarshalConsumption_lt hx).2
  unfold unmarshalConsumptions at h
  split at h
  · split at h
    · simp only [Option.some.injEq] at h
      subst h
      simp at hc
    · simp only [Option.some.injEq] at h
      subst h
      simp at hc
    · exact key _ h
    · exact key _ h
  · simp at h

/-- Every record `getConsumption` returns went through the loop body: its three computed
fields are functions of its decoded fields, which are 64-bit values. -/
theorem getConsumption_mem {w : World} {token : Token} {cs : List Consumption}
    {r : Consumption} (h : (getConsumption w token).result = Except.ok ⟨some cs⟩)
    (hr : r ∈ cs) :
    r.ConsumedPercent = percent r.Consumed r.Max ∧ r.LeftPercent = percent r.Left r.Max ∧
    r.DaysLeft = daysLeft r.ExpirationDate w.now ∧
    r.Consumed < 2 ^ 64 ∧ r.Left < 2 ^ 64 ∧ r.Max < 2 ^ 64 := by
  unfold getConsumption at h
  split at h
  · simp at h
  · rename_i body hdo
    simp only [Except.ok.injEq, Consumptions.mk.injEq] at h
    cases hl : (unmarshalConsumptions w.parseTime body).Consumptions with
    | none => rw [hl] at h; simp at h
    | some l =>
      rw [hl] at h
      simp only [Option.map_some', Option.some.injEq] at h
      subst h
      simp only [List.mem_map] at hr
      obtain ⟨c, hc, rfl⟩ := hr
      exact ⟨rfl, rfl, rfl, @unmarshalConsumptions_mem _ _ _ hl c hc⟩

theorem elem_unmarshal (consumed left max : ℕ) (h1 : consumed < 2 ^ 64)
    (h2 : left < 2 ^ 64) (h3 : max < 2 ^ 64) (expiration : Time) (s : String) :
    unmarshalConsumption (fun _ => some expiration)
      (JSON.obj [("consumed", JSON.num consumed), ("unit", JSON.str "GB"),
      ("type", JSON.str "DATA"), ("expirationDate", JSON.str s),
      ("left", JSON.num left), ("max", JSON.num max)]) =
    some ⟨consumed, left, max, "GB", "DATA", expiration, F64.fin 0, F64.fin 0, F64.fin 0⟩ := by
  have m1 : (JSON.obj [("consumed", JSON.num consumed), ("unit", JSON.str "GB"),
      ("type", JSON.str "DATA"), ("expirationDate", JSON.str s),
      ("left", JSON.num left), ("max", JSON.num max)]).member "consumed"
      = some (JSON.num consumed) := rfl
  have m2 : (JSON.obj [("consumed", JSON.num consumed), ("unit", JSON.str "GB"),
      ("type", JSON.str "DATA"), ("expirationDate", JSON.str s),
      ("left", JSON.num left), ("max", JSON.num max)]).member "left"
      = some (JSON.num left) := rfl
  have m3 : (JSON.obj [("consumed", JSON.num consumed), ("unit", JSON.str "GB"),
      ("type", JSON.str "DATA"), ("expirationDate", JSON.str s),
      ("left", JSON.num left), ("max", JSON.num max)]).member "max"
      = some (JSON.num max) := rfl
  have m4 : (JSON.obj [("consumed", JSON.num consumed), ("unit", JSON.str "GB"),
      ("type", JSON.str "DATA"), ("expirationDate", JSON.str s),
      ("left", JSON.num left), ("max", JSON.num max)]).member "expirationDate"
      = some (JSON.str s) := rfl
  have m5 : (JSON.obj [("consumed", JSON.num consumed), ("unit", JSON.str "GB"),
      ("type", JSON.str "DATA"), ("expirationDate", JSON.str s),
      ("left", JSON.num left), ("max", JSON.num max)]).member "unit"
      = some (JSON.str "GB") := rfl
  have m6 : (JSON.obj [("consumed", JSON.num consumed), ("unit", JSON.str "GB"),
      ("type", JSON.str "DATA"), ("expirationDate", JSON.str s),
      ("left", JSON.num left), ("max", JSON.num max)]).member "type"
      = some (JSON.str "DATA") := rfl
  unfold unmarshalConsumption
  rw [m1, m2, m3, m4, m5, m6, asUint_natCast h1, asUint_natCast h2, asUint_natCast h3]
  rfl

theorem server_getConsumption (consumed left max : ℕ) (h1 : consumed < 2 ^ 64)
    (h2 : left < 2 ^ 64) (h3 : max < 2 ^ 64) (now expiration : Time) (s : String)
    (token : Token) :
    (getConsumption (server (some (consumptionBody consumed left max s)) now expiration)
      token).result = Except.ok ⟨some [record consumed left max now expiration]⟩ := by
  have hp : (consumptionBody consumed left max s).path
      ["data", "consumptions", "consumptionsForUnit"] =
      some (JSON.arr [JSON.obj [("consumed", JSON.num consumed), ("unit", JSON.str "GB"),
      ("type", JSON.str "DATA"), ("expirationDate", JSON.str s),
      ("left", JSON.num left), ("max", JSON.num max)]]) := rfl
  have hu : unmarshalConsumptions (fun _ => some expiration)
      (some (consumptionBody consumed left max s)) =
      ⟨some [⟨consumed, left, max, "GB", "DATA", expiration, F64.fin 0, F64.fin 0,
        F64.fin 0⟩]⟩ := by
    unfold unmarshalConsumptions
    simp only [hp, unmarshalElements, elem_unmarshal consumed left max h1 h2 h3 expiration s]
  show Except.ok _ = _
  simp only [server, hu]
  rfl

/-! ### Bounds on the percentage -/

theorem pctRaw_le_hundred {c m : ℕ} (hm : 0 < m) (hcm : c ≤ m) : pctRaw c m ≤ 100 := by
  have hb1 := one_le_fl_natCast hm
  have h0 : fl (c : ℚ) ≤ fl (m : ℚ) := fl_mono (by exact_mod_cast hcm)
  have h1 : fl (c : ℚ) / fl (m : ℚ) ≤ 1 := by rw [div_le_one (by linarith)]; exact h0
  have r1 : Rep (1 : ℚ) := by simpa using rep_natCast (n := 1) (by norm_num)
  have r100 : Rep (100 : ℚ) := by simpa using rep_natCast (n := 100) (by norm_num)
  have h2 := fl_le_of_rep r1 h1
  unfold pctRaw
  exact fl_le_of_rep r100 (by linarith)

theorem pctRaw_self {m : ℕ} (hm : 0 < m) : pctRaw m m = 100 := by
  have hb1 := one_le_fl_natCast hm
  unfold pctRaw
  rw [div_self (by linarith), fl_one, one_mul, fl_hundred]

theorem roundAway_hundred : roundAway 100 = 100 := by
  have := roundAway_intCast 100
  simpa using this

/-- Below one two-hundredth the percentage is zero, for a maximum of at most `2 ^ 53`. -/
theorem pctRaw_lt_half {c m : ℕ} (hm' : m ≤ 2 ^ 53) (h : c * 200 < m) :
    pctRaw c m < 1 / 2 := by
  have hmpos : 0 < m := by omega
  have hc53 : c ≤ 2 ^ 53 := by omega
  rw [pctRaw_small hc53 hm']
  have hmq : (0 : ℚ) < m := by exact_mod_cast hmpos
  have hmle : (m : ℚ) ≤ 9007199254740992 := by
    calc (m : ℚ) ≤ ((2 ^ 53 : ℕ) : ℚ) := by exact_mod_cast hm'
      _ = 9007199254740992 := by norm_num
  have hcm : (c : ℚ) * 200 + 1 ≤ m := by
    have : c * 200 + 1 ≤ m := by omega
    exact_mod_cast this
  have hq : (c : ℚ) / m ≤ 1 / 200 - 1 / (200 * 9007199254740992) := by
    rw [div_le_iff₀ hmq]
    nlinarith
  have c1 : fl (1 / 200 - 1 / (200 * 9007199254740992))
      = (5764607523034234 : ℤ) * 2 ^ ((-8 : ℤ) - 52) :=
    fl_eq_of_cert _ (-8) 5764607523034234 (by norm_num [abs_of_pos])
      (by norm_num [abs_of_pos]) (by norm_num) (by rw [abs_lt]; norm_num)
  have c2 : fl ((5764607523034234 : ℤ) * 2 ^ ((-8 : ℤ) - 52) * 100)
      = (9007199254740991 : ℤ) * 2 ^ ((-2 : ℤ) - 52) :=
    fl_eq_of_cert _ (-2) 9007199254740991 (by norm_num [abs_of_pos])
      (by norm_num [abs_of_pos]) (by norm_num) (by rw [abs_lt]; norm_num)
  have h1 := fl_mono hq
  rw [c1] at h1
  have h2 : fl ((c : ℚ) / m) * 100 ≤ (5764607523034234 : ℤ) * 2 ^ ((-8 : ℤ) - 52) * 100 := by
    linarith
  have h3 := fl_mono h2
  rw [c2] at h3
  refine lt_of_le_of_lt h3 ?_
  norm_num

/-! ### Evaluation of sample records -/

theorem percent_of_cert {c m : ℕ} (hm : 0 < m) (hc : c ≤ 2 ^ 44) (hm' : m ≤ 2 ^ 53) {k : ℤ}
    (h : roundAway (fl (fl ((c : ℚ) / m) * 100)) = k) : percent c m = F64.fin k := by
  rw [percent_eq hm (by omega) (by omega), pctRaw_small (hc.trans (by norm_num)) hm', h]

theorem percent_29_200 : percent 29 200 = F64.fin 14 :=
  percent_of_cert (by norm_num) (by norm_num) (by norm_num)
    (pct_cert _ (-3) 5224175567749775 3 8162774324609023 14
      (by norm_num) (by norm_num) (by norm_num))

theorem percent_171_200 : percent 171 200 = F64.fin 86 :=
  percent_of_cert (by norm_num) (by norm_num) (by norm_num)
    (pct_cert _ (-1) 7701155362803548 6 6016527627190272 86
      (by norm_num) (by norm_num) (by norm_num))

theorem percent_1_200 : percent 1 200 = F64.fin 1 :=
  percent_of_cert (by norm_num) (by norm_num) (by norm_num)
    (pct_cert _ (-8) 5764607523034235 (-1) 4503599627370496 1
      (by norm_num) (by norm_num) (by norm_num))

theorem percent_199_200 : percent 199 200 = F64.fin 100 :=
  percent_of_cert (by norm_num) (by norm_num) (by norm_num)
    (pct_cert _ (-1) 8962163258467287 6 7001690045677568 100
      (by norm_num) (by norm_num) (by norm_num))

theorem percent_large_below_half :
    percent 36028797018963968 7205759403792793601 = F64.fin 1 := by
  rw [percent_eq (by norm_num) (by norm_num) (by norm_num)]
  have e1 : fl ((36028797018963968 : ℕ) : ℚ) = 36028797018963968 := by
    have := fl_of_rep (rep_two_zpow (k := 55) (by norm_num))
    norm_num at this ⊢
    exact this
  have e2 : fl ((7205759403792793601 : ℕ) : ℚ) = 7205759403792793600 := by
    have := fl_eq_of_cert ((7205759403792793601 : ℕ) : ℚ) 62 7036874417766400
      (by norm_num [abs_of_pos]) (by norm_num [abs_of_pos]) (by norm_num)
      (by rw [abs_lt]; norm_num)
    rw [this]; norm_num
  unfold pctRaw
  rw [e1, e2, show (36028797018963968 : ℚ) / 7205759403792793600 = 1 / 200 by norm_num]
  congr 1
  have := pct_cert (1 / 200) (-8) 5764607523034235 (-1) 4503599627370496 1
    (by norm_num) (by norm_num) (by norm_num)
  exact_mod_cast this

/-! ### Sums of the two percentages -/

theorem roundAway_add_compl {x : ℚ} (hx0 : 0 ≤ x) (hne : ∀ k : ℤ, x ≠ k + 1 / 2) :
    roundAway x + roundAway (100 - x) = 100 := by
  have hn := roundAway_of_nonneg hx0
  have h0 := Int.floor_le (x + 1 / 2)
  have h1 := Int.lt_floor_add_one (x + 1 / 2)
  rw [← hn] at h0 h1
  have h2 := hne (roundAway x - 1)
  push_cast at h2
  have h3 : (roundAway x : ℚ) - 1 / 2 < x := lt_of_le_of_ne (by linarith) (fun e => h2 (by linarith))
  have : roundAway (100 - x) = 100 - roundAway x := by
    apply roundAway_eq_of_lt <;> push_cast <;> linarith
  rw [this]; ring

/-- With `consumed + left = max` and `max` at most `2 ^ 44` the two rounded percentages add up
to 100 or 101, and to 100 off the halves. -/
theorem pctRaw_sum {c l m : ℕ} (hm : 0 < m) (hsum : c + l = m) (hm' : m ≤ 2 ^ 44) :
    (roundAway (pctRaw c m) + roundAway (pctRaw l m) = 100 ∨
      roundAway (pctRaw c m) + roundAway (pctRaw l m) = 101) ∧
    ((∀ k : ℤ, (200 * c : ℤ) ≠ (2 * k + 1) * m) →
      roundAway (pctRaw c m) + roundAway (pctRaw l m) = 100) := by
  have hm53 : m ≤ 2 ^ 53 := hm'.trans (by norm_num)
  have hc : c ≤ 2 ^ 44 := by omega
  have hl : l ≤ 2 ^ 44 := by omega
  have hmq : (0 : ℚ) < m := by exact_mod_cast hm
  have hlq : (l : ℚ) = m - c := by
    have : ((c + l : ℕ) : ℚ) = m := by exact_mod_cast hsum
    push_cast at this; linarith
  have hoff : (∀ k : ℤ, (200 * c : ℤ) ≠ (2 * k + 1) * m) →
      roundAway (pctRaw c m) + roundAway (pctRaw l m) = 100 := by
    intro hne
    have hne' : ∀ k : ℤ, (200 * l : ℤ) ≠ (2 * k + 1) * m := by
      intro k hk
      apply hne (99 - k)
      have : (l : ℤ) = m - c := by omega
      rw [this] at hk
      linear_combination (-1 : ℤ) * hk
    rw [pctRaw_round_exact hm hm53 hc hne, pctRaw_round_exact hm hm53 hl hne']
    have e : (100 * (l : ℚ) / m) = 100 - 100 * c / m := by
      rw [hlq]; field_simp; ring
    rw [e]
    apply roundAway_add_compl (by positivity)
    intro k hk
    apply hne k
    have : (200 * (c : ℚ)) = (2 * k + 1) * m := by
      field_simp at hk
      linarith
    exact_mod_cast this
  refine ⟨?_, hoff⟩
  by_cases hhalf : ∃ k : ℤ, (200 * c : ℤ) = (2 * k + 1) * m
  · obtain ⟨k, hk⟩ := hhalf
    have hk' : (200 * l : ℤ) = (2 * (99 - k) + 1) * m := by
      have : (l : ℤ) = m - c := by omega
      rw [this]
      linear_combination (-1 : ℤ) * hk
    have hmz : (0 : ℤ) < m := by exact_mod_cast hm
    have hcz : (c : ℤ) ≤ m := by omega
    have hk0 : 0 ≤ k := by
      by_contra hneg
      have : (2 * k + 1) * (m : ℤ) < 0 := by nlinarith
      omega
    have hk99 : k ≤ 99 := by
      by_contra hbig
      have : (200 : ℤ) * m < (2 * k + 1) * m := by nlinarith
      omega
    have ra := pctRaw_round_half hm hm53 hc hk
    have rb := pctRaw_round_half hm hm53 hl hk'
    -- the ratios are fixed by `k`
    have ec : (c : ℚ) / m = (2 * k + 1) / 200 := by
      have : (200 * (c : ℚ)) = (2 * k + 1) * m := by exact_mod_cast hk
      field_simp; linarith
    have el : (l : ℚ) / m = (2 * (99 - k) + 1) / 200 := by
      have : (200 * (l : ℚ)) = (2 * (99 - k) + 1) * m := by exact_mod_cast hk'
      field_simp; linarith
    have pc := pctRaw_small (hc.trans (by norm_num)) hm53
    have pl := pctRaw_small (hl.trans (by norm_num)) hm53
    rw [ec] at pc
    rw [el] at pl
    have hup : roundAway (pctRaw c m) = k + 1 ∨ roundAway (pctRaw l m) = 100 - k := by
      rw [pc, pl]
      rcases lt_or_le k 50 with hlt | hge
      · obtain ⟨j, rfl⟩ : ∃ j : ℕ, k = j := ⟨k.toNat, by omega⟩
        have hp := half_pair j (by omega)
        have e1 : (((2 * j + 1 : ℕ) : ℚ)) = 2 * ((j : ℤ) : ℚ) + 1 := by push_cast; ring
        have e2 : (((199 - 2 * j : ℕ) : ℚ)) = 2 * (99 - ((j : ℤ) : ℚ)) + 1 := by
          rw [Nat.cast_sub (by omega)]; push_cast; ring
        rw [e1, e2] at hp
        exact hp
      · obtain ⟨j, hj⟩ : ∃ j : ℕ, 99 - k = j := ⟨(99 - k).toNat, by omega⟩
        have hp := half_pair j (by omega)
        have hjq : ((j : ℤ) : ℚ) = 99 - k := by rw [← hj]; push_cast; ring
        have e1 : (((2 * j + 1 : ℕ) : ℚ)) = 2 * (99 - (k : ℚ)) + 1 := by
          push_cast at hjq ⊢; rw [hjq]
        have e2 : (((199 - 2 * j : ℕ) : ℚ)) = 2 * (k : ℚ) + 1 := by
          rw [Nat.cast_sub (by omega)]; push_cast at hjq ⊢; rw [hjq]; ring
        rw [e1, e2] at hp
        rcases hp with hp | hp
        · right; rw [hp]; omega
        · left; rw [hp]; omega
    rcases ra with ra | ra <;> rcases rb with rb | rb <;> rcases hup with hu | hu <;> omega
  · left
    apply hoff
    intro k hk
    exact hhalf ⟨k, hk⟩

/-! ## The percentages of a returned record -/

/-- C1 (as amended). For every record returned by `getConsumption` with `0 < max ≤ 2^53`,
`consumed ≤ 2^44` and `left ≤ 2^44`: when `consumed/max*100` is not exactly halfway between
two integers, `ConsumedPercent` is that quotient rounded to the nearest integer; when it is
exactly `k + 1/2`, `ConsumedPercent` is `k` or `k + 1`; and the same holds for
`LeftPercent` with `left`. -/
theorem consumption_percent_nearest (w : World) (token : Token) (cs : List Consumption)
    (r : Consumption) (h : (getConsumption w token).result = Except.ok ⟨some cs⟩)
    (hr : r ∈ cs) (hmax : 0 < r.Max) (hmax' : r.Max ≤ 2 ^ 53) (hc : r.Consumed ≤ 2 ^ 44)
    (hl : r.Left ≤ 2 ^ 44) :
    ((∀ k : ℤ, (200 * r.Consumed : ℤ) ≠ (2 * k + 1) * r.Max) →
      r.ConsumedPercent = F64.fin (roundAway ((r.Consumed : ℚ) / r.Max * 100))) ∧
    (∀ k : ℤ, (200 * r.Consumed : ℤ) = (2 * k + 1) * r.Max →
      r.ConsumedPercent = F64.fin k ∨ r.ConsumedPercent = F64.fin ((k + 1 : ℤ) : ℚ)) ∧
    ((∀ k : ℤ, (200 * r.Left : ℤ) ≠ (2 * k + 1) * r.Max) →
      r.LeftPercent = F64.fin (roundAway ((r.Left : ℚ) / r.Max * 100))) ∧
    (∀ k : ℤ, (200 * r.Left : ℤ) = (2 * k + 1) * r.Max →
      r.LeftPercent = F64.fin k ∨ r.LeftPercent = F64.fin ((k + 1 : ℤ) : ℚ)) := by
  obtain ⟨e1, e2, -, b1, b2, b3⟩ := getConsumption_mem h hr
  have p1 := percent_eq hmax b1 b3
  have p2 := percent_eq hmax b2 b3
  rw [e1, e2, p1, p2]
  have x1 : (r.Consumed : ℚ) / r.Max * 100 = 100 * r.Consumed / r.Max := by ring
  have x2 : (r.Left : ℚ) / r.Max * 100 = 100 * r.Left / r.Max := by ring
  refine ⟨?_, ?_, ?_, ?_⟩
  · intro hne; rw [pctRaw_round_exact hmax hmax' hc hne, x1]
  · intro k hk
    rcases pctRaw_round_half hmax hmax' hc hk with hh | hh
    · left; rw [hh]
    · right; rw [hh]
  · intro hne; rw [pctRaw_round_exact hmax hmax' hl hne, x2]
  · intro k hk
    rcases pctRaw_round_half hmax hmax' hl hk with hh | hh
    · left; rw [hh]
    · right; rw [hh]

/-- C1, instance: `consumed = 40`, `max = 100` gives `ConsumedPercent = 40`. -/
theorem consumption_percent_nearest_witness :
    (record 40 60 100 Time.zero Time.zero).ConsumedPercent = F64.fin 40 := by
  have h := (consumption_percent_nearest
    (server (some (consumptionBody 40 60 100 "")) Time.zero Time.zero) ⟨"", 0, "", ""⟩
    [record 40 60 100 Time.zero Time.zero] (record 40 60 100 Time.zero Time.zero)
    (server_getConsumption 40 60 100 (by norm_num) (by norm_num) (by norm_num) _ _ _ _)
    (List.mem_singleton.mpr rfl) (by decide) (by decide) (by decide) (by decide)).1
    (by intro k; show (200 * ((40 : ℕ) : ℤ)) ≠ (2 * k + 1) * ((100 : ℕ) : ℤ); omega)
  rw [h]
  show F64.fin (roundAway (((40 : ℕ) : ℚ) / ((100 : ℕ) : ℚ) * 100)) = F64.fin 40
  have : (((40 : ℕ) : ℚ) / ((100 : ℕ) : ℚ) * 100) = ((40 : ℤ) : ℚ) := by norm_num
  rw [this, roundAway_intCast]
  norm_num

/-- C1, counterexample: the record returned for `consumed = 29`, `max = 200` carries
`ConsumedPercent = 14`, while `29/200*100 = 14.5` rounds half away from zero to `15`. -/
theorem consumption_percent_half_rounds_down :
    (getConsumption (server (some (consumptionBody 29 171 200 "")) Time.zero Time.zero)
      ⟨"", 0, "", ""⟩).result = Except.ok ⟨some [record 29 171 200 Time.zero Time.zero]⟩ ∧
    (record 29 171 200 Time.zero Time.zero).ConsumedPercent = F64.fin 14 ∧
    roundAway ((29 : ℚ) / 200 * 100) = 15 := by
  refine ⟨server_getConsumption 29 171 200 (by norm_num) (by norm_num) (by norm_num) _ _ _ _,
    percent_29_200, ?_⟩
  rw [roundAway_of_nonneg (by norm_num), Int.floor_eq_iff]
  norm_num

/-- C8 (as amended). For every record returned by `getConsumption` with `max > 0`,
`consumed + left = max` and `max ≤ 2^44`, `ConsumedPercent + LeftPercent` is 100 or 101,
and it is 100 whenever `consumed/max*100` is not exactly halfway between two integers;
on a half both sums occur, and `consumed = 1`, `left = 199`, `max = 200` gives
`1 + 100 = 101`. -/
theorem consumption_percent_sum (w : World) (token : Token) (cs : List Consumption)
    (r : Consumption) (h : (getConsumption w token).result = Except.ok ⟨some cs⟩)
    (hr : r ∈ cs) (hmax : 0 < r.Max) (hsum : r.Consumed + r.Left = r.Max)
    (hmax' : r.Max ≤ 2 ^ 44) :
    (∃ a b : ℤ, r.ConsumedPercent = F64.fin a ∧ r.LeftPercent = F64.fin b ∧
      (a + b = 100 ∨ a + b = 101) ∧
      ((∀ k : ℤ, (200 * r.Consumed : ℤ) ≠ (2 * k + 1) * r.Max) → a + b = 100)) ∧
    (record 1 199 200 w.now Time.zero).ConsumedPercent = F64.fin 1 ∧
    (record 1 199 200 w.now Time.zero).LeftPercent = F64.fin 100 := by
  obtain ⟨e1, e2, -, b1, b2, b3⟩ := getConsumption_mem h hr
  have p1 := percent_eq hmax b1 b3
  have p2 := percent_eq hmax b2 b3
  obtain ⟨s1, s2⟩ := pctRaw_sum hmax hsum hmax'
  exact ⟨⟨_, _, e1.trans p1, e2.trans p2, s1, s2⟩, percent_1_200, percent_199_200⟩

/-- C8, instance: the record returned for `consumed = 1`, `left = 199`, `max = 200`. -/
theorem consumption_percent_sum_witness :
    (∃ a b : ℤ, (record 1 199 200 Time.zero Time.zero).ConsumedPercent = F64.fin a ∧
      (record 1 199 200 Time.zero Time.zero).LeftPercent = F64.fin b ∧
      (a + b = 100 ∨ a + b = 101)) ∧
    (record 1 199 200 Time.zero Time.zero).ConsumedPercent = F64.fin 1 ∧
    (record 1 199 200 Time.zero Time.zero).LeftPercent = F64.fin 100 := by
  obtain ⟨⟨a, b, ha, hb, hab, -⟩, h1, h2⟩ := consumption_percent_sum
    (server (some (consumptionBody 1 199 200 "")) Time.zero Time.zero) ⟨"", 0, "", ""⟩
    [record 1 199 200 Time.zero Time.zero] (record 1 199 200 Time.zero Time.zero)
    (server_getConsumption 1 199 200 (by norm_num) (by norm_num) (by norm_num) _ _ _ _)
    (List.mem_singleton.mpr rfl) (by decide) (by decide) (by decide)
  exact ⟨⟨a, b, ha, hb, hab⟩, h1, h2⟩

/-- C8, counterexample: for `consumed = 171`, `left = 29`, `max = 200` the quotient
`consumed/max*100` is `85.5`, exactly and as computed in binary64, so its fractional part
is one half; yet the record returned carries `86` and `14`, which add up to 100 and not
to 101. -/
theorem consumption_percent_sum_half_is_hundred :
    (getConsumption (server (some (consumptionBody 171 29 200 "")) Time.zero Time.zero)
      ⟨"", 0, "", ""⟩).result = Except.ok ⟨some [record 171 29 200 Time.zero Time.zero]⟩ ∧
    (record 171 29 200 Time.zero Time.zero).ConsumedPercent = F64.fin 86 ∧
    (record 171 29 200 Time.zero Time.zero).LeftPercent = F64.fin 14 ∧
    Int.fract ((171 : ℚ) / 200 * 100) = 1 / 2 ∧
    pctRaw 171 200 = 171 / 2 := by
  refine ⟨server_getConsumption 171 29 200 (by norm_num) (by norm_num) (by norm_num) _ _ _ _,
    percent_171_200, percent_29_200, ?_, ?_⟩
  · rw [Int.fract_eq_iff]
    exact ⟨by norm_num, by norm_num, 85, by norm_num⟩
  · rw [pctRaw_small (by norm_num) (by norm_num),
      show ((171 : ℕ) : ℚ) / ((200 : ℕ) : ℚ) = 171 / 200 by norm_num,
      fl_eq_of_cert (171 / 200) (-1) 7701155362803548 (by norm_num [abs_of_pos])
        (by norm_num [abs_of_pos]) (by norm_num) (by rw [abs_lt]; norm_num),
      fl_eq_of_cert _ 6 6016527627190272 (by norm_num [abs_of_pos])
        (by norm_num [abs_of_pos]) (by norm_num) (by rw [abs_lt]; norm_num)]
    norm_num

/-- C10 (as amended). For every record returned by `getConsumption` with `max > 0`,
`consumed ≤ max` and `left ≤ max`, both percentages are whole numbers from 0 to 100;
`ConsumedPercent` is 100 whenever `consumed = max`, and it is 0 whenever
`consumed*200 < max` and `max ≤ 2^53`. -/
theorem consumption_percent_range (w : World) (token : Token) (cs : List Consumption)
    (r : Consumption) (h : (getConsumption w token).result = Except.ok ⟨some cs⟩)
    (hr : r ∈ cs) (hmax : 0 < r.Max) (hc : r.Consumed ≤ r.Max) (hl : r.Left ≤ r.Max) :
    ∃ a b : ℤ, r.ConsumedPercent = F64.fin a ∧ r.LeftPercent = F64.fin b ∧
      0 ≤ a ∧ a ≤ 100 ∧ 0 ≤ b ∧ b ≤ 100 ∧
      (r.Consumed = r.Max → a = 100) ∧
      (r.Consumed * 200 < r.Max → r.Max ≤ 2 ^ 53 → a = 0) := by
  obtain ⟨e1, e2, -, b1, b2, b3⟩ := getConsumption_mem h hr
  have u1 := pctRaw_le_hundred hmax hc
  have u2 := pctRaw_le_hundred hmax hl
  have p1 := percent_eq hmax b1 b3
  have p2 := percent_eq hmax b2 b3
  have z : roundAway 0 = 0 := by simpa using roundAway_intCast 0
  have lo : ∀ c : ℕ, 0 ≤ roundAway (pctRaw c r.Max) := fun c => by
    have := roundAway_mono (pctRaw_nonneg c r.Max); rwa [z] at this
  have hi : ∀ c : ℕ, pctRaw c r.Max ≤ 100 → roundAway (pctRaw c r.Max) ≤ 100 := fun c hc => by
    have := roundAway_mono hc; rwa [roundAway_hundred] at this
  refine ⟨_, _, e1.trans p1, e2.trans p2, lo _, hi _ u1, lo _, hi _ u2, ?_, ?_⟩
  · intro heq; rw [heq, pctRaw_self hmax, roundAway_hundred]
  · intro hlt hm53
    have := pctRaw_lt_half hm53 hlt
    have h0 := pctRaw_nonneg r.Consumed r.Max
    apply roundAway_eq_of_lt <;> push_cast <;> linarith

/-- C10, instance: `consumed = 1`, `left = 999`, `max = 1000`. -/
theorem consumption_percent_range_witness :
    ∃ a b : ℤ, (record 1 999 1000 Time.zero Time.zero).ConsumedPercent = F64.fin a ∧
      (record 1 999 1000 Time.zero Time.zero).LeftPercent = F64.fin b ∧
      0 ≤ a ∧ a ≤ 100 ∧ 0 ≤ b ∧ b ≤ 100 ∧
      ((record 1 999 1000 Time.zero Time.zero).Consumed
        = (record 1 999 1000 Time.zero Time.zero).Max → a = 100) ∧
      ((record 1 999 1000 Time.zero Time.zero).Consumed * 200
        < (record 1 999 1000 Time.zero Time.zero).Max →
        (record 1 999 1000 Time.zero Time.zero).Max ≤ 2 ^ 53 → a = 0) :=
  consumption_percent_range
    (server (some (consumptionBody 1 999 1000 "")) Time.zero Time.zero) ⟨"", 0, "", ""⟩
    [record 1 999 1000 Time.zero Time.zero] (record 1 999 1000 Time.zero Time.zero)
    (server_getConsumption 1 999 1000 (by norm_num) (by norm_num) (by norm_num) _ _ _ _)
    (List.mem_singleton.mpr rfl) (by decide) (by decide) (by decide)

/-- C10, counterexample: for `consumed = 2^55` and `max = 200 * 2^55 + 1` the record
returned has `consumed*200 < max` and `consumed ≤ max`, yet `ConsumedPercent` is 1. -/
theorem consumption_percent_large_not_zero :
    (getConsumption (server (some (consumptionBody 36028797018963968 0 7205759403792793601 ""))
      Time.zero Time.zero) ⟨"", 0, "", ""⟩).result
      = Except.ok ⟨some [record 36028797018963968 0 7205759403792793601 Time.zero Time.zero]⟩ ∧
    (record 36028797018963968 0 7205759403792793601 Time.zero Time.zero).ConsumedPercent
      = F64.fin 1 ∧
    36028797018963968 * 200 < 7205759403792793601 :=
  ⟨server_getConsumption _ _ _ (by norm_num) (by norm_num) (by norm_num) _ _ _ _,
    percent_large_below_half, by norm_num⟩

/-! ## The day count of a returned record -/

/-- Evaluation of the value the day count rounds, from the binades and rounded significands
of its three roundings. -/
theorem days_cert (d hour nsec e1 n1 e2 n2 e3 n3 : ℤ)
    (hh : Int.tdiv d 3600000000000 = hour) (hn : Int.tmod d 3600000000000 = nsec)
    (h1 : 2 ^ e1 ≤ |(nsec : ℚ) / 3600000000000| ∧ |(nsec : ℚ) / 3600000000000| < 2 ^ (e1 + 1)
      ∧ -1022 ≤ e1 ∧ |(nsec : ℚ) / 3600000000000 / 2 ^ (e1 - 52) - n1| < 1 / 2)
    (h2 : 2 ^ e2 ≤ |(hour : ℚ) + n1 * 2 ^ (e1 - 52)| ∧ |(hour : ℚ) + n1 * 2 ^ (e1 - 52)| < 2 ^ (e2 + 1)
      ∧ -1022 ≤ e2 ∧ |((hour : ℚ) + n1 * 2 ^ (e1 - 52)) / 2 ^ (e2 - 52) - n2| < 1 / 2)
    (h3 : 2 ^ e3 ≤ |(n2 : ℚ) * 2 ^ (e2 - 52) / 24| ∧ |(n2 : ℚ) * 2 ^ (e2 - 52) / 24| < 2 ^ (e3 + 1)
      ∧ -1022 ≤ e3 ∧ |(n2 : ℚ) * 2 ^ (e2 - 52) / 24 / 2 ^ (e3 - 52) - n3| < 1 / 2) :
    daysRaw d = n3 * 2 ^ (e3 - 52) := by
  unfold daysRaw hoursRaw
  rw [hour_eq, hh, hn, fl_eq_of_cert _ e1 n1 h1.1 h1.2.1 h1.2.2.1 h1.2.2.2,
    fl_eq_of_cert _ e2 n2 h2.1 h2.2.1 h2.2.2.1 h2.2.2.2,
    fl_eq_of_cert _ e3 n3 h3.1 h3.2.1 h3.2.2.1 h3.2.2.2]

theorem daysRaw_sample_half : daysRaw 14817599999999999 = 343 / 2 := by
  rw [days_cert 14817599999999999 4115 3599999999999 (-1) 9007199254738490 12 4525589859926016
    7 6034119813234688 (by decide) (by decide)
    (by rw [abs_of_pos (by norm_num)]; norm_num [abs_lt])
    (by rw [abs_of_pos (by norm_num)]; norm_num [abs_lt])
    (by rw [abs_of_pos (by norm_num)]; norm_num [abs_lt])]
  norm_num

theorem daysRaw_sample_min :
    daysRaw (-9223372036854775808) = -7335940973542995 * 2 ^ (-36 : ℤ) := by
  rw [days_cert (-9223372036854775808) (-2562047) (-2836854775808) (-1) (-7097810061796178)
    21 (-5501955730157246) 16 (-7335940973542995) (by decide) (by decide)
    (by rw [abs_of_neg (by norm_num)]; norm_num [abs_lt])
    (by rw [abs_of_neg (by norm_num)]; norm_num [abs_lt])
    (by rw [abs_of_neg (by norm_num)]; norm_num [abs_lt])]
  norm_num

/-- C2 (as amended). For every record returned by `getConsumption`, with `Δ` the time from
now to the expiration in nanoseconds: `DaysLeft` is a whole number; it is negative when
the record expired more than 12 hours ago; it is 0 when the expiration is less than 12
hours away in either direction; and it equals `Δ / 24 h` rounded to the nearest integer,
halves away from zero, whenever `Δ` fits a 64-bit duration and is either an odd multiple
of 12 hours or at least 2515 ns away from every odd multiple of 12 hours. -/
theorem consumption_days_left (w : World) (token : Token) (cs : List Consumption)
    (r : Consumption) (h : (getConsumption w token).result = Except.ok ⟨some cs⟩)
    (hr : r ∈ cs) :
    ∃ n : ℤ, r.DaysLeft = F64.fin n ∧
      (r.ExpirationDate.ns - w.now.ns < -43200000000000 → n < 0) ∧
      (-43200000000000 < r.ExpirationDate.ns - w.now.ns →
        r.ExpirationDate.ns - w.now.ns < 43200000000000 → n = 0) ∧
      (-2 ^ 63 ≤ r.ExpirationDate.ns - w.now.ns → r.ExpirationDate.ns - w.now.ns ≤ 2 ^ 63 - 1 →
        ((∃ k : ℤ, r.ExpirationDate.ns - w.now.ns = (2 * k + 1) * 43200000000000) ∨
          ∀ k : ℤ, 2515 ≤ |r.ExpirationDate.ns - w.now.ns - (2 * k + 1) * 43200000000000|) →
        n = roundAway (((r.ExpirationDate.ns - w.now.ns : ℤ) : ℚ) / 86400000000000)) := by
  obtain ⟨-, -, e3, -, -, -⟩ := getConsumption_mem h hr
  obtain ⟨e4, -⟩ := daysLeft_eq r.ExpirationDate w.now
  refine ⟨_, e3.trans e4, ?_, ?_, ?_⟩
  · intro hlt
    have hd : r.ExpirationDate.Sub w.now < -(12 * 3600000000000) := by
      unfold Time.Sub minDuration maxDuration
      split_ifs <;> omega
    have := daysRaw_neg hd
    omega
  · intro h1 h2
    have hd : r.ExpirationDate.Sub w.now = r.ExpirationDate.ns - w.now.ns :=
      sub_exact (by unfold minDuration; omega) (by unfold maxDuration; omega)
    rw [hd]
    exact daysRaw_zero (by omega) (by omega)
  · intro h1 h2 hcase
    have hd : r.ExpirationDate.Sub w.now = r.ExpirationDate.ns - w.now.ns :=
      sub_exact (by unfold minDuration; omega) (by unfold maxDuration; omega)
    rw [hd]
    generalize r.ExpirationDate.ns - w.now.ns = d at h1 h2 hcase ⊢
    rcases hcase with ⟨k, hk⟩ | hfar
    · rw [daysRaw_half h1 h2 hk, hk]
      congr 1
      push_cast
      field_simp
      ring
    · apply roundAway_eq_of_close (2515 / 86400000000000)
      · intro k
        have hk := hfar k
        have hq : (2515 : ℚ) ≤ |(d : ℚ) - (2 * k + 1) * 43200000000000| := by
          have : ((2515 : ℤ) : ℚ) ≤ ((|d - (2 * k + 1) * 43200000000000| : ℤ) : ℚ) := by
            exact_mod_cast hk
          rw [Int.cast_abs] at this
          push_cast at this
          exact this
        have e : (d : ℚ) / 86400000000000 - (k + 1 / 2)
            = ((d : ℚ) - (2 * k + 1) * 43200000000000) / 86400000000000 := by
          field_simp; ring
        rw [e, abs_div, abs_of_pos (show (0 : ℚ) < 86400000000000 by norm_num)]
        exact div_le_div_of_nonneg_right hq (by norm_num)
      · refine lt_of_le_of_lt (daysRaw_close h1 h2) ?_
        norm_num

/-- C2, instance: an expiration one hour ahead gives `DaysLeft = 0`. -/
theorem consumption_days_left_witness :
    ∃ n : ℤ, (record 40 60 100 Time.zero ⟨3600000000000, 0⟩).DaysLeft = F64.fin n ∧ n = 0 := by
  obtain ⟨n, h1, -, h2, -⟩ := consumption_days_left
    (server (some (consumptionBody 40 60 100 "")) Time.zero ⟨3600000000000, 0⟩)
    ⟨"", 0, "", ""⟩
    [record 40 60 100 Time.zero ⟨3600000000000, 0⟩]
    (record 40 60 100 Time.zero ⟨3600000000000, 0⟩)
    (server_getConsumption 40 60 100 (by norm_num) (by norm_num) (by norm_num) _ _ _ _)
    (List.mem_singleton.mpr rfl)
  exact ⟨n, h1, h2 (by decide) (by decide)⟩

/-- C2, counterexamples. (1) With the expiration 171.5 days minus one nanosecond ahead, the
record returned carries `DaysLeft = 172`, while the exact quotient rounds to 171. (2) With
the zero time as expiration and the clock in November 2026, the difference is held at the
smallest duration and the record carries `DaysLeft = -106752`, while the exact quotient
rounds to `-739923`. -/
theorem consumption_days_left_off_by_one :
    ((getConsumption (server (some (consumptionBody 40 60 100 "")) Time.zero
        ⟨14817599999999999, 0⟩) ⟨"", 0, "", ""⟩).result
      = Except.ok ⟨some [record 40 60 100 Time.zero ⟨14817599999999999, 0⟩]⟩ ∧
    (record 40 60 100 Time.zero ⟨14817599999999999, 0⟩).DaysLeft = F64.fin 172 ∧
    roundAway ((14817599999999999 : ℚ) / 86400000000000) = 171) ∧
    ((getConsumption (server (some (consumptionBody 40 60 100 ""))
        ⟨63929347200000000000, 0⟩ Time.zero) ⟨"", 0, "", ""⟩).result
      = Except.ok ⟨some [record 40 60 100 ⟨63929347200000000000, 0⟩ Time.zero]⟩ ∧
    (record 40 60 100 ⟨63929347200000000000, 0⟩ Time.zero).DaysLeft = F64.fin (-106752) ∧
    roundAway ((0 - 63929347200000000000 : ℚ) / 86400000000000) = -739923) := by
  refine ⟨⟨server_getConsumption 40 60 100 (by norm_num) (by norm_num) (by norm_num) _ _ _ _,
    ?_, ?_⟩, server_getConsumption 40 60 100 (by norm_num) (by norm_num) (by norm_num) _ _ _ _,
    ?_, ?_⟩
  · show daysLeft ⟨14817599999999999, 0⟩ Time.zero = F64.fin 172
    rw [(daysLeft_eq _ _).1]
    have hd : Time.Sub ⟨14817599999999999, 0⟩ Time.zero = 14817599999999999 := by decide
    rw [hd, daysRaw_sample_half]
    congr 1
    have : roundAway (343 / 2) = 172 := by
      rw [roundAway_of_nonneg (by norm_num), Int.floor_eq_iff]; norm_num
    rw [this]; norm_num
  · apply roundAway_eq_of_lt <;> norm_num
  · show daysLeft Time.zero ⟨63929347200000000000, 0⟩ = F64.fin (-106752)
    rw [(daysLeft_eq _ _).1]
    have hd : Time.Sub Time.zero ⟨63929347200000000000, 0⟩ = -9223372036854775808 := by decide
    rw [hd, daysRaw_sample_min]
    congr 1
    have : roundAway (-7335940973542995 * 2 ^ (-36 : ℤ)) = -106752 := by
      apply roundAway_eq_of_lt <;> norm_num
    rw [this]; norm_num
  · apply roundAway_eq_of_lt <;> norm_num

/-! ## The pipeline -/

theorem getConfiguration_eq (w : World) :
    getConfiguration w = ⟨[Event.readInConfig],
      match w.readInConfig "config" "json" ["$HOME/.config/lidl-connect"] with
      | Except.error err => Except.error err
      | Except.ok settings => Except.ok
          { Grant_type := (settings.lookup "grant_type").getD "password"
            Client_id := (settings.lookup "client_id").getD "lidl"
            Client_secret := (settings.lookup "client_secret").getD "lidl"
            Username := (settings.lookup "username").getD ""
            Password := (settings.lookup "password").getD "" }⟩ := by
  unfold getConfiguration
  simp only [Viper.ReadInConfig, Viper.new, Viper.SetDefault, Viper.SetConfigName,
    Viper.SetConfigType, Viper.AddConfigPath, List.filter_nil, List.nil_append]
  cases w.readInConfig "config" "json" ["$HOME/.config/lidl-connect"] with
  | error err => rfl
  | ok settings =>
    simp only [Viper.GetString]
    congr 2
    cases h1 : settings.lookup "grant_type" <;> cases h2 : settings.lookup "client_id" <;>
      cases h3 : settings.lookup "client_secret" <;> cases h4 : settings.lookup "username" <;>
      cases h5 : settings.lookup "password" <;> simp [List.lookup, List.filter]

theorem getToken_eq (w : World) (config : Configuration) :
    getToken w config = ⟨[Event.send (tokenRequest config)],
      match w.Do (tokenRequest config) with
      | Except.error err => Except.error err
      | Except.ok body => Except.ok (unmarshalToken body)⟩ := by
  unfold getToken
  cases w.Do (tokenRequest config) <;> rfl

theorem getBalance_eq (w : World) (token : Token) :
    getBalance w token = ⟨[Event.send (balanceRequest token)],
      match w.Do (balanceRequest token) with
      | Except.error err => Except.error err
      | Except.ok body => Except.ok (unmarshalBalance body)⟩ := by
  unfold getBalance
  cases w.Do (balanceRequest token) <;> rfl

theorem getTariff_eq (w : World) (token : Token) :
    getTariff w token = ⟨[Event.send (tariffRequest token)],
      match w.Do (tariffRequest token) with
      | Except.error err => Except.error err
      | Except.ok body => Except.ok (unmarshalTariff w.parseTime body)⟩ := by
  unfold getTariff
  cases w.Do (tariffRequest token) <;> rfl

theorem getConsumption_ok {w : World} {token : Token} {data : Consumptions}
    (h : (getConsumption w token).result = Except.ok data) :
    (getConsumption w token).events = [Event.send (consumptionRequest token), Event.now] := by
  unfold getConsumption at h ⊢
  cases hd : w.Do (consumptionRequest token) with
  | error err => rw [hd] at h; simp at h
  | ok body => rfl

theorem getConsumption_error {w : World} {token : Token} {err : String}
    (h : (getConsumption w token).result = Except.error err) :
    (getConsumption w token).events = [Event.send (consumptionRequest token)] ∧
    w.Do (consumptionRequest token) = Except.error err := by
  unfold getConsumption at h ⊢
  cases hd : w.Do (consumptionRequest token) with
  | error e => rw [hd] at h; simp at h; subst h; exact ⟨rfl, rfl⟩
  | ok body => rw [hd] at h; simp at h

theorem getConsumption_of_do {w : World} {token : Token} {body : Option JSON}
    (h : w.Do (consumptionRequest token) = Except.ok body) :
    (getConsumption w token).result = Except.ok
      ⟨(unmarshalConsumptions w.parseTime body).Consumptions.map
        (List.map (fillConsumption w.now))⟩ := by
  unfold getConsumption
  rw [h]

theorem emit_eq (w : World) (output : Output) :
    emit w output = ⟨[Event.printf (Marshal w.formatTime output).toOption], Except.ok ()⟩ := by
  unfold emit
  cases Marshal w.formatTime output <;> rfl

/-- The run of `main` when no stage panics. -/
theorem main_ok {w : World} {config : Configuration} {token : Token} {data : Consumptions}
    {balance : Balance} {tariff : Tariff}
    (h1 : (getConfiguration w).result = Except.ok config)
    (h2 : (getToken w config).result = Except.ok token)
    (h3 : (getConsumption w token).result = Except.ok data)
    (h4 : (getBalance w token).result = Except.ok balance)
    (h5 : (getTariff w token).result = Except.ok tariff) :
    (main w).result = Except.ok () ∧
    (main w).events = [Event.readInConfig, Event.send (tokenRequest config),
      Event.send (consumptionRequest token), Event.now, Event.send (balanceRequest token),
      Event.send (tariffRequest token),
      Event.printf (Marshal w.formatTime ⟨data.Consumptions, balance.Balance, tariff⟩).toOption]
    := by
  have e1 : (getConfiguration w).events = [Event.readInConfig] := by rw [getConfiguration_eq]
  have e2 : (getToken w config).events = [Event.send (tokenRequest config)] := by
    rw [getToken_eq]
  have e3 := getConsumption_ok h3
  have e4 : (getBalance w token).events = [Event.send (balanceRequest token)] := by
    rw [getBalance_eq]
  have e5 : (getTariff w token).events = [Event.send (tariffRequest token)] := by
    rw [getTariff_eq]
  unfold main
  simp only [Step.andThen, h1, h2, h3, h4, h5, e1, e2, e3, e4, e5, emit_eq]
  exact ⟨trivial, rfl⟩

/-! ## A maximum of zero -/

/-- With a maximum of zero the percentage is not a number for a zero numerator and plus
infinity otherwise. -/
theorem percent_zero_max {c : ℕ} (hc : c < 2 ^ 64) :
    percent c 0 = if c = 0 then F64.nan else F64.inf false := by
  have e0 : F64.ofNat 0 = F64.fin 0 := by
    have := ofNat_eq (n := 0) (by norm_num)
    rw [this, Nat.cast_zero, fl_zero]
  have e100 : F64.ofRat 100 = F64.fin 100 := by
    rw [ofRat_of_le, fl_hundred]
    rw [abs_of_nonneg (by norm_num)]
    calc (100 : ℚ) ≤ 2 ^ (7 : ℤ) := by norm_num
      _ ≤ 2 ^ (1023 : ℤ) := zpow_le_zpow_right₀ (by norm_num) (by norm_num)
  have e1 : F64.ofRat (10 ^ 0) = F64.fin 1 := by
    rw [pow_zero, ofRat_of_le (by rw [abs_one]; exact one_le_zpow₀ (by norm_num) (by norm_num)),
      fl_one]
  unfold percent round
  rw [ofNat_eq hc, e0, e100, e1]
  by_cases h : c = 0
  · subst h
    simp [F64.div, F64.mul, F64.Round, fl_zero]
  · have hpos : 0 < c := Nat.pos_of_ne_zero h
    have h1 := one_le_fl_natCast hpos
    have hne : fl (c : ℚ) ≠ 0 := by linarith
    have hnn : ¬ fl (c : ℚ) < 0 := by linarith
    simp [F64.div, F64.mul, F64.Round, hne, hnn, h]

theorem toJSON_error_of_not_finite {x : F64} (h : x.isFinite = false) :
    ∃ err, x.toJSON = Except.error err := by
  cases x with
  | nan => exact ⟨_, rfl⟩
  | inf s => exact ⟨_, rfl⟩
  | fin q => simp [F64.isFinite] at h

theorem consumption_toJSON_error {f : Time → String} {c : Consumption}
    (h : c.ConsumedPercent.isFinite = false) : ∃ err, c.toJSON f = Except.error err := by
  obtain ⟨e, he⟩ := toJSON_error_of_not_finite h
  unfold Consumption.toJSON
  rw [he]
  cases c.LeftPercent.toJSON <;> cases c.DaysLeft.toJSON <;> exact ⟨_, rfl⟩

theorem marshalList_error {f : Time → String} {cs : List Consumption} {r : Consumption}
    (hr : r ∈ cs) (h : r.ConsumedPercent.isFinite = false) :
    ∃ err, marshalList f cs = Except.error err := by
  induction cs with
  | nil => simp at hr
  | cons c cs ih =>
    unfold marshalList
    rcases List.mem_cons.mp hr with rfl | hmem
    · obtain ⟨e, he⟩ := consumption_toJSON_error (f := f) h
      rw [he]; exact ⟨_, rfl⟩
    · obtain ⟨e, he⟩ := ih hmem
      rw [he]
      cases c.toJSON f <;> exact ⟨_, rfl⟩

theorem marshalList_ok {f : Time → String} {cs : List Consumption}
    (h : ∀ r ∈ cs, r.ConsumedPercent.isFinite = true ∧ r.LeftPercent.isFinite = true ∧
      r.DaysLeft.isFinite = true) : ∃ js, marshalList f cs = Except.ok js := by
  induction cs with
  | nil => exact ⟨_, rfl⟩
  | cons c cs ih =>
    obtain ⟨js, hjs⟩ := ih (fun r hr => h r (List.mem_cons_of_mem _ hr))
    obtain ⟨h1, h2, h3⟩ := h c (List.mem_cons_self _ _)
    unfold marshalList
    rw [hjs]
    unfold Consumption.toJSON
    cases hc : c.ConsumedPercent <;> rw [hc] at h1 <;> simp [F64.isFinite] at h1
    cases hl : c.LeftPercent <;> rw [hl] at h2 <;> simp [F64.isFinite] at h2
    cases hd : c.DaysLeft <;> rw [hd] at h3 <;> simp [F64.isFinite] at h3
    exact ⟨_, rfl⟩

theorem outputs_main_ok {w : World} {config : Configuration} {token : Token}
    {data : Consumptions} {balance : Balance} {tariff : Tariff}
    (h1 : (getConfiguration w).result = Except.ok config)
    (h2 : (getToken w config).result = Except.ok token)
    (h3 : (getConsumption w token).result = Except.ok data)
    (h4 : (getBalance w token).result = Except.ok balance)
    (h5 : (getTariff w token).result = Except.ok tariff) :
    outputs (main w).events
      = [(Marshal w.formatTime ⟨data.Consumptions, balance.Balance, tariff⟩).toOption] ∧
    sends (main w).events = [tokenRequest config, consumptionRequest token,
      balanceRequest token, tariffRequest token] := by
  rw [(main_ok h1 h2 h3 h4 h5).2]
  exact ⟨rfl, rfl⟩

/-- A record with maximum zero makes the encoding fail, and the line printed is empty. -/
theorem zero_max_run (w : World) (config : Configuration) (token : Token)
    (cs : List Consumption) (balance : Balance) (tariff : Tariff) (r : Consumption)
    (h1 : (getConfiguration w).result = Except.ok config)
    (h2 : (getToken w config).result = Except.ok token)
    (h3 : (getConsumption w token).result = Except.ok ⟨some cs⟩)
    (h4 : (getBalance w token).result = Except.ok balance)
    (h5 : (getTariff w token).result = Except.ok tariff)
    (hr : r ∈ cs) (hmax : r.Max = 0) :
    r.ConsumedPercent = (if r.Consumed = 0 then F64.nan else F64.inf false) ∧
    r.LeftPercent = (if r.Left = 0 then F64.nan else F64.inf false) ∧
    (∃ err, Marshal w.formatTime ⟨some cs, balance.Balance, tariff⟩ = Except.error err) ∧
    (main w).result = Except.ok () ∧ outputs (main w).events = [none] := by
  obtain ⟨e1, e2, -, b1, b2, -⟩ := getConsumption_mem h3 hr
  rw [hmax] at e1 e2
  rw [percent_zero_max b1] at e1
  rw [percent_zero_max b2] at e2
  have hbad : r.ConsumedPercent.isFinite = false := by
    rw [e1]; split_ifs <;> rfl
  obtain ⟨err, herr⟩ := marshalList_error (f := w.formatTime) hr hbad
  have hM : Marshal w.formatTime ⟨some cs, balance.Balance, tariff⟩ = Except.error err := by
    unfold Marshal
    simp only [herr]
  refine ⟨e1, e2, ⟨err, hM⟩, (main_ok h1 h2 h3 h4 h5).1, ?_⟩
  rw [(outputs_main_ok h1 h2 h3 h4 h5).1]
  simp only [hM]
  rfl

/-- C9. For a record returned by `getConsumption` with `max = 0`, `ConsumedPercent` and
`LeftPercent` are not finite (not-a-number when the numerator is 0, plus infinity
otherwise), `json.Marshal` of the output fails, and the run of `main`, which drops that
error, ends normally having printed one empty line. -/
theorem zero_max_prints_empty_line (w : World) (config : Configuration) (token : Token)
    (cs : List Consumption) (balance : Balance) (tariff : Tariff) (r : Consumption)
    (h1 : (getConfiguration w).result = Except.ok config)
    (h2 : (getToken w config).result = Except.ok token)
    (h3 : (getConsumption w token).result = Except.ok ⟨some cs⟩)
    (h4 : (getBalance w token).result = Except.ok balance)
    (h5 : (getTariff w token).result = Except.ok tariff)
    (hr : r ∈ cs) (hmax : r.Max = 0) :
    r.ConsumedPercent = (if r.Consumed = 0 then F64.nan else F64.inf false) ∧
    r.LeftPercent = (if r.Left = 0 then F64.nan else F64.inf false) ∧
    (∃ err, Marshal w.formatTime ⟨some cs, balance.Balance, tariff⟩ = Except.error err) ∧
    (main w).result = Except.ok () ∧ outputs (main w).events = [none] :=
  zero_max_run w config token cs balance tariff r h1 h2 h3 h4 h5 hr hmax

/-- C9, instance: one element with `consumed = 5`, `left = 0`, `max = 0`. -/
theorem zero_max_prints_empty_line_witness :
    (record 5 0 0 Time.zero Time.zero).ConsumedPercent = F64.inf false ∧
    (record 5 0 0 Time.zero Time.zero).LeftPercent = F64.nan ∧
    (main (server (some (consumptionBody 5 0 0 "")) Time.zero Time.zero)).result
      = Except.ok () ∧
    outputs (main (server (some (consumptionBody 5 0 0 "")) Time.zero Time.zero)).events
      = [none] := by
  obtain ⟨a, b, -, c, d⟩ := zero_max_prints_empty_line
    (server (some (consumptionBody 5 0 0 "")) Time.zero Time.zero)
    ⟨"password", "lidl", "lidl", "", ""⟩ ⟨"", 0, "", ""⟩
    [record 5 0 0 Time.zero Time.zero] ⟨0⟩ ⟨"", 0, Time.zero⟩
    (record 5 0 0 Time.zero Time.zero) rfl rfl
    (server_getConsumption 5 0 0 (by norm_num) (by norm_num) (by norm_num) _ _ _ _)
    rfl rfl (List.mem_singleton.mpr rfl) rfl
  exact ⟨a, b, c, d⟩

/-! ## The output of a normal run -/

theorem getConsumption_finite {w : World} {token : Token} {cs : List Consumption}
    {r : Consumption} (h : (getConsumption w token).result = Except.ok ⟨some cs⟩)
    (hr : r ∈ cs) (hmax : r.Max ≠ 0) :
    r.ConsumedPercent.isFinite = true ∧ r.LeftPercent.isFinite = true ∧
    r.DaysLeft.isFinite = true := by
  obtain ⟨e1, e2, e3, b1, b2, b3⟩ := getConsumption_mem h hr
  have hpos : 0 < r.Max := Nat.pos_of_ne_zero hmax
  rw [e1, e2, e3, percent_eq hpos b1 b3, percent_eq hpos b2 b3, (daysLeft_eq _ _).1]
  exact ⟨rfl, rfl, rfl⟩

/-- C7 (as amended). When no stage panics, `main` loads the configuration, obtains one
token from it, sends the consumption, balance and tariff requests in that order, all built
from that token, and prints exactly one line; when no record returned has `max = 0`, that
line is one JSON object whose members `Consumptions`, `Balance` and `Tariff` are the
encodings of the list, the balance and the tariff that the fetches returned. -/
theorem main_pipeline (w : World) (config : Configuration) (token : Token)
    (data : Consumptions) (balance : Balance) (tariff : Tariff)
    (h1 : (getConfiguration w).result = Except.ok config)
    (h2 : (getToken w config).result = Except.ok token)
    (h3 : (getConsumption w token).result = Except.ok data)
    (h4 : (getBalance w token).result = Except.ok balance)
    (h5 : (getTariff w token).result = Except.ok tariff) :
    (main w).result = Except.ok () ∧
    (main w).events = [Event.readInConfig, Event.send (tokenRequest config),
      Event.send (consumptionRequest token), Event.now, Event.send (balanceRequest token),
      Event.send (tariffRequest token),
      Event.printf (Marshal w.formatTime ⟨data.Consumptions, balance.Balance, tariff⟩).toOption]
    ∧
    ((∀ cs, data.Consumptions = some cs → ∀ r ∈ cs, r.Max ≠ 0) →
      ∃ c, Marshal w.formatTime ⟨data.Consumptions, balance.Balance, tariff⟩
          = Except.ok (JSON.obj [("Consumptions", c), ("Balance", JSON.num balance.Balance),
            ("Tariff", tariff.toJSON w.formatTime)]) ∧
        ((data.Consumptions = none ∧ c = JSON.null) ∨
          ∃ cs js, data.Consumptions = some cs ∧ marshalList w.formatTime cs = Except.ok js ∧
            c = JSON.arr js)) := by
  refine ⟨(main_ok h1 h2 h3 h4 h5).1, (main_ok h1 h2 h3 h4 h5).2, ?_⟩
  intro hfin
  obtain ⟨cons⟩ := data
  cases cons with
  | none => exact ⟨JSON.null, rfl, Or.inl ⟨rfl, rfl⟩⟩
  | some cs =>
    obtain ⟨js, hjs⟩ := marshalList_ok (f := w.formatTime)
      (fun r hr => getConsumption_finite h3 hr (hfin cs rfl r hr))
    refine ⟨JSON.arr js, ?_, Or.inr ⟨cs, js, rfl, hjs, rfl⟩⟩
    unfold Marshal
    simp only [hjs]

/-- C7, instance: one element with `consumed = 40`, `left = 60`, `max = 100`. -/
theorem main_pipeline_witness :
    (main (server (some (consumptionBody 40 60 100 "")) Time.zero Time.zero)).result
      = Except.ok () ∧
    sends (main (server (some (consumptionBody 40 60 100 "")) Time.zero Time.zero)).events
      = [tokenRequest ⟨"password", "lidl", "lidl", "", ""⟩, consumptionRequest ⟨"", 0, "", ""⟩,
        balanceRequest ⟨"", 0, "", ""⟩, tariffRequest ⟨"", 0, "", ""⟩] ∧
    ∃ c, outputs (main (server (some (consumptionBody 40 60 100 "")) Time.zero
        Time.zero)).events
      = [some (JSON.obj [("Consumptions", c), ("Balance", JSON.num 0),
          ("Tariff", JSON.obj [("Name", JSON.str ""), ("Fee", JSON.num 0),
            ("RenewDate", JSON.str "")])])] := by
  obtain ⟨a, b, c⟩ := main_pipeline
    (server (some (consumptionBody 40 60 100 "")) Time.zero Time.zero)
    ⟨"password", "lidl", "lidl", "", ""⟩ ⟨"", 0, "", ""⟩
    ⟨some [record 40 60 100 Time.zero Time.zero]⟩ ⟨0⟩ ⟨"", 0, Time.zero⟩ rfl rfl
    (server_getConsumption 40 60 100 (by norm_num) (by norm_num) (by norm_num) _ _ _ _)
    rfl rfl
  obtain ⟨doc, hdoc, -⟩ := c (by
    intro cs hcs r hr
    simp only [Option.some.injEq] at hcs
    subst hcs
    rw [List.mem_singleton.mp hr]
    show (100 : ℕ) ≠ 0
    norm_num)
  refine ⟨a, by rw [b]; rfl, doc, ?_⟩
  rw [b]
  show [(Marshal _ _).toOption] = _
  rw [hdoc]
  rfl

/-- C7, counterexample: with one element of `max = 0` no stage panics, yet what `main`
prints is one empty line and no JSON object. -/
theorem main_prints_no_object :
    (main (server (some (consumptionBody 5 0 0 "")) Time.zero Time.zero)).result
      = Except.ok () ∧
    outputs (main (server (some (consumptionBody 5 0 0 "")) Time.zero Time.zero)).events
      = [none] := by
  have h := zero_max_run
    (server (some (consumptionBody 5 0 0 "")) Time.zero Time.zero)
    ⟨"password", "lidl", "lidl", "", ""⟩ ⟨"", 0, "", ""⟩
    [record 5 0 0 Time.zero Time.zero] ⟨0⟩ ⟨"", 0, Time.zero⟩
    (record 5 0 0 Time.zero Time.zero) rfl rfl
    (server_getConsumption 5 0 0 (by norm_num) (by norm_num) (by norm_num) _ _ _ _)
    rfl rfl (List.mem_singleton.mpr rfl) rfl
  exact ⟨h.2.2.2.1, h.2.2.2.2⟩

/-! ## Failures -/

/-- The run of `main` by cases on what the environment answers. -/
theorem main_cases (w : World) :
    (∃ err, w.readInConfig "config" "json" ["$HOME/.config/lidl-connect"] = Except.error err ∧
      (main w).result = Except.error err ∧ sends (main w).events = [] ∧
      outputs (main w).events = []) ∨
    (∃ config, (getConfiguration w).result = Except.ok config ∧
      ((∃ err, w.Do (tokenRequest config) = Except.error err ∧
        (main w).result = Except.error err ∧ sends (main w).events = [tokenRequest config] ∧
        outputs (main w).events = []) ∨
      (∃ b1, w.Do (tokenRequest config) = Except.ok b1 ∧
        ((∃ err, w.Do (consumptionRequest (unmarshalToken b1)) = Except.error err ∧
          (main w).result = Except.error err ∧
          sends (main w).events = [tokenRequest config, consumptionRequest (unmarshalToken b1)] ∧
          outputs (main w).events = []) ∨
        (∃ b2, w.Do (consumptionRequest (unmarshalToken b1)) = Except.ok b2 ∧
          ((∃ err, w.Do (balanceRequest (unmarshalToken b1)) = Except.error err ∧
            (main w).result = Except.error err ∧
            sends (main w).events = [tokenRequest config,
              consumptionRequest (unmarshalToken b1), balanceRequest (unmarshalToken b1)] ∧
            outputs (main w).events = []) ∨
          (∃ b3, w.Do (balanceRequest (unmarshalToken b1)) = Except.ok b3 ∧
            ((∃ err, w.Do (tariffRequest (unmarshalToken b1)) = Except.error err ∧
              (main w).result = Except.error err ∧
              sends (main w).events = [tokenRequest config,
                consumptionRequest (unmarshalToken b1), balanceRequest (unmarshalToken b1),
                tariffRequest (unmarshalToken b1)] ∧
              outputs (main w).events = []) ∨
            (∃ b4 doc, w.Do (tariffRequest (unmarshalToken b1)) = Except.ok b4 ∧
              (main w).result = Except.ok () ∧
              sends (main w).events = [tokenRequest config,
                consumptionRequest (unmarshalToken b1), balanceRequest (unmarshalToken b1),
                tariffRequest (unmarshalToken b1)] ∧
              outputs (main w).events = [doc]))))))))) := by
  cases hc : w.readInConfig "config" "json" ["$HOME/.config/lidl-connect"] with
  | error err =>
    left
    refine ⟨err, rfl, ?_⟩
    simp only [main, Step.andThen, getConfiguration_eq, hc]
    refine ⟨?_, ?_, ?_⟩ <;> first | rfl | trivial
  | ok settings =>
    right
    obtain ⟨config, h1⟩ : ∃ config, (getConfiguration w).result = Except.ok config := by
      rw [getConfiguration_eq, hc]; exact ⟨_, rfl⟩
    have e1 : (getConfiguration w).events = [Event.readInConfig] := by rw [getConfiguration_eq]
    refine ⟨config, h1, ?_⟩
    cases hd1 : w.Do (tokenRequest config) with
    | error err =>
      left
      refine ⟨err, rfl, ?_⟩
      simp only [main, Step.andThen, h1, e1, getToken_eq, hd1]
      refine ⟨?_, ?_, ?_⟩ <;> first | rfl | trivial
    | ok b1 =>
      right
      refine ⟨b1, rfl, ?_⟩
      have h2 : (getToken w config).result = Except.ok (unmarshalToken b1) := by
        rw [getToken_eq, hd1]
      have e2 : (getToken w config).events = [Event.send (tokenRequest config)] := by
        rw [getToken_eq]
      generalize unmarshalToken b1 = token at h2 ⊢
      cases hd2 : w.Do (consumptionRequest token) with
      | error err =>
        left
        have h3 : (getConsumption w token).result = Except.error err := by
          unfold getConsumption; rw [hd2]
        have e3 := (getConsumption_error h3).1
        refine ⟨err, rfl, ?_⟩
        simp only [main, Step.andThen, h1, e1, h2, e2, h3, e3]
        refine ⟨?_, ?_, ?_⟩ <;> first | rfl | trivial
      | ok b2 =>
        right
        refine ⟨b2, rfl, ?_⟩
        have h3 := getConsumption_of_do hd2
        have e3 := getConsumption_ok h3
        cases hd3 : w.Do (balanceRequest token) with
        | error err =>
          left
          refine ⟨err, rfl, ?_⟩
          simp only [main, Step.andThen, h1, e1, h2, e2, h3, e3, getBalance_eq, hd3]
          refine ⟨?_, ?_, ?_⟩ <;> first | rfl | trivial
        | ok b3 =>
          right
          refine ⟨b3, rfl, ?_⟩
          cases hd4 : w.Do (tariffRequest token) with
          | error err =>
            left
            refine ⟨err, rfl, ?_⟩
            simp only [main, Step.andThen, h1, e1, h2, e2, h3, e3, getBalance_eq, hd3,
              getTariff_eq, hd4]
            refine ⟨?_, ?_, ?_⟩ <;> first | rfl | trivial
          | ok b4 =>
            right
            refine ⟨b4, (Marshal w.formatTime
              ⟨Option.map (List.map (fillConsumption w.now))
                (unmarshalConsumptions w.parseTime b2).Consumptions,
                (unmarshalBalance b3).Balance, unmarshalTariff w.parseTime b4⟩).toOption,
              rfl, ?_⟩
            simp only [main, Step.andThen, h1, e1, h2, e2, h3, e3, getBalance_eq, hd3,
              getTariff_eq, hd4, emit_eq]
            refine ⟨?_, ?_, ?_⟩ <;> first | rfl | trivial

theorem getConfiguration_error {w : World} {err : String}
    (h : w.readInConfig "config" "json" ["$HOME/.config/lidl-connect"] = Except.error err) :
    (getConfiguration w).result = Except.error err := by
  rw [getConfiguration_eq, h]

/-- C3 (as amended). A run of `main` that aborts has printed nothing; `main` aborts whenever
loading the configuration fails and whenever a request it sends fails in transport; and
when the configuration loads and every request is answered, `main` ends normally having
printed exactly one line, whatever the response bodies are: a body that does not decode as
JSON stops nothing. -/
theorem abort_prints_nothing (w : World) :
    (∀ err, (main w).result = Except.error err → outputs (main w).events = []) ∧
    (∀ err, w.readInConfig "config" "json" ["$HOME/.config/lidl-connect"] = Except.error err →
      (main w).result = Except.error err) ∧
    (∀ r ∈ sends (main w).events, ∀ err, w.Do r = Except.error err →
      (main w).result = Except.error err) ∧
    ((∃ settings,
        w.readInConfig "config" "json" ["$HOME/.config/lidl-connect"] = Except.ok settings) →
      (∀ r, ∃ body, w.Do r = Except.ok body) →
      (main w).result = Except.ok () ∧ ∃ doc, outputs (main w).events = [doc]) := by
  rcases main_cases w with ⟨e, hc, hr, hs, ho⟩ | ⟨config, h1, hrest⟩
  · refine ⟨fun _ _ => ho, ?_, ?_, ?_⟩
    · intro err herr
      rw [hc] at herr
      cases herr
      exact hr
    · intro r hmem
      rw [hs] at hmem
      simp at hmem
    · rintro ⟨settings, hset⟩
      rw [hc] at hset
      cases hset
  · have hcfg : ∀ err,
        w.readInConfig "config" "json" ["$HOME/.config/lidl-connect"] = Except.error err →
        (main w).result = Except.error err := by
      intro err herr
      have := getConfiguration_error herr
      rw [h1] at this
      cases this
    rcases hrest with ⟨e, hd1, hr, hs, ho⟩ | ⟨b1, hd1, hrest⟩
    · refine ⟨fun _ _ => ho, hcfg, ?_, ?_⟩
      · intro r hmem err herr
        rw [hs] at hmem
        simp only [List.mem_singleton] at hmem
        subst hmem
        rw [hd1] at herr
        cases herr
        exact hr
      · intro _ hall
        obtain ⟨body, hb⟩ := hall (tokenRequest config)
        rw [hd1] at hb
        cases hb
    rcases hrest with ⟨e, hd2, hr, hs, ho⟩ | ⟨b2, hd2, hrest⟩
    · refine ⟨fun _ _ => ho, hcfg, ?_, ?_⟩
      · intro r hmem err herr
        rw [hs] at hmem
        simp only [List.mem_cons, List.mem_singleton, List.not_mem_nil, or_false] at hmem
        rcases hmem with rfl | rfl
        · rw [hd1] at herr; cases herr
        · rw [hd2] at herr; cases herr; exact hr
      · intro _ hall
        obtain ⟨body, hb⟩ := hall (consumptionRequest (unmarshalToken b1))
        rw [hd2] at hb
        cases hb
    rcases hrest with ⟨e, hd3, hr, hs, ho⟩ | ⟨b3, hd3, hrest⟩
    · refine ⟨fun _ _ => ho, hcfg, ?_, ?_⟩
      · intro r hmem err herr
        rw [hs] at hmem
        simp only [List.mem_cons, List.mem_singleton, List.not_mem_nil, or_false] at hmem
        rcases hmem with rfl | rfl | rfl
        · rw [hd1] at herr; cases herr
        · rw [hd2] at herr; cases herr
        · rw [hd3] at herr; cases herr; exact hr
      · intro _ hall
        obtain ⟨body, hb⟩ := hall (balanceRequest (unmarshalToken b1))
        rw [hd3] at hb
        cases hb
    rcases hrest with ⟨e, hd4, hr, hs, ho⟩ | ⟨b4, doc, hd4, hr, hs, ho⟩
    · refine ⟨fun _ _ => ho, hcfg, ?_, ?_⟩
      · intro r hmem err herr
        rw [hs] at hmem
        simp only [List.mem_cons, List.mem_singleton, List.not_mem_nil, or_false] at hmem
        rcases hmem with rfl | rfl | rfl | rfl
        · rw [hd1] at herr; cases herr
        · rw [hd2] at herr; cases herr
        · rw [hd3] at herr; cases herr
        · rw [hd4] at herr; cases herr; exact hr
      · intro _ hall
        obtain ⟨body, hb⟩ := hall (tariffRequest (unmarshalToken b1))
        rw [hd4] at hb
        cases hb
    · refine ⟨?_, hcfg, ?_, fun _ _ => ⟨hr, doc, ho⟩⟩
      · intro err herr
        rw [hr] at herr
        cases herr
      · intro r hmem err herr
        rw [hs] at hmem
        simp only [List.mem_cons, List.mem_singleton, List.not_mem_nil, or_false] at hmem
        rcases hmem with rfl | rfl | rfl | rfl
        · rw [hd1] at herr; cases herr
        · rw [hd2] at herr; cases herr
        · rw [hd3] at herr; cases herr
        · rw [hd4] at herr; cases herr

/-- C3, instance: a server that answers no request with a JSON text. -/
theorem abort_prints_nothing_witness :
    (main (server none Time.zero Time.zero)).result = Except.ok () ∧
    ∃ doc, outputs (main (server none Time.zero Time.zero)).events = [doc] :=
  (abort_prints_nothing (server none Time.zero Time.zero)).2.2.2 ⟨[], rfl⟩
    (fun _ => ⟨none, rfl⟩)

/-- C3, counterexample: every response body fails to decode as JSON (in `getToken`,
`getConsumption`, `getBalance` and `getTariff`), yet `main` does not abort and prints a
document built from zero values. -/
theorem undecodable_bodies_still_print :
    (∀ r, (server none Time.zero Time.zero).Do r = Except.ok none) ∧
    (main (server none Time.zero Time.zero)).result = Except.ok () ∧
    outputs (main (server none Time.zero Time.zero)).events
      = [some (JSON.obj [("Consumptions", JSON.null), ("Balance", JSON.num 0),
          ("Tariff", JSON.obj [("Name", JSON.str ""), ("Fee", JSON.num 0),
            ("RenewDate", JSON.str "")])])] := by
  refine ⟨fun _ => rfl, rfl, ?_⟩
  have h := (@outputs_main_ok (server none Time.zero Time.zero)
    ⟨"password", "lidl", "lidl", "", ""⟩ ⟨"", 0, "", ""⟩ ⟨none⟩ ⟨0⟩ ⟨"", 0, Time.zero⟩
    rfl rfl rfl rfl rfl).1
  rw [h]
  simp [Marshal, Tariff.toJSON, server, Except.toOption]

/-! ## Requests -/

/-- C5. For every token, each of the three fetches sends exactly one request: a POST to
the one GraphQL endpoint whose `Authorization` header is `"Bearer "` followed by the
token's `access_token` and whose body is the fixed query of that fetch, the same for every
token and environment. -/
theorem fetch_requests (w : World) (token : Token) :
    sends (getConsumption w token).events = [consumptionRequest token] ∧
    sends (getBalance w token).events = [balanceRequest token] ∧
    sends (getTariff w token).events = [tariffRequest token] ∧
    (consumptionRequest token).method = "POST" ∧
    (balanceRequest token).method = "POST" ∧
    (tariffRequest token).method = "POST" ∧
    (consumptionRequest token).url = "https://api.lidl-connect.de/api/graphql" ∧
    (balanceRequest token).url = "https://api.lidl-connect.de/api/graphql" ∧
    (tariffRequest token).url = "https://api.lidl-connect.de/api/graphql" ∧
    (consumptionRequest token).Get "Authorization" = some ("Bearer " ++ token.Access_token) ∧
    (balanceRequest token).Get "Authorization" = some ("Bearer " ++ token.Access_token) ∧
    (tariffRequest token).Get "Authorization" = some ("Bearer " ++ token.Access_token) ∧
    (consumptionRequest token).body = Payload.raw consumptionQuery ∧
    (balanceRequest token).body = Payload.raw balanceQuery ∧
    (tariffRequest token).body = Payload.raw tariffQuery := by
  refine ⟨?_, ?_, ?_, rfl, rfl, rfl, rfl, rfl, rfl, ?_, ?_, ?_, rfl, rfl, rfl⟩
  · unfold getConsumption
    cases w.Do (consumptionRequest token) <;> rfl
  · rw [getBalance_eq]; rfl
  · rw [getTariff_eq]; rfl
  · simp [consumptionRequest, Request.Get, Request.Set, NewRequest, List.lookup]
  · simp [balanceRequest, Request.Get, Request.Set, NewRequest, List.lookup]
  · simp [tariffRequest, Request.Get, Request.Set, NewRequest, List.lookup]

/-! ## Configuration -/

/-- C4. For every configuration file that is read successfully, `getConfiguration` returns,
for each of the five keys, the file's value when the key is present; for an absent key it
returns `"lidl"` for `client_id` and `client_secret`, `"password"` for `grant_type`, and
the empty string for `username` and `password`. -/
theorem getConfiguration_defaults (w : World) (settings : List (String × String))
    (h : w.readInConfig "config" "json" ["$HOME/.config/lidl-connect"] = Except.ok settings) :
    ∃ config, (getConfiguration w).result = Except.ok config ∧
      (∀ v, settings.lookup "grant_type" = some v → config.Grant_type = v) ∧
      (∀ v, settings.lookup "client_id" = some v → config.Client_id = v) ∧
      (∀ v, settings.lookup "client_secret" = some v → config.Client_secret = v) ∧
      (∀ v, settings.lookup "username" = some v → config.Username = v) ∧
      (∀ v, settings.lookup "password" = some v → config.Password = v) ∧
      (settings.lookup "grant_type" = none → config.Grant_type = "password") ∧
      (settings.lookup "client_id" = none → config.Client_id = "lidl") ∧
      (settings.lookup "client_secret" = none → config.Client_secret = "lidl") ∧
      (settings.lookup "username" = none → config.Username = "") ∧
      (settings.lookup "password" = none → config.Password = "") := by
  refine ⟨_, by rw [getConfiguration_eq, h], ?_, ?_, ?_, ?_, ?_, ?_, ?_, ?_, ?_, ?_⟩
  · intro v hv; show (settings.lookup "grant_type").getD "password" = v; rw [hv]; rfl
  · intro v hv; show (settings.lookup "client_id").getD "lidl" = v; rw [hv]; rfl
  · intro v hv; show (settings.lookup "client_secret").getD "lidl" = v; rw [hv]; rfl
  · intro v hv; show (settings.lookup "username").getD "" = v; rw [hv]; rfl
  · intro v hv; show (settings.lookup "password").getD "" = v; rw [hv]; rfl
  · intro hv; show (settings.lookup "grant_type").getD "password" = "password"; rw [hv]; rfl
  · intro hv; show (settings.lookup "client_id").getD "lidl" = "lidl"; rw [hv]; rfl
  · intro hv; show (settings.lookup "client_secret").getD "lidl" = "lidl"; rw [hv]; rfl
  · intro hv; show (settings.lookup "username").getD "" = ""; rw [hv]; rfl
  · intro hv; show (settings.lookup "password").getD "" = ""; rw [hv]; rfl

/-- C4, instance: a file that sets `username`, `password` and `client_id` only. -/
theorem getConfiguration_defaults_witness :
    (getConfiguration (configured [("username", "0151"), ("password", "pw"),
      ("client_id", "app")])).result
      = Except.ok ⟨"password", "app", "lidl", "0151", "pw"⟩ := by
  obtain ⟨config, h, -, h2, -, h4, h5, h6, -, h8, -, -⟩ := getConfiguration_defaults
    (configured [("username", "0151"), ("password", "pw"), ("client_id", "app")])
    [("username", "0151"), ("password", "pw"), ("client_id", "app")] rfl
  rw [h]
  have a := h2 "app" (by decide)
  have b := h4 "0151" (by decide)
  have c := h5 "pw" (by decide)
  have d := h6 (by decide)
  have e := h8 (by decide)
  obtain ⟨g, i, s, u, p⟩ := config
  simp only at a b c d e
  subst a b c d e
  rfl

/-! ## Extraction -/

theorem carries_unmarshal {parseTime : String → Option Time} {x : JSON} {c : Consumption}
    (date : Time) (h : unmarshalConsumption parseTime x = some c) :
    Carries parseTime x (fillConsumption date c) := by
  unfold unmarshalConsumption at h
  split at h
  · rename_i consumed left max expirationDate h1 h2 h3 h4
    simp only [Option.some.injEq] at h
    subst h
    refine ⟨?_, ?_, ?_, ?_, ?_, ?_⟩
    · intro n hn hx
      rw [hx, asUint_natCast hn, Option.some.injEq] at h1
      exact h1.symm
    · intro n hn hx
      rw [hx, asUint_natCast hn, Option.some.injEq] at h2
      exact h2.symm
    · intro n hn hx
      rw [hx, asUint_natCast hn, Option.some.injEq] at h3
      exact h3.symm
    · intro s hx
      show JSON.asString (x.member "unit") = s
      rw [hx]; rfl
    · intro s hx
      show JSON.asString (x.member "type") = s
      rw [hx]; rfl
    · intro s t hx ht
      rw [hx] at h4
      have h5 : parseTime s = some expirationDate := h4
      rw [ht, Option.some.injEq] at h5
      exact h5.symm
  · simp at h

theorem typed_unmarshal {parseTime : String → Option Time} {x : JSON}
    (h : Typed parseTime x) : ∃ c, unmarshalConsumption parseTime x = some c := by
  obtain ⟨⟨n1, hn1, h1⟩, ⟨n2, hn2, h2⟩, ⟨n3, hn3, h3⟩, -, -, ⟨s, t, h4, ht⟩⟩ := h
  have h5 : JSON.asTime parseTime (some (JSON.str s)) = some t := ht
  unfold unmarshalConsumption
  rw [h1, h2, h3, h4, asUint_natCast hn1, asUint_natCast hn2, asUint_natCast hn3, h5]
  exact ⟨_, rfl⟩

theorem unmarshalElements_carries {parseTime : String → Option Time} (date : Time) :
    ∀ {xs : List JSON} {cs : List Consumption}, unmarshalElements parseTime xs = some cs →
      List.Forall₂ (Carries parseTime) xs (cs.map (fillConsumption date))
  | [], cs, h => by
    simp only [unmarshalElements, Option.some.injEq] at h
    subst h
    exact List.Forall₂.nil
  | x :: xs, cs, h => by
    unfold unmarshalElements at h
    split at h
    · rename_i c0 cs0 h1 h2
      simp only [Option.some.injEq] at h
      subst h
      exact List.Forall₂.cons (carries_unmarshal date h1) (unmarshalElements_carries date h2)
    · simp at h

theorem unmarshalElements_typed {parseTime : String → Option Time} :
    ∀ {xs : List JSON}, (∀ x ∈ xs, Typed parseTime x) →
      ∃ cs, unmarshalElements parseTime xs = some cs
  | [], _ => ⟨[], rfl⟩
  | x :: xs, h => by
    obtain ⟨c, hc⟩ := typed_unmarshal (h x (List.mem_cons_self _ _))
    obtain ⟨cs, hcs⟩ := unmarshalElements_typed (fun y hy => h y (List.mem_cons_of_mem _ hy))
    refine ⟨c :: cs, ?_⟩
    unfold unmarshalElements
    rw [hc, hcs]

/-- C6. For every response body that is a JSON text. `Balance` is the value at
`data.currentCustomer.balance` when that is a whole number below `2 ^ 64` written in plain
digits. The tariff's `Name` is the value at `data.tariffs.bookedTariff.name` when that is a
string; then `Fee` is the value at `.basicFee` when that is a whole number below `2 ^ 64`
in plain digits; and then `RenewDate` is the value at `.renewContractDate` when that is a
string that reads as a timestamp. For an array at `data.consumptions.consumptionsForUnit`,
a consumption list that is returned has one record per element, in the same order, each
carrying that element's `consumed`, `left`, `max`, `unit`, `type` and `expirationDate`
where they have the types of the fields; and the list is returned when every element has
`consumed`, `left` and `max` as whole numbers below `2 ^ 64` in plain digits, `unit` and
`type` as strings and `expirationDate` as a string that reads as a timestamp. -/
theorem extraction_at_paths (w : World) (token : Token) :
    (∀ (j : JSON) (n : ℕ), n < 2 ^ 64 → w.Do (balanceRequest token) = Except.ok (some j) →
      j.path ["data", "currentCustomer", "balance"] = some (JSON.num n) →
      (getBalance w token).result = Except.ok ⟨n⟩) ∧
    (∀ (j : JSON) (name : String), w.Do (tariffRequest token) = Except.ok (some j) →
      j.path ["data", "tariffs", "bookedTariff", "name"] = some (JSON.str name) →
      ∃ tariff, (getTariff w token).result = Except.ok tariff ∧ tariff.Name = name ∧
        ∀ fee : ℕ, fee < 2 ^ 64 →
          j.path ["data", "tariffs", "bookedTariff", "basicFee"] = some (JSON.num fee) →
          tariff.Fee = fee ∧
          ∀ (date : String) (t : Time),
            j.path ["data", "tariffs", "bookedTariff", "renewContractDate"]
              = some (JSON.str date) →
            w.parseTime date = some t → tariff.RenewDate = t) ∧
    (∀ (j : JSON) (xs : List JSON), w.Do (consumptionRequest token) = Except.ok (some j) →
      j.path ["data", "consumptions", "consumptionsForUnit"] = some (JSON.arr xs) →
      (∀ cs, (getConsumption w token).result = Except.ok ⟨some cs⟩ →
        List.Forall₂ (Carries w.parseTime) xs cs) ∧
      ((∀ x ∈ xs, Typed w.parseTime x) →
        ∃ cs, (getConsumption w token).result = Except.ok ⟨some cs⟩)) := by
  refine ⟨?_, ?_, ?_⟩
  · intro j n hn hdo hp
    rw [getBalance_eq, hdo]
    simp only [unmarshalBalance, hp, asUint_natCast hn]
  · intro j name hdo h1
    refine ⟨unmarshalTariff w.parseTime (some j), by rw [getTariff_eq, hdo], ?_, ?_⟩
    · unfold unmarshalTariff
      simp only [h1]
      split
      · rfl
      · split <;> rfl
    · intro fee hfee h2
      unfold unmarshalTariff
      simp only [h2, asUint_natCast hfee]
      refine ⟨by split <;> rfl, ?_⟩
      intro date t h3 ht
      have h4 : JSON.asTime w.parseTime (some (JSON.str date)) = some t := ht
      simp only [h3, h4]
  · intro j xs hdo hp
    have hu : unmarshalConsumptions w.parseTime (some j)
        = ⟨unmarshalElements w.parseTime xs⟩ := by
      unfold unmarshalConsumptions
      simp only [hp]
    rw [getConsumption_of_do hdo, hu]
    refine ⟨?_, ?_⟩
    · intro cs h
      simp only [Except.ok.injEq, Consumptions.mk.injEq] at h
      cases hl : unmarshalElements w.parseTime xs with
      | none => rw [hl] at h; simp at h
      | some l =>
        rw [hl] at h
        simp only [Option.map_some', Option.some.injEq] at h
        rw [← h]
        exact unmarshalElements_carries w.now hl
    · intro hall
      obtain ⟨l, hl⟩ := unmarshalElements_typed hall
      exact ⟨l.map (fillConsumption w.now), by rw [hl]; rfl⟩

/-- C6, instance: sample responses to the three queries. -/
theorem extraction_at_paths_witness :
    (getBalance (server (some (balanceBody 1234)) Time.zero Time.zero) ⟨"", 0, "", ""⟩).result
      = Except.ok ⟨1234⟩ ∧
    (getTariff (server (some (tariffBody "Smart S" 799 "2026-12-01T00:00:00+01:00")) Time.zero
      ⟨5, 3600⟩) ⟨"", 0, "", ""⟩).result = Except.ok ⟨"Smart S", 799, ⟨5, 3600⟩⟩ ∧
    ∃ cs, (getConsumption (server (some (consumptionBody 40 60 100 "")) Time.zero Time.zero)
        ⟨"", 0, "", ""⟩).result = Except.ok ⟨some cs⟩ ∧
      List.Forall₂ (Carries (fun _ => some Time.zero))
        [JSON.obj [("consumed", JSON.num 40), ("unit", JSON.str "GB"),
          ("type", JSON.str "DATA"), ("expirationDate", JSON.str ""),
          ("left", JSON.num 60), ("max", JSON.num 100)]] cs := by
  refine ⟨?_, ?_, ?_⟩
  · exact (extraction_at_paths (server (some (balanceBody 1234)) Time.zero Time.zero)
      ⟨"", 0, "", ""⟩).1 (balanceBody 1234) 1234 (by norm_num) rfl (by
        simp [balanceBody, JSON.path, JSON.member, List.lookup])
  · obtain ⟨tariff, h, h1, h2⟩ := (extraction_at_paths
      (server (some (tariffBody "Smart S" 799 "2026-12-01T00:00:00+01:00")) Time.zero ⟨5, 3600⟩)
      ⟨"", 0, "", ""⟩).2.1 (tariffBody "Smart S" 799 "2026-12-01T00:00:00+01:00") "Smart S" rfl
      (by simp [tariffBody, JSON.path, JSON.member, List.lookup])
    obtain ⟨h3, h4⟩ := h2 799 (by norm_num)
      (by simp [tariffBody, JSON.path, JSON.member, List.lookup])
    have h5 := h4 "2026-12-01T00:00:00+01:00" ⟨5, 3600⟩
      (by simp [tariffBody, JSON.path, JSON.member, List.lookup]) rfl
    rw [h]
    obtain ⟨name, fee, renewDate⟩ := tariff
    simp only at h1 h3 h5
    subst h1 h3 h5
    rfl
  · have h := (extraction_at_paths (server (some (consumptionBody 40 60 100 "")) Time.zero
      Time.zero) ⟨"", 0, "", ""⟩).2.2 (consumptionBody 40 60 100 "")
      [JSON.obj [("consumed", JSON.num 40), ("unit", JSON.str "GB"),
        ("type", JSON.str "DATA"), ("expirationDate", JSON.str ""),
        ("left", JSON.num 60), ("max", JSON.num 100)]] rfl rfl
    obtain ⟨cs, hcs⟩ := h.2 (by
      intro x hx
      rw [List.mem_singleton] at hx
      subst hx
      exact ⟨⟨40, by norm_num, rfl⟩, ⟨60, by norm_num, rfl⟩, ⟨100, by norm_num, rfl⟩,
        ⟨"GB", rfl⟩, ⟨"DATA", rfl⟩, ⟨"", Time.zero, rfl, rfl⟩⟩)
    exact ⟨cs, hcs, h.1 cs hcs⟩

/-- C6, counterexample: values at the fixed paths that are not extracted. With two elements
in the array, the second without `consumed`, no list is returned; the balance `100.0` is
read as 0; and without `basicFee` the tariff keeps the zero `RenewDate` although
`renewContractDate` holds a timestamp. -/
theorem extraction_stops_at_unreadable_value :
    (getConsumption (server (some (JSON.obj [("data", JSON.obj [("consumptions",
        JSON.obj [("consumptionsForUnit", JSON.arr [
          JSON.obj [("consumed", JSON.num 40), ("unit", JSON.str "GB"),
            ("type", JSON.str "DATA"), ("expirationDate", JSON.str "2026-12-01T00:00:00+01:00"),
            ("left", JSON.num 60), ("max", JSON.num 100)],
          JSON.obj [("unit", JSON.str "MIN"),
            ("type", JSON.str "VOICE"), ("expirationDate", JSON.str "2026-12-01T00:00:00+01:00"),
            ("left", JSON.num 60), ("max", JSON.num 100)]])])])]))
      Time.zero ⟨5, 3600⟩) ⟨"", 0, "", ""⟩).result = Except.ok ⟨none⟩ ∧
    (getBalance (server (some (JSON.obj [("data", JSON.obj [("currentCustomer",
        JSON.obj [("balance", JSON.lit "100.0")])])])) Time.zero Time.zero)
      ⟨"", 0, "", ""⟩).result = Except.ok ⟨0⟩ ∧
    (getTariff (server (some (JSON.obj [("data", JSON.obj [("tariffs", JSON.obj [("bookedTariff",
        JSON.obj [("name", JSON.str "Smart S"),
          ("renewContractDate", JSON.str "2026-12-01T00:00:00+01:00")])])])]))
      Time.zero ⟨5, 3600⟩) ⟨"", 0, "", ""⟩).result = Except.ok ⟨"Smart S", 0, Time.zero⟩ := by
  refine ⟨?_, ?_, ?_⟩ <;> rfl

end LidlConnect
